import Mathlib

/-!
Calypso peripherals: UART, SPI + TWL3025 shadow registers, socket bridge.

A shallow embedding of the device models in `hw/char/calypso_uart.c`,
`hw/ssi/calypso_spi.c` and `hw/arm/calypso/calypso_socket_improved.c`, and of the memory
regions registered by `hw/arm/calypso/calypso_soc.c` and `hw/arm/calypso/calypso_mb.c`.

Conventions.
* A `uint8_t` / `uint16_t` / `uint32_t` / `uint64_t` value is a `Nat`; where the
  C code stores a wider value into a narrower field the truncation is written
  out (`% 256`, `% 65536`).
* A C array is a function from indices to values.
* Calls that leave the device (`qemu_irq_raise`, `qemu_irq_lower`,
  `qemu_chr_fe_write_all`, `close`, ...) are returned by the embedded function
  as a list of events, oldest first.
* Diagnostic output (`fprintf(stderr, ...)`, `qemu_log_mask`) is not modelled.
-/

set_option autoImplicit false

namespace Calypso

/-! ## UART (hw/char/calypso_uart.c): definitions -/

namespace UART

/-- Capacity of the receive FIFO, `CALYPSO_UART_RX_FIFO_SIZE`. -/
def CALYPSO_UART_RX_FIFO_SIZE : Nat := 16

/- Register offsets -/

def REG_RBR_THR : Nat := 0x00

def REG_IER : Nat := 0x01

def REG_IIR_FCR : Nat := 0x02

def REG_LCR : Nat := 0x03

def REG_MCR : Nat := 0x04

def REG_LSR : Nat := 0x05

def REG_MSR : Nat := 0x06

def REG_SPR : Nat := 0x07

def REG_MDR1 : Nat := 0x08

/- IER bits -/

def IER_RX_DATA : Nat := 1

def IER_TX_EMPTY : Nat := 2

def IER_RX_LINE : Nat := 4

/- IIR values -/

def IIR_NO_INT : Nat := 0x01

def IIR_RX_LINE : Nat := 0x06

def IIR_RX_DATA : Nat := 0x04

def IIR_TX_EMPTY : Nat := 0x02

/- LCR bits -/

def LCR_DLAB : Nat := 0x80

/- LSR bits -/

def LSR_DR : Nat := 0x01

def LSR_OE : Nat := 0x02

def LSR_THRE : Nat := 0x20

def LSR_TEMT : Nat := 0x40

/- MSR bits -/

def MSR_CTS : Nat := 0x10

def MSR_DSR : Nat := 0x20

def MSR_DCD : Nat := 0x80

/- FCR bits -/

def FCR_RX_RESET : Nat := 0x02

/-- The fields of `CalypsoUARTState` that the register logic reads or writes.
The `qemu_irq` line and the character backend are outside the structure: what
is sent to them is returned by the functions below. -/
structure CalypsoUARTState where
  rbr : Nat
  ier : Nat
  iir : Nat
  fcr : Nat
  lcr : Nat
  mcr : Nat
  lsr : Nat
  msr : Nat
  spr : Nat
  dll : Nat
  dlh : Nat
  mdr1 : Nat
  rx_fifo : Nat → Nat
  rx_head : Nat
  rx_tail : Nat
  rx_count : Nat
  irq_level : Bool
  thr_empty_pending : Bool

/-- Embeds `fifo_push`: a full buffer sets `LSR_OE` and drops the byte; otherwise the
byte is stored at `rx_head`, which advances modulo the capacity. -/
def fifo_push (s : CalypsoUARTState) (data : Nat) : CalypsoUARTState :=
  if s.rx_count ≥ CALYPSO_UART_RX_FIFO_SIZE then
    { s with lsr := s.lsr ||| LSR_OE }
  else
    { s with
      rx_fifo := Function.update s.rx_fifo s.rx_head data
      rx_head := (s.rx_head + 1) % CALYPSO_UART_RX_FIFO_SIZE
      rx_count := s.rx_count + 1 }

/-- Embeds `fifo_pop`: returns 0 on an empty buffer; otherwise the byte at `rx_tail`,
which advances modulo the capacity. -/
def fifo_pop (s : CalypsoUARTState) : Nat × CalypsoUARTState :=
  if s.rx_count = 0 then (0, s)
  else
    (s.rx_fifo s.rx_tail,
     { s with
       rx_tail := (s.rx_tail + 1) % CALYPSO_UART_RX_FIFO_SIZE
       rx_count := s.rx_count - 1 })

/-- Embeds `fifo_reset`. -/
def fifo_reset (s : CalypsoUARTState) : CalypsoUARTState :=
  { s with rx_head := 0, rx_tail := 0, rx_count := 0 }

/-- The cause selected by `calypso_uart_update_irq` (its local `iir`). -/
def irq_cause (s : CalypsoUARTState) : Nat :=
  if s.ier &&& IER_RX_LINE ≠ 0 ∧ s.lsr &&& LSR_OE ≠ 0 then IIR_RX_LINE
  else if s.ier &&& IER_RX_DATA ≠ 0 ∧ s.lsr &&& LSR_DR ≠ 0 then IIR_RX_DATA
  else if s.ier &&& IER_TX_EMPTY ≠ 0 ∧ s.thr_empty_pending = true then IIR_TX_EMPTY
  else IIR_NO_INT

/-- The local `want` of `calypso_uart_update_irq`: set in exactly the branches
that select a cause. -/
def irq_want (s : CalypsoUARTState) : Bool :=
  if s.ier &&& IER_RX_LINE ≠ 0 ∧ s.lsr &&& LSR_OE ≠ 0 then true
  else if s.ier &&& IER_RX_DATA ≠ 0 ∧ s.lsr &&& LSR_DR ≠ 0 then true
  else if s.ier &&& IER_TX_EMPTY ≠ 0 ∧ s.thr_empty_pending = true then true
  else false

/-- Embeds `calypso_uart_update_irq`: stores the cause in `iir`, and calls
`qemu_irq_raise` (event `true`) or `qemu_irq_lower` (event `false`) only when
`want` differs from the tracked `irq_level`. -/
def calypso_uart_update_irq (s : CalypsoUARTState) : CalypsoUARTState × List Bool :=
  let want := irq_want s
  let s1 := { s with iir := irq_cause s }
  if want = true ∧ s1.irq_level = false then
    ({ s1 with irq_level := true }, [true])
  else if want = false ∧ s1.irq_level = true then
    ({ s1 with irq_level := false }, [false])
  else
    (s1, [])

/-- The push loop of `calypso_uart_receive`. -/
def push_all (s : CalypsoUARTState) : List Nat → CalypsoUARTState
  | [] => s
  | b :: bs => push_all (fifo_push s b) bs

/-- Embeds `calypso_uart_receive`: push every byte, set `LSR_DR` when the buffer is
non-empty, recompute the interrupt. -/
def calypso_uart_receive (s : CalypsoUARTState) (buf : List Nat) :
    CalypsoUARTState × List Bool :=
  let s1 := push_all s buf
  let s2 := if s1.rx_count > 0 then { s1 with lsr := s1.lsr ||| LSR_DR } else s1
  calypso_uart_update_irq s2

/-- Result of a guest read: the value, the new state, the interrupt events. -/
structure ReadResult where
  val : Nat
  st : CalypsoUARTState
  irq : List Bool

/-- Embeds `calypso_uart_read`. `s->lsr & ~LSR_DR` on a `uint8_t` is `lsr &&& 0xFE`,
`s->lsr &= ~LSR_OE` is `lsr &&& 0xFD`. -/
def calypso_uart_read (s : CalypsoUARTState) (offset : Nat) : ReadResult :=
  if offset = REG_RBR_THR then
    if s.lcr &&& LCR_DLAB ≠ 0 then ⟨s.dll, s, []⟩
    else
      let p := fifo_pop s
      let s1 := p.2
      let s2 := { s1 with
        lsr := if s1.rx_count > 0 then s1.lsr ||| LSR_DR else s1.lsr &&& 0xFE }
      let u := calypso_uart_update_irq s2
      ⟨p.1, u.1, u.2⟩
  else if offset = REG_IER then
    ⟨if s.lcr &&& LCR_DLAB ≠ 0 then s.dlh else s.ier, s, []⟩
  else if offset = REG_IIR_FCR then
    if s.iir &&& 0x0F = IIR_TX_EMPTY then
      let u := calypso_uart_update_irq { s with thr_empty_pending := false }
      ⟨s.iir, u.1, u.2⟩
    else ⟨s.iir, s, []⟩
  else if offset = REG_LCR then ⟨s.lcr, s, []⟩
  else if offset = REG_MCR then ⟨s.mcr, s, []⟩
  else if offset = REG_LSR then ⟨s.lsr, { s with lsr := s.lsr &&& 0xFD }, []⟩
  else if offset = REG_MSR then ⟨MSR_CTS ||| MSR_DSR ||| MSR_DCD, s, []⟩
  else if offset = REG_SPR then ⟨s.spr, s, []⟩
  else if offset = REG_MDR1 then ⟨s.mdr1, s, []⟩
  else ⟨0, s, []⟩

/-- Result of a guest write: the new state, the interrupt events, the bytes
handed to `qemu_chr_fe_write_all`. -/
structure WriteResult where
  st : CalypsoUARTState
  irq : List Bool
  chr : List Nat

/-- Embeds `calypso_uart_write`. A `uint64_t` value stored in a `uint8_t` register is
reduced modulo 256. -/
def calypso_uart_write (s : CalypsoUARTState) (offset value : Nat) : WriteResult :=
  if offset = REG_RBR_THR then
    if s.lcr &&& LCR_DLAB ≠ 0 then ⟨{ s with dll := value % 256 }, [], []⟩
    else
      let ch := value % 256
      let s1 := { s with lsr := s.lsr ||| (LSR_THRE ||| LSR_TEMT), thr_empty_pending := true }
      let u := calypso_uart_update_irq s1
      ⟨u.1, u.2, [ch]⟩
  else if offset = REG_IER then
    if s.lcr &&& LCR_DLAB ≠ 0 then ⟨{ s with dlh := value % 256 }, [], []⟩
    else
      let old := s.ier
      let s1 := { s with ier := value &&& 0x0F }
      let s2 :=
        if old &&& IER_TX_EMPTY = 0 ∧ s1.ier &&& IER_TX_EMPTY ≠ 0 ∧ s1.lsr &&& LSR_THRE ≠ 0 then
          { s1 with thr_empty_pending := true }
        else s1
      let u := calypso_uart_update_irq s2
      ⟨u.1, u.2, []⟩
  else if offset = REG_IIR_FCR then
    let s1 := { s with fcr := value % 256 }
    if value &&& FCR_RX_RESET ≠ 0 then
      let s2 := fifo_reset s1
      ⟨{ s2 with lsr := s2.lsr &&& 0xFE }, [], []⟩
    else ⟨s1, [], []⟩
  else if offset = REG_LCR then ⟨{ s with lcr := value % 256 }, [], []⟩
  else if offset = REG_MCR then ⟨{ s with mcr := value % 256 }, [], []⟩
  else if offset = REG_SPR then ⟨{ s with spr := value % 256 }, [], []⟩
  else if offset = REG_MDR1 then ⟨{ s with mdr1 := value % 256 }, [], []⟩
  else ⟨s, [], []⟩

/-- Embeds `calypso_uart_reset_state`. The interrupt line itself is not touched. -/
def calypso_uart_reset_state (s : CalypsoUARTState) : CalypsoUARTState :=
  fifo_reset { s with
    ier := 0, iir := IIR_NO_INT, fcr := 0, lcr := 0, mcr := 0
    lsr := LSR_THRE ||| LSR_TEMT
    msr := MSR_CTS ||| MSR_DSR ||| MSR_DCD
    spr := 0, dll := 0, dlh := 0, mdr1 := 0
    irq_level := false, thr_empty_pending := false }

/-- One operation on the device: a guest read, a guest write, or a batch of
bytes delivered by the host character backend. -/
inductive Op where
  | read (offset : Nat)
  | write (offset value : Nat)
  | receive (buf : List Nat)

/-- State after one operation. -/
def step (s : CalypsoUARTState) : Op → CalypsoUARTState
  | .read offset => (calypso_uart_read s offset).st
  | .write offset value => (calypso_uart_write s offset value).st
  | .receive buf => (calypso_uart_receive s buf).1

/-- Interrupt notifications delivered by one operation. -/
def stepIrq (s : CalypsoUARTState) : Op → List Bool
  | .read offset => (calypso_uart_read s offset).irq
  | .write offset value => (calypso_uart_write s offset value).irq
  | .receive buf => (calypso_uart_receive s buf).2

/-- State after a sequence of operations. -/
def run (s : CalypsoUARTState) : List Op → CalypsoUARTState
  | [] => s
  | op :: ops => run (step s op) ops

/-- All interrupt notifications delivered during a sequence of operations. -/
def runIrq (s : CalypsoUARTState) : List Op → List Bool
  | [] => []
  | op :: ops => stepIrq s op ++ runIrq (step s op) ops

/-- States the device can be in: a reset of anything, followed by operations. -/
inductive Reachable : CalypsoUARTState → Prop where
  | reset (s0 : CalypsoUARTState) : Reachable (calypso_uart_reset_state s0)
  | step {s : CalypsoUARTState} (op : Op) : Reachable s → Reachable (step s op)

/-- The bytes held in the ring buffer, oldest first. -/
def held (s : CalypsoUARTState) : List Nat :=
  (List.range s.rx_count).map fun i => s.rx_fifo ((s.rx_tail + i) % CALYPSO_UART_RX_FIFO_SIZE)

/-- Performs `n` guest reads of the data register (offset 0); returns the values read, in
order, and the final state. -/
def read_data : Nat → CalypsoUARTState → List Nat × CalypsoUARTState
  | 0, s => ([], s)
  | n + 1, s =>
    let r := calypso_uart_read s REG_RBR_THR
    let rest := read_data n r.st
    (r.val :: rest.1, rest.2)

/-- The object as allocated (zero-filled) before its first reset. -/
def zeroState : CalypsoUARTState :=
  { rbr := 0, ier := 0, iir := 0, fcr := 0, lcr := 0, mcr := 0, lsr := 0, msr := 0
    spr := 0, dll := 0, dlh := 0, mdr1 := 0, rx_fifo := fun _ => 0
    rx_head := 0, rx_tail := 0, rx_count := 0, irq_level := false
    thr_empty_pending := false }

/-- Well-formedness of the ring indices. -/
def RingOk (s : CalypsoUARTState) : Prop :=
  s.rx_count ≤ 16 ∧ s.rx_tail < 16 ∧ s.rx_head = (s.rx_tail + s.rx_count) % 16

/-- Seventeen bytes, one more than the receive FIFO holds. -/
def demoBytes : List Nat := [1, 2, 3, 4, 5, 6, 7, 8, 9, 10, 11, 12, 13, 14, 15, 16, 17]

/-- Writes each value of the list to the data register (offset 0), in order; returns the
final state and all bytes handed to the backend. -/
def write_data : CalypsoUARTState → List Nat → CalypsoUARTState × List Nat
  | s, [] => (s, [])
  | s, v :: vs =>
    let r := calypso_uart_write s REG_RBR_THR v
    let rest := write_data r.st vs
    (rest.1, r.chr ++ rest.2)

/-- A list of notifications alternates, starting with `expect`. -/
def alternating : Bool → List Bool → Bool
  | _, [] => true
  | expect, e :: es => e == expect && alternating (!expect) es

/-- The identification register reports a cause (anything but `IIR_NO_INT`). -/
def cause_reported (s : CalypsoUARTState) : Bool := s.iir != IIR_NO_INT

/-- Shape of an operation from `s` with resulting state `st` and notifications `irq`: it
either ends in `calypso_uart_update_irq` (applied to a state with the same tracked level), or
delivers nothing and leaves `iir`, `irq_level`, `ier` alone while `lsr` is kept or masked. -/
def Shape (s st : CalypsoUARTState) (irq : List Bool) : Prop :=
  (∃ t : CalypsoUARTState, t.irq_level = s.irq_level ∧
    st = (calypso_uart_update_irq t).1 ∧ irq = (calypso_uart_update_irq t).2) ∨
  (irq = [] ∧ st.iir = s.iir ∧ st.irq_level = s.irq_level ∧ st.ier = s.ier ∧
    (st.lsr = s.lsr ∨ ∃ m, st.lsr = s.lsr &&& m))

/-- What holds of the interrupt fields in every reachable state. -/
def IrqInv (s : CalypsoUARTState) : Prop :=
  (s.iir = 1 ∨ s.iir = 2 ∨ s.iir = 4 ∨ s.iir = 6) ∧
  (s.irq_level = true ↔ s.iir ≠ 1) ∧
  (s.iir = 2 → ¬ (s.ier &&& IER_RX_LINE ≠ 0 ∧ s.lsr &&& LSR_OE ≠ 0) ∧
    ¬ (s.ier &&& IER_RX_DATA ≠ 0 ∧ s.lsr &&& LSR_DR ≠ 0))

/-- Enable the received-data interrupt, receive one byte, then reset the receive FIFO
through the FIFO-control register. -/
def staleOps : List Op := [.write 1 1, .receive [0x41], .write 2 2]

/-- An operation of the device's lifetime: a guest or host operation, or a device reset. -/
inductive DevOp where
  | op (o : Op)
  | reset

/-- State after one lifetime operation. -/
def devStep (s : CalypsoUARTState) : DevOp → CalypsoUARTState
  | .op o => step s o
  | .reset => calypso_uart_reset_state s

/-- Interrupt notifications of one lifetime operation; `calypso_uart_reset_state` makes no
call on the interrupt line. -/
def devIrq (s : CalypsoUARTState) : DevOp → List Bool
  | .op o => stepIrq s o
  | .reset => []

/-- State after a sequence of lifetime operations. -/
def devRun (s : CalypsoUARTState) : List DevOp → CalypsoUARTState
  | [] => s
  | o :: os => devRun (devStep s o) os

/-- All interrupt notifications delivered during a sequence of lifetime operations. -/
def devRunIrq (s : CalypsoUARTState) : List DevOp → List Bool
  | [] => []
  | o :: os => devIrq s o ++ devRunIrq (devStep s o) os

/-- Enable the TX-empty interrupt (the line is raised), reset the device, enable the
TX-empty interrupt again. -/
def resetOps : List DevOp := [.op (.write 1 2), .reset, .op (.write 1 2)]

/-- The data-ready bit of LSR is set exactly when the receive buffer holds a byte. -/
def DrInv (s : CalypsoUARTState) : Prop := s.lsr &&& LSR_DR ≠ 0 ↔ 0 < s.rx_count

/-- Enable the received-data and line-status interrupts, then receive seventeen bytes: the
buffer is full and the overrun bit is set. -/
def overrunOps : List Op := [.write 1 5, .receive demoBytes]

/-- The value a guest read returns, as a one-element list; other operations return no
value. -/
def stepVal (s : CalypsoUARTState) : Op → List Nat
  | .read offset => [(calypso_uart_read s offset).val]
  | _ => []

/-- The values returned by the guest reads of a sequence of operations, in order. -/
def runVals (s : CalypsoUARTState) : List Op → List Nat
  | [] => []
  | op :: ops => stepVal s op ++ runVals (step s op) ops

/-- The bytes one operation hands to the character backend. -/
def stepChr (s : CalypsoUARTState) : Op → List Nat
  | .write offset value => (calypso_uart_write s offset value).chr
  | _ => []

/-- All bytes handed to the character backend during a sequence of operations, in order. -/
def runChr (s : CalypsoUARTState) : List Op → List Nat
  | [] => []
  | op :: ops => stepChr s op ++ runChr (step s op) ops

/-- The operation is a guest read of the mode register (offset 8). -/
def readsMode : Op → Bool
  | .read offset => decide (offset = REG_MDR1)
  | _ => false

/-- Two states agree on every field except the mode byte: `t` is `s` with `mdr1`
replaced. -/
def SameButMode (s t : CalypsoUARTState) : Prop := t = { s with mdr1 := t.mdr1 }

/-- A short session: enable the THR-empty interrupt, send a byte, receive two bytes, read
one of them, read the identification and line-status registers, write the mode byte. -/
def modeOps : List Op :=
  [.write 1 2, .write 0 0x41, .receive [7, 9], .read 0, .read 2, .read 5, .write 8 3, .read 0]

end UART

/-! ## SPI and TWL3025 shadow registers (hw/ssi/calypso_spi.c): definitions -/

namespace SPI

/- Register offsets -/

def SPI_REG_SET1 : Nat := 0x00

def SPI_REG_SET2 : Nat := 0x02

def SPI_REG_CTRL : Nat := 0x04

def SPI_REG_STATUS : Nat := 0x06

def SPI_REG_TX_LSB : Nat := 0x08

def SPI_REG_TX_MSB : Nat := 0x0A

def SPI_REG_RX_LSB : Nat := 0x0C

def SPI_REG_RX_MSB : Nat := 0x0E

/- CTRL bits -/

def SPI_CTRL_START : Nat := 1

/- TWL3025 register addresses used by the transaction logic -/

def ABB_VRPCDEV : Nat := 0x01

def ABB_VRPCSTS : Nat := 0x02

def ABB_ITSTATREG : Nat := 0x1B

/- SPI status bits -/

def SPI_STATUS_RE : Nat := 2

/-- The register fields of `CalypsoSPIState`; `abb_regs` is the 256-entry shadow table. -/
structure CalypsoSPIState where
  set1 : Nat
  set2 : Nat
  ctrl : Nat
  status : Nat
  tx_data : Nat
  rx_data : Nat
  abb_regs : Nat → Nat

/-- Embeds `twl3025_spi_xfer`: returns the receive word and the state with the shadow table
as the transaction leaves it. -/
def twl3025_spi_xfer (s : CalypsoSPIState) (tx : Nat) : Nat × CalypsoSPIState :=
  let read := (tx >>> 15) &&& 1
  let addr0 := (tx >>> 6) &&& 0x1FF
  let wdata := tx &&& 0x3F
  let addr := if addr0 ≥ 256 then 0 else addr0
  if read ≠ 0 then
    (s.abb_regs addr, s)
  else
    let s1 := { s with abb_regs := Function.update s.abb_regs addr wdata }
    let s2 :=
      if addr = ABB_VRPCDEV then
        { s1 with abb_regs := Function.update s1.abb_regs ABB_VRPCSTS 0x1F }
      else s1
    (0, s2)

/-- Embeds `calypso_spi_read`. -/
def calypso_spi_read (s : CalypsoSPIState) (offset : Nat) : Nat :=
  if offset = SPI_REG_SET1 then s.set1
  else if offset = SPI_REG_SET2 then s.set2
  else if offset = SPI_REG_CTRL then s.ctrl
  else if offset = SPI_REG_STATUS then SPI_STATUS_RE
  else if offset = SPI_REG_TX_LSB then s.tx_data &&& 0xFF
  else if offset = SPI_REG_TX_MSB then (s.tx_data >>> 8) &&& 0xFF
  else if offset = SPI_REG_RX_LSB then s.rx_data &&& 0xFF
  else if offset = SPI_REG_RX_MSB then (s.rx_data >>> 8) &&& 0xFF
  else 0

/-- Embeds `calypso_spi_write`: the new state and the interrupt events; `qemu_irq_pulse` is a
raise (`true`) followed by a lower (`false`). -/
def calypso_spi_write (s : CalypsoSPIState) (offset value : Nat) : CalypsoSPIState × List Bool :=
  if offset = SPI_REG_SET1 then ({ s with set1 := value &&& 0xFFFF }, [])
  else if offset = SPI_REG_SET2 then ({ s with set2 := value &&& 0xFFFF }, [])
  else if offset = SPI_REG_CTRL then
    let s1 := { s with ctrl := value &&& 0xFFFF }
    if value &&& SPI_CTRL_START ≠ 0 then
      let x := twl3025_spi_xfer s1 s1.tx_data
      ({ x.2 with rx_data := x.1 }, [true, false])
    else (s1, [])
  else if offset = SPI_REG_STATUS then (s, [])
  else if offset = SPI_REG_TX_LSB then
    ({ s with tx_data := (s.tx_data &&& 0xFF00) ||| (value &&& 0xFF) }, [])
  else if offset = SPI_REG_TX_MSB then
    ({ s with tx_data := (s.tx_data &&& 0x00FF) ||| ((value &&& 0xFF) <<< 8) }, [])
  else if offset = SPI_REG_RX_LSB then (s, [])
  else if offset = SPI_REG_RX_MSB then (s, [])
  else (s, [])

/-- Embeds `calypso_spi_reset`. -/
def calypso_spi_reset (s : CalypsoSPIState) : CalypsoSPIState :=
  { s with
    set1 := 0, set2 := 0, ctrl := 0, status := SPI_STATUS_RE, tx_data := 0, rx_data := 0
    abb_regs := Function.update (Function.update (fun _ => 0) ABB_VRPCSTS 0x1F) ABB_ITSTATREG 0x00 }

/-- A state whose transmit word is `0x8040` and whose shadow entry 1 holds `0x2A`. -/
def demoRead : CalypsoSPIState :=
  { set1 := 0, set2 := 0, ctrl := 0, status := 2, tx_data := 0x8040, rx_data := 0
    abb_regs := fun k => if k = 1 then 0x2A else 0 }

/-- A state whose transmit word is `0x0055`: write, index 1, payload `0x15`. -/
def demoWrite : CalypsoSPIState :=
  { set1 := 0, set2 := 0, ctrl := 0, status := 2, tx_data := 0x0055, rx_data := 0
    abb_regs := fun _ => 0 }

/-- A state whose transmit word is `0x4055`: write, index field 257, payload `0x15`. -/
def demoClamp : CalypsoSPIState :=
  { set1 := 0, set2 := 0, ctrl := 0, status := 2, tx_data := 0x4055, rx_data := 0
    abb_regs := fun _ => 0 }

/-- One event on the SPI block: a guest read, a guest write, or a device reset. -/
inductive SpiOp where
  | read (offset : Nat)
  | write (offset value : Nat)
  | reset

/-- State after one event; `calypso_spi_read` changes no field. -/
def spiStep (s : CalypsoSPIState) : SpiOp → CalypsoSPIState
  | .read _ => s
  | .write offset value => (calypso_spi_write s offset value).1
  | .reset => calypso_spi_reset s

/-- State after a sequence of events. -/
def spiRun (s : CalypsoSPIState) : List SpiOp → CalypsoSPIState
  | [] => s
  | op :: ops => spiRun (spiStep s op) ops

/-- Every shadow-table entry and the receive word fit in six bits. -/
def SixBit (s : CalypsoSPIState) : Prop := (∀ k : Nat, s.abb_regs k ≤ 0x3F) ∧ s.rx_data ≤ 0x3F

end SPI

/-! ## Socket bridge (hw/arm/calypso/calypso_socket_improved.c): definitions -/

namespace Socket

/- Register offsets -/

def CALYPSO_SOCKET_CTRL : Nat := 0x00

def CALYPSO_SOCKET_STATUS : Nat := 0x04

def CALYPSO_SOCKET_DATA : Nat := 0x08

/- Control bits -/

def CALYPSO_SOCKET_CTRL_START : Nat := 1

def CALYPSO_SOCKET_CTRL_STOP : Nat := 2

def CALYPSO_SOCKET_CTRL_RESET : Nat := 4

/- Status bits -/

def CALYPSO_SOCKET_STATUS_READY : Nat := 1

def CALYPSO_SOCKET_STATUS_ERROR : Nat := 2

def CALYPSO_SOCKET_STATUS_TX : Nat := 4

/-- Size of `rx_buffer`, `sizeof(s->rx_buffer)`. -/
def RX_BUFFER_SIZE : Nat := 1024

/-- The fields of `CalypsoSocketState` used by the register and callback logic. -/
structure CalypsoSocketState where
  socket_fd : Int
  client_fd : Int
  rx_buffer : Nat → Nat
  rx_len : Nat
  status : Nat

/-- Calls on host descriptors made by the device: `qemu_set_fd_handler` with no handlers
(`unregister`) or with the read handler (`register_read`), `close`, `accept` with the value
it returned, the `fcntl` pair that sets `O_NONBLOCK`, the one-byte `send`, and `unlink` of
the configured socket path. -/
inductive HostCall where
  | unregister (fd : Int)
  | close (fd : Int)
  | accept (listen_fd : Int) (accepted : Int)
  | set_nonblock (fd : Int)
  | register_read (fd : Int)
  | send (fd : Int) (byte : Nat)
  | unlink_path
deriving DecidableEq

/-- Outcome of `recv` on the client descriptor: the bytes received (none for an orderly
close, `recv` returning 0), or a failure, with whether `errno` is `EAGAIN`/`EWOULDBLOCK`. -/
inductive RecvResult where
  | bytes (data : List Nat)
  | error (would_block : Bool)

/-- Embeds `calypso_socket_read_handler`, given the outcome of its `recv`. The sum
`rx_len + bytes_received` is a 32-bit unsigned sum; `status &= ~READY` on a `uint32_t` is
`status &&& 0xFFFFFFFE`. -/
def calypso_socket_read_handler (s : CalypsoSocketState) :
    RecvResult → CalypsoSocketState × List HostCall
  | .bytes data =>
    let bytes_received := data.length
    if bytes_received > 0 then
      if (s.rx_len + bytes_received) % 2 ^ 32 < RX_BUFFER_SIZE then
        ({ s with
           rx_buffer := fun i =>
             if s.rx_len ≤ i ∧ i < s.rx_len + bytes_received then data.getD (i - s.rx_len) 0
             else s.rx_buffer i
           rx_len := (s.rx_len + bytes_received) % 2 ^ 32
           status := s.status ||| CALYPSO_SOCKET_STATUS_READY }, [])
      else
        ({ s with status := s.status ||| CALYPSO_SOCKET_STATUS_ERROR }, [])
    else
      ({ s with client_fd := -1, status := s.status &&& 0xFFFFFFFE },
       [.unregister s.client_fd, .close s.client_fd])
  | .error would_block =>
    if would_block = false then
      ({ s with status := s.status ||| CALYPSO_SOCKET_STATUS_ERROR, client_fd := -1 },
       [.unregister s.client_fd, .close s.client_fd])
    else (s, [])

/-- Embeds `calypso_socket_read`: the value read and the new state. The `memmove` shifts the
first `rx_len` bytes (after the decrement) down by one. -/
def calypso_socket_read (s : CalypsoSocketState) (offset : Nat) : Nat × CalypsoSocketState :=
  if offset = CALYPSO_SOCKET_STATUS then (s.status, s)
  else if offset = CALYPSO_SOCKET_DATA then
    if s.rx_len > 0 then
      let data := s.rx_buffer 0
      let s1 := { s with rx_len := s.rx_len - 1 }
      let s2 := { s1 with
        rx_buffer := fun i => if i < s1.rx_len then s1.rx_buffer (i + 1) else s1.rx_buffer i }
      let s3 := if s2.rx_len = 0 then { s2 with status := s2.status &&& 0xFFFFFFFE } else s2
      (data, s3)
    else (0, s)
  else (0, s)

/-- The bytes waiting in the receive buffer, oldest first. -/
def buffered (s : CalypsoSocketState) : List Nat := (List.range s.rx_len).map s.rx_buffer

/-- Runs the read handler once per received chunk, in order. -/
def receive_chunks (s : CalypsoSocketState) : List (List Nat) → CalypsoSocketState
  | [] => s
  | c :: cs => receive_chunks (calypso_socket_read_handler s (.bytes c)).1 cs

/-- Performs `n` guest reads of the data register; returns the values, in order, and the
final state. -/
def read_port : Nat → CalypsoSocketState → List Nat × CalypsoSocketState
  | 0, s => ([], s)
  | n + 1, s =>
    let r := calypso_socket_read s CALYPSO_SOCKET_DATA
    let rest := read_port n r.2
    (r.1 :: rest.1, rest.2)

/-- A bridge with a listening socket, a connected client and an empty buffer. -/
def connected : CalypsoSocketState :=
  { socket_fd := 3, client_fd := 4, rx_buffer := fun _ => 0, rx_len := 0, status := 1 }

/-- A bridge whose receive buffer holds 1023 bytes. -/
def nearlyFull : CalypsoSocketState :=
  { socket_fd := 3, client_fd := 4, rx_buffer := fun _ => 0x55, rx_len := 1023, status := 1 }

/-- Outcome of the one-byte `send` on the client descriptor: its return value, and whether
`errno` is `EAGAIN`/`EWOULDBLOCK` when it is negative. -/
structure SendResult where
  sent : Int
  would_block : Bool

/-- Embeds `calypso_socket_reset`: both descriptors, when open, are unregistered and closed;
`status` and `rx_len` are cleared. -/
def calypso_socket_reset (s : CalypsoSocketState) : CalypsoSocketState × List HostCall :=
  let e1 : List HostCall :=
    if s.socket_fd ≥ 0 then [.unregister s.socket_fd, .close s.socket_fd] else []
  let s1 := if s.socket_fd ≥ 0 then { s with socket_fd := -1 } else s
  let e2 : List HostCall :=
    if s1.client_fd ≥ 0 then [.unregister s1.client_fd, .close s1.client_fd] else []
  let s2 := if s1.client_fd ≥ 0 then { s1 with client_fd := -1 } else s1
  ({ s2 with status := 0, rx_len := 0 }, e1 ++ e2)

/-- Embeds `calypso_socket_accept_handler`, given the value `accept` returns (a new descriptor,
or a negative value on failure). An existing client is unregistered and closed first. -/
def calypso_socket_accept_handler (s : CalypsoSocketState) (accepted : Int) :
    CalypsoSocketState × List HostCall :=
  let e1 : List HostCall :=
    if s.client_fd ≥ 0 then [.unregister s.client_fd, .close s.client_fd] else []
  let s1 := { s with client_fd := accepted }
  if s1.client_fd < 0 then
    (s1, e1 ++ [.accept s.socket_fd accepted])
  else
    ({ s1 with status := s1.status ||| CALYPSO_SOCKET_STATUS_READY },
     e1 ++ [.accept s.socket_fd accepted, .set_nonblock s1.client_fd,
            .register_read s1.client_fd])

/-- The control-register case of `calypso_socket_write`: start, then stop, then reset, each
when its bit is set in `value`. -/
def socket_ctrl_write (s : CalypsoSocketState) (value : Nat) :
    CalypsoSocketState × List HostCall :=
  let s1 :=
    if value &&& CALYPSO_SOCKET_CTRL_START ≠ 0 then
      if s.socket_fd ≥ 0 ∧ s.client_fd < 0 then
        { s with status := s.status ||| CALYPSO_SOCKET_STATUS_READY }
      else s
    else s
  let r2 : CalypsoSocketState × List HostCall :=
    if value &&& CALYPSO_SOCKET_CTRL_STOP ≠ 0 then
      let e : List HostCall :=
        if s1.client_fd ≥ 0 then [.unregister s1.client_fd, .close s1.client_fd] else []
      let t := if s1.client_fd ≥ 0 then { s1 with client_fd := -1 } else s1
      ({ t with status := t.status &&& 0xFFFFFFFE }, e)
    else (s1, [])
  if value &&& CALYPSO_SOCKET_CTRL_RESET ≠ 0 then
    ((calypso_socket_reset r2.1).1, r2.2 ++ (calypso_socket_reset r2.1).2)
  else r2

/-- The data-register case of `calypso_socket_write`, given the outcome of the `send` it
makes when a client is connected. -/
def socket_data_write (s : CalypsoSocketState) (value : Nat) (snd : SendResult) :
    CalypsoSocketState × List HostCall :=
  if s.client_fd ≥ 0 then
    let byte := value &&& 0xFF
    let s1 :=
      if snd.sent < 0 ∧ snd.would_block = false then
        { s with status := s.status ||| CALYPSO_SOCKET_STATUS_ERROR }
      else if snd.sent > 0 then
        { s with status := s.status ||| CALYPSO_SOCKET_STATUS_TX }
      else s
    (s1, [.send s.client_fd byte])
  else (s, [])

/-- Embeds `calypso_socket_write`; `snd` is the outcome of the `send` of the data case. -/
def calypso_socket_write (s : CalypsoSocketState) (offset value : Nat) (snd : SendResult) :
    CalypsoSocketState × List HostCall :=
  if offset = CALYPSO_SOCKET_CTRL then socket_ctrl_write s value
  else if offset = CALYPSO_SOCKET_DATA then socket_data_write s value snd
  else (s, [])

/-- Embeds `calypso_socket_instance_init`. -/
def calypso_socket_instance_init (s : CalypsoSocketState) : CalypsoSocketState :=
  { s with socket_fd := -1, client_fd := -1, status := 0, rx_len := 0 }

/-- One event on the bridge: the accept callback (with what `accept` returns), the receive
callback (with what `recv` returns), a guest read, a guest write (with what `send` returns
if it is called), or a device reset. -/
inductive SockOp where
  | accept (accepted : Int)
  | receive (r : RecvResult)
  | read (offset : Nat)
  | write (offset value : Nat) (snd : SendResult)
  | reset

/-- State and host calls of one event. -/
def sockStep (s : CalypsoSocketState) : SockOp → CalypsoSocketState × List HostCall
  | .accept accepted => calypso_socket_accept_handler s accepted
  | .receive r => calypso_socket_read_handler s r
  | .read offset => ((calypso_socket_read s offset).2, [])
  | .write offset value snd => calypso_socket_write s offset value snd
  | .reset => calypso_socket_reset s

/-- State after a sequence of events. -/
def sockRun (s : CalypsoSocketState) : List SockOp → CalypsoSocketState
  | [] => s
  | op :: ops => sockRun (sockStep s op).1 ops

/-- All host calls made during a sequence of events, in order. -/
def sockCalls (s : CalypsoSocketState) : List SockOp → List HostCall
  | [] => []
  | op :: ops => (sockStep s op).2 ++ sockCalls (sockStep s op).1 ops

/-- The accepted client descriptors open after one host call, given those open before it
(`live`): a successful `accept` opens the descriptor it returned, `close` closes its
argument, other calls open and close nothing. -/
def clientsAfter (live : List Int) : HostCall → List Int
  | .accept _ accepted => if accepted ≥ 0 then live ++ [accepted] else live
  | .close fd => live.erase fd
  | _ => live

/-- The accepted client descriptors open after a list of host calls. -/
def openClients (live : List Int) (calls : List HostCall) : List Int :=
  calls.foldl clientsAfter live

/-- At most one accepted client descriptor is open before, between and after the host
calls of the list. -/
def atMostOneOpen (live : List Int) : List HostCall → Prop
  | [] => live.length ≤ 1
  | c :: cs => live.length ≤ 1 ∧ atMostOneOpen (clientsAfter live c) cs

/-- The client descriptor the device holds, as a list: empty when none is connected. -/
def heldClient (s : CalypsoSocketState) : List Int :=
  if s.client_fd ≥ 0 then [s.client_fd] else []

/-- The host calls `calls` of a step from `s` to `t` keep at most one accepted client open
throughout, and the clients open afterwards are exactly the one `t` holds, when those open
before are exactly the one `s` holds. -/
def StepOk (s t : CalypsoSocketState) (calls : List HostCall) : Prop :=
  atMostOneOpen (heldClient s) calls ∧ openClients (heldClient s) calls = heldClient t

/-- Descriptors are `-1` or non-negative, as `instance_init`, `socket` and `accept` make
them. -/
def FdOk (s : CalypsoSocketState) : Prop := -1 ≤ s.socket_fd ∧ -1 ≤ s.client_fd

/-- A bridge as realize leaves it: listening on descriptor 3, no client. -/
def listening : CalypsoSocketState :=
  { socket_fd := 3, client_fd := -1, rx_buffer := fun _ => 0, rx_len := 0, status := 0 }

/-- A client connects, sends one byte, and the guest reads it: the client is still
connected and the ready bit is clear again. -/
def drainedOps : List SockOp := [.accept 4, .receive (.bytes [0x41]), .read 0x08]

/-- Embeds `calypso_socket_finalize`: an open listening descriptor is unregistered and closed
and the socket path unlinked; an open client descriptor is unregistered and closed. -/
def calypso_socket_finalize (s : CalypsoSocketState) : CalypsoSocketState × List HostCall :=
  let e1 : List HostCall :=
    if s.socket_fd ≥ 0 then [.unregister s.socket_fd, .close s.socket_fd, .unlink_path] else []
  let s1 := if s.socket_fd ≥ 0 then { s with socket_fd := -1 } else s
  let e2 : List HostCall :=
    if s1.client_fd ≥ 0 then [.unregister s1.client_fd, .close s1.client_fd] else []
  let s2 := if s1.client_fd ≥ 0 then { s1 with client_fd := -1 } else s1
  (s2, e1 ++ e2)

/-- The guest writes the reset bit to the control register of a realized bridge. -/
def guestResetOps : List SockOp := [.write 0x00 4 ⟨0, false⟩]

/-- The event resets the bridge: a device reset, or a guest write to the control register
with the reset bit set. -/
def resets : SockOp → Bool
  | .reset => true
  | .write offset value _ =>
    decide (offset = CALYPSO_SOCKET_CTRL ∧ value &&& CALYPSO_SOCKET_CTRL_RESET ≠ 0)
  | _ => false

/-- A receive callback delivers at most 1024 bytes, the size of the local buffer handed to
`recv`. -/
def recvBounded : SockOp → Bool
  | .receive (.bytes data) => decide (data.length ≤ 1024)
  | _ => true

/-- A failed send sets the error bit; then the client sends a byte, the guest reads status
and data, stops and starts the bridge, and a new client connects. -/
def stickyOps : List SockOp :=
  [.write 0x08 0x55 ⟨-1, false⟩, .receive (.bytes [0x41]), .read 0x04, .read 0x08,
   .write 0x00 2 ⟨0, false⟩, .write 0x00 1 ⟨0, false⟩, .accept 5]

/-- A client connects and sends three bytes; the guest reads one. -/
def fillOps : List SockOp := [.accept 4, .receive (.bytes [1, 2, 3]), .read 0x08]

end Socket

/-! ## Address-space composition (hw/arm/calypso/calypso_soc.c, calypso_mb.c): definitions -/

namespace SoC

/- Memory map -/

def CALYPSO_IRAM_BASE : Nat := 0x00800000

def CALYPSO_IRAM_SIZE : Nat := 256 * 1024

def CALYPSO_SPI_BASE : Nat := 0xFFFE3000

def CALYPSO_KEYPAD_BASE : Nat := 0xFFFE4800

def CALYPSO_UART_IRDA : Nat := 0xFFFF5000

def CALYPSO_UART_MODEM : Nat := 0xFFFF5800

def CALYPSO_XRAM_BASE : Nat := 0x01000000

def CALYPSO_XRAM_SIZE : Nat := 8 * 1024 * 1024

/-- The memory regions whose base, size and priority are fixed in `calypso_soc_realize` and
`calypso_machine_init` (with the sizes the I2C, SPI and UART devices give their region in
their realize functions), by the name they are created with. The interrupt controller, the
timers, the transceiver bridge and the flash are mapped too, but their sizes are set
elsewhere. -/
inductive RegionName where
  | iram | iram_alias | i2c | spi | uart_modem | uart_irda
  | keypad | tmr6800 | mmio_80xx | conf | mmio_98xx | dpll | rhea | clkm | mmio_fcxx | cntl
  | dio | low300 | catchall | xram | ram_alias0
deriving DecidableEq

/-- A subregion of the system memory container as registered. -/
structure Region where
  name : RegionName
  base : Nat
  size : Nat
  priority : Int

/-- Registers a region with `memory_region_add_subregion`, which takes no priority: the
region gets the default priority `dflt` of the memory core (0 in QEMU). -/
def memory_region_add_subregion (dflt : Int) (name : RegionName) (base size : Nat) : Region :=
  ⟨name, base, size, dflt⟩

/-- Registers a region with `memory_region_add_subregion_overlap` at the given priority. -/
def memory_region_add_subregion_overlap (name : RegionName) (base size : Nat)
    (priority : Int) : Region :=
  ⟨name, base, size, priority⟩

/-- Maps a device region with `sysbus_mmio_map`, which takes no priority either: the region
gets the priority `mapped` the bus helper uses (0 in QEMU). -/
def sysbus_mmio_map (mapped : Int) (name : RegionName) (base size : Nat) : Region :=
  ⟨name, base, size, mapped⟩

/-- Embeds `add_stub`: a 0x100-byte I/O region added with `memory_region_add_subregion`. -/
def add_stub (dflt : Int) (name : RegionName) (base : Nat) : Region :=
  memory_region_add_subregion dflt name base 0x100

/-- The regions `calypso_soc_realize` registers, in order. -/
def calypso_soc_realize (dflt mapped : Int) : List Region :=
  [ memory_region_add_subregion dflt .iram CALYPSO_IRAM_BASE CALYPSO_IRAM_SIZE,
    memory_region_add_subregion dflt .iram_alias 0x00000000 CALYPSO_IRAM_SIZE,
    sysbus_mmio_map mapped .i2c 0xFFFE1800 0x100,
    sysbus_mmio_map mapped .spi CALYPSO_SPI_BASE 0x100,
    sysbus_mmio_map mapped .uart_modem CALYPSO_UART_MODEM 0x100,
    sysbus_mmio_map mapped .uart_irda CALYPSO_UART_IRDA 0x100,
    add_stub dflt .keypad CALYPSO_KEYPAD_BASE,
    add_stub dflt .tmr6800 0xFFFE6800,
    add_stub dflt .mmio_80xx 0xFFFE8000,
    add_stub dflt .conf 0xFFFEF000,
    add_stub dflt .mmio_98xx 0xFFFF9800,
    add_stub dflt .dpll 0xFFFFF000,
    add_stub dflt .rhea 0xFFFFF900,
    add_stub dflt .clkm 0xFFFFFB00,
    add_stub dflt .mmio_fcxx 0xFFFFFC00,
    add_stub dflt .cntl 0xFFFFFD00,
    add_stub dflt .dio 0xFFFFFF00,
    add_stub dflt .low300 0x00000300,
    memory_region_add_subregion_overlap .catchall 0xFFF00000 0x100000 (-1) ]

/-- The regions registered by `calypso_machine_init`: those of the SoC it realizes, then
the external RAM and the low-vector alias. -/
def calypso_machine_init (dflt mapped : Int) : List Region :=
  calypso_soc_realize dflt mapped ++
  [ memory_region_add_subregion dflt .xram CALYPSO_XRAM_BASE CALYPSO_XRAM_SIZE,
    memory_region_add_subregion_overlap .ram_alias0 0x00000000 (128 * 1024) 1 ]

/-- The address ranges `[base, base + size)` of two regions intersect. -/
def overlaps (a b : Region) : Bool :=
  decide (a.base < b.base + b.size ∧ b.base < a.base + a.size)

/-- Two regions have the same priority and intersecting address ranges. -/
def clash (a b : Region) : Bool := decide (a.priority = b.priority) && overlaps a b

/-- The pairs (earlier, later) of a registration list that clash. -/
def clashes : List Region → List (RegionName × RegionName)
  | [] => []
  | r :: rs => ((rs.filter (clash r)).map fun q => (r.name, q.name)) ++ clashes rs

end SoC

/-! ## UART: theorems -/

namespace UART

/-! ### Bit-mask facts -/

theorem and_two_ne_zero_iff (x : Nat) : x &&& 2 ≠ 0 ↔ x.testBit 1 = true := by
  have h := Nat.and_two_pow x 1
  simp only [pow_one] at h
  rw [h]; cases x.testBit 1 <;> simp

theorem and_one_ne_zero_iff (x : Nat) : x &&& 1 ≠ 0 ↔ x.testBit 0 = true := by
  have h := Nat.and_two_pow x 0
  simp only [pow_zero] at h
  rw [h]; cases x.testBit 0 <;> simp

theorem and_four_ne_zero_iff (x : Nat) : x &&& 4 ≠ 0 ↔ x.testBit 2 = true := by
  have h := Nat.and_two_pow x 2
  norm_num at h
  rw [h]; cases x.testBit 2 <;> simp

theorem or_two_and_two (x : Nat) : (x ||| 2) &&& 2 ≠ 0 := by
  rw [and_two_ne_zero_iff]; simp +decide

theorem or_one_and_two (x : Nat) : (x ||| 1) &&& 2 = x &&& 2 := by
  apply Nat.eq_of_testBit_eq
  intro i
  simp only [Nat.testBit_and, Nat.testBit_or]
  rcases i with _ | _ | i <;> simp [Nat.testBit_succ]

/-! ### The ring buffer -/

theorem held_length (s : CalypsoUARTState) : (held s).length = s.rx_count := by
  simp [held]

theorem fifo_push_of_lt (s : CalypsoUARTState) (b : Nat) (hc : s.rx_count < 16) :
    fifo_push s b = { s with
      rx_fifo := Function.update s.rx_fifo s.rx_head b
      rx_head := (s.rx_head + 1) % 16
      rx_count := s.rx_count + 1 } := by
  unfold fifo_push
  rw [if_neg (by simp only [CALYPSO_UART_RX_FIFO_SIZE]; omega)]
  rfl

theorem fifo_push_room (s : CalypsoUARTState) (b : Nat) (h : RingOk s) (hc : s.rx_count < 16) :
    held (fifo_push s b) = held s ++ [b] ∧ RingOk (fifo_push s b) ∧
    (fifo_push s b).rx_count = s.rx_count + 1 ∧ (fifo_push s b).lsr = s.lsr ∧
    (fifo_push s b).lcr = s.lcr := by
  obtain ⟨h1, h2, h3⟩ := h
  rw [fifo_push_of_lt s b hc]
  refine ⟨?_, ⟨by simp only; omega, h2, ?_⟩, rfl, rfl, rfl⟩
  · simp only [held, List.range_succ, List.map_append, List.map_cons,
      List.map_nil, CALYPSO_UART_RX_FIFO_SIZE]
    congr 1
    · apply List.map_congr_left
      intro i hi
      rw [List.mem_range] at hi
      apply Function.update_noteq
      rw [h3]; omega
    · rw [← h3]; simp
  · simp only; rw [h3]; omega

theorem fifo_push_full (s : CalypsoUARTState) (b : Nat) (hc : s.rx_count = 16) :
    fifo_push s b = { s with lsr := s.lsr ||| LSR_OE } := by
  simp [fifo_push, CALYPSO_UART_RX_FIFO_SIZE, hc]

theorem push_all_spec (L : List Nat) : ∀ s : CalypsoUARTState, RingOk s →
    held (push_all s L) = held s ++ L.take (16 - s.rx_count) ∧
    RingOk (push_all s L) ∧
    (push_all s L).rx_count = min (s.rx_count + L.length) 16 ∧
    (L.length ≤ 16 - s.rx_count → (push_all s L).lsr = s.lsr) ∧
    (16 - s.rx_count < L.length → (push_all s L).lsr = s.lsr ||| LSR_OE) ∧
    (push_all s L).lcr = s.lcr := by
  induction L with
  | nil =>
    intro s h
    have := h.1
    refine ⟨by simp [push_all], h, ?_, fun _ => rfl, ?_, rfl⟩
    · simp only [push_all, List.length_nil]; omega
    · intro hl; simp at hl
  | cons b bs ih =>
    intro s h
    have hle := h.1
    by_cases hc : s.rx_count < 16
    · obtain ⟨p1, p2, p3, p4, p5⟩ := fifo_push_room s b h hc
      obtain ⟨q1, q2, q3, q4, q5, q6⟩ := ih (fifo_push s b) p2
      rw [p3] at q1 q3 q4 q5
      rw [p4] at q4 q5
      have e : 16 - s.rx_count = (16 - (s.rx_count + 1)) + 1 := by omega
      refine ⟨?_, q2, ?_, ?_, ?_, ?_⟩
      · show held (push_all (fifo_push s b) bs) = _
        rw [q1, p1, e, List.take_succ_cons]; simp
      · show (push_all (fifo_push s b) bs).rx_count = _
        rw [q3]; simp only [List.length_cons]; omega
      · intro hl; simp only [List.length_cons] at hl; exact q4 (by omega)
      · intro hl; simp only [List.length_cons] at hl; exact q5 (by omega)
      · show (push_all (fifo_push s b) bs).lcr = _
        rw [q6, p5]
    · have hc16 : s.rx_count = 16 := by omega
      have hok : RingOk (fifo_push s b) := by rw [fifo_push_full s b hc16]; exact h
      have e1 : (fifo_push s b).rx_count = 16 := by rw [fifo_push_full s b hc16]; exact hc16
      have e2 : held (fifo_push s b) = held s := by rw [fifo_push_full s b hc16]; rfl
      have e3 : (fifo_push s b).lsr = s.lsr ||| LSR_OE := by rw [fifo_push_full s b hc16]
      have e4 : (fifo_push s b).lcr = s.lcr := by rw [fifo_push_full s b hc16]
      obtain ⟨q1, q2, q3, q4, q5, q6⟩ := ih _ hok
      rw [e1] at q1 q3 q4 q5
      refine ⟨?_, q2, ?_, ?_, ?_, ?_⟩
      · show held (push_all (fifo_push s b) bs) = _
        rw [q1, e2, hc16]; simp
      · show (push_all (fifo_push s b) bs).rx_count = _
        rw [q3, hc16]; simp
      · intro hl; simp only [List.length_cons] at hl; omega
      · intro _
        show (push_all (fifo_push s b) bs).lsr = _
        by_cases hb : bs.length ≤ 16 - 16
        · rw [q4 hb, e3]
        · rw [q5 (by omega), e3]
          simp only [LSR_OE, Nat.or_assoc, Nat.or_self]
      · show (push_all (fifo_push s b) bs).lcr = _
        rw [q6, e4]

theorem update_irq_state (s : CalypsoUARTState) :
    (calypso_uart_update_irq s).1 = { s with iir := irq_cause s, irq_level := irq_want s } := by
  unfold calypso_uart_update_irq
  cases hw : irq_want s <;> cases hl : s.irq_level <;> simp [hl]

theorem update_irq_events (s : CalypsoUARTState) :
    (calypso_uart_update_irq s).2 = if irq_want s = s.irq_level then [] else [irq_want s] := by
  unfold calypso_uart_update_irq
  cases hw : irq_want s <;> cases hl : s.irq_level <;> simp [hl]

theorem read_data_reg (s : CalypsoUARTState) (h : RingOk s) (hd : s.lcr &&& LCR_DLAB = 0)
    (hc : 0 < s.rx_count) :
    (calypso_uart_read s REG_RBR_THR).val = s.rx_fifo s.rx_tail ∧
    held s = s.rx_fifo s.rx_tail :: held (calypso_uart_read s REG_RBR_THR).st ∧
    RingOk (calypso_uart_read s REG_RBR_THR).st ∧
    (calypso_uart_read s REG_RBR_THR).st.rx_count = s.rx_count - 1 ∧
    (calypso_uart_read s REG_RBR_THR).st.lcr = s.lcr := by
  obtain ⟨h1, h2, h3⟩ := h
  have hne : ¬ s.rx_count = 0 := by omega
  simp only [calypso_uart_read, if_true, hd, ne_eq, not_true_eq_false, if_false,
    update_irq_state, fifo_pop, if_neg hne]
  refine ⟨trivial, ?_, ⟨by simp only; omega, ?_, ?_⟩, trivial, trivial⟩
  · obtain ⟨n, hn⟩ : ∃ n, s.rx_count = n + 1 := ⟨s.rx_count - 1, by omega⟩
    simp only [held, hn, CALYPSO_UART_RX_FIFO_SIZE, Nat.add_sub_cancel]
    rw [List.range_succ_eq_map]
    simp only [List.map_cons, List.map_map, Nat.add_zero]
    congr 1
    · rw [Nat.mod_eq_of_lt h2]
    · apply List.map_congr_left
      intro i _
      simp only [Function.comp]
      congr 1; omega
  · simp only [CALYPSO_UART_RX_FIFO_SIZE]; omega
  · simp only [CALYPSO_UART_RX_FIFO_SIZE]; rw [h3]; omega

theorem read_data_spec (k : Nat) : ∀ s : CalypsoUARTState, RingOk s → s.lcr &&& LCR_DLAB = 0 →
    k ≤ s.rx_count → (read_data k s).1 = (held s).take k := by
  induction k with
  | zero => intro s _ _ _; simp [read_data]
  | succ k ih =>
    intro s h hd hk
    obtain ⟨r1, r2, r3, r4, r5⟩ := read_data_reg s h hd (by omega)
    simp only [read_data]
    rw [ih _ r3 (by rw [r5]; exact hd) (by rw [r4]; omega), r1]
    conv_rhs => rw [r2]
    simp

theorem RingOk_update_irq (s : CalypsoUARTState) (h : RingOk s) :
    RingOk (calypso_uart_update_irq s).1 := by
  rw [update_irq_state]; exact h

theorem RingOk_fifo_pop (s : CalypsoUARTState) (h : RingOk s) : RingOk (fifo_pop s).2 := by
  obtain ⟨h1, h2, h3⟩ := h
  unfold fifo_pop
  split_ifs with hc
  · exact ⟨h1, h2, h3⟩
  · refine ⟨by simp only; omega, ?_, ?_⟩
    · simp only [CALYPSO_UART_RX_FIFO_SIZE]; omega
    · simp only [CALYPSO_UART_RX_FIFO_SIZE]; rw [h3]; omega

theorem RingOk_read (s : CalypsoUARTState) (offset : Nat) (h : RingOk s) :
    RingOk (calypso_uart_read s offset).st := by
  unfold calypso_uart_read
  split_ifs
  all_goals first
    | exact h
    | exact RingOk_update_irq _ h
    | exact RingOk_update_irq _ (RingOk_fifo_pop s h)

theorem RingOk_write (s : CalypsoUARTState) (offset value : Nat) (h : RingOk s) :
    RingOk (calypso_uart_write s offset value).st := by
  unfold calypso_uart_write
  split_ifs
  all_goals first
    | exact h
    | exact RingOk_update_irq _ h
    | (apply RingOk_update_irq; split_ifs <;> exact h)
    | exact ⟨by simp [fifo_reset], by simp [fifo_reset], by simp [fifo_reset]⟩

theorem RingOk_receive (s : CalypsoUARTState) (buf : List Nat) (h : RingOk s) :
    RingOk (calypso_uart_receive s buf).1 := by
  unfold calypso_uart_receive
  apply RingOk_update_irq
  have := (push_all_spec buf s h).2.1
  split_ifs
  · exact this
  · exact this

theorem RingOk_step (s : CalypsoUARTState) (op : Op) (h : RingOk s) : RingOk (step s op) := by
  cases op with
  | read offset => exact RingOk_read s offset h
  | write offset value => exact RingOk_write s offset value h
  | receive buf => exact RingOk_receive s buf h

theorem RingOk_reset (s : CalypsoUARTState) : RingOk (calypso_uart_reset_state s) :=
  ⟨by simp [calypso_uart_reset_state, fifo_reset], by simp [calypso_uart_reset_state, fifo_reset],
   by simp [calypso_uart_reset_state, fifo_reset]⟩

theorem Reachable.ringOk {s : CalypsoUARTState} (h : Reachable s) : RingOk s := by
  induction h with
  | reset s0 => exact RingOk_reset s0
  | step op _ ih => exact RingOk_step _ op ih

theorem receive_fields (s : CalypsoUARTState) (buf : List Nat) :
    held (calypso_uart_receive s buf).1 = held (push_all s buf) ∧
    (calypso_uart_receive s buf).1.rx_count = (push_all s buf).rx_count ∧
    (calypso_uart_receive s buf).1.lcr = (push_all s buf).lcr ∧
    (calypso_uart_receive s buf).1.lsr =
      if (push_all s buf).rx_count > 0 then (push_all s buf).lsr ||| LSR_DR
      else (push_all s buf).lsr := by
  unfold calypso_uart_receive
  simp only [update_irq_state]
  split_ifs <;> exact ⟨rfl, rfl, rfl, rfl⟩

/-- Claim C1. The UART receive buffer is a FIFO of capacity 16. In every state `s` reachable
from reset, with `held s` the byte sequence in the buffer (oldest first), after
`calypso_uart_receive` delivers a byte list `L`: the buffer holds `held s` followed by the
first `16 - |held s|` bytes of `L`; `rx_count = min (|held s| + |L|) 16`; `LSR.OE` is set when
`|L| > 16 - |held s|` and is unchanged otherwise; and, with DLAB clear, `k` successive guest
reads of the data register (offset 0) return the first `k` held bytes, oldest first, for
every `k` up to `rx_count`. -/
theorem rx_fifo_is_fifo (s : CalypsoUARTState) (L : List Nat) (hr : Reachable s) :
    held (calypso_uart_receive s L).1 = held s ++ L.take (16 - (held s).length) ∧
    (calypso_uart_receive s L).1.rx_count = min ((held s).length + L.length) 16 ∧
    (16 - (held s).length < L.length → (calypso_uart_receive s L).1.lsr &&& LSR_OE ≠ 0) ∧
    (L.length ≤ 16 - (held s).length →
      (calypso_uart_receive s L).1.lsr &&& LSR_OE = s.lsr &&& LSR_OE) ∧
    (s.lcr &&& LCR_DLAB = 0 → ∀ k, k ≤ (calypso_uart_receive s L).1.rx_count →
      (read_data k (calypso_uart_receive s L).1).1 = (held (calypso_uart_receive s L).1).take k) := by
  have hok := hr.ringOk
  obtain ⟨p1, p2, p3, p4, p5, p6⟩ := push_all_spec L s hok
  obtain ⟨f1, f2, f3, f4⟩ := receive_fields s L
  rw [held_length]
  refine ⟨by rw [f1, p1], by rw [f2, p3], ?_, ?_, ?_⟩
  · intro hl
    rw [f4, p5 hl]
    split_ifs
    · simp only [LSR_OE, LSR_DR, or_one_and_two]; exact or_two_and_two _
    · exact or_two_and_two _
  · intro hl
    rw [f4, p4 hl]
    split_ifs
    · simp only [LSR_OE, LSR_DR, or_one_and_two]
    · rfl
  · intro hd k hk
    exact read_data_spec k _ (RingOk_receive s L hok) (by rw [f3, p6]; exact hd) hk

/-- Witness for C1: seventeen bytes pushed into the empty buffer after reset. The first
sixteen are retained, the overrun bit is set, and sixteen reads return them in push order. -/
theorem rx_fifo_is_fifo_witness :
    Reachable (calypso_uart_reset_state zeroState) ∧
    (calypso_uart_reset_state zeroState).lcr &&& LCR_DLAB = 0 ∧
    held (calypso_uart_receive (calypso_uart_reset_state zeroState) demoBytes).1
      = [1, 2, 3, 4, 5, 6, 7, 8, 9, 10, 11, 12, 13, 14, 15, 16] ∧
    (calypso_uart_receive (calypso_uart_reset_state zeroState) demoBytes).1.rx_count = 16 ∧
    (calypso_uart_receive (calypso_uart_reset_state zeroState) demoBytes).1.lsr &&& LSR_OE ≠ 0 ∧
    (read_data 16 (calypso_uart_receive (calypso_uart_reset_state zeroState) demoBytes).1).1
      = [1, 2, 3, 4, 5, 6, 7, 8, 9, 10, 11, 12, 13, 14, 15, 16] := by
  have h := rx_fifo_is_fifo (calypso_uart_reset_state zeroState) demoBytes (.reset _)
  obtain ⟨h1, h2, h3, _, h5⟩ := h
  refine ⟨.reset _, by decide, ?_, ?_, ?_, ?_⟩
  · rw [h1]; decide
  · rw [h2]; decide
  · exact h3 (by decide)
  · rw [h5 (by decide) 16 (by rw [h2]; decide), h1]; decide

/-- Claim C2. UART interrupt-cause priority. For every state, after
`calypso_uart_update_irq` the identification register is 0x06 (line status) if IER bit 2 and
`LSR.OE` (bit 1) are both set; otherwise 0x04 (received data) if IER bit 0 and `LSR.DR`
(bit 0) are both set; otherwise 0x02 (THR empty) if IER bit 1 is set and `thr_empty_pending`
is armed; otherwise 0x01 (no interrupt). In particular, with overrun, data-ready and
THR-pending all true and all three enables set, it is 0x06. -/
theorem update_irq_priority (s : CalypsoUARTState) :
    (calypso_uart_update_irq s).1.iir =
      (if s.ier.testBit 2 = true ∧ s.lsr.testBit 1 = true then 0x06
       else if s.ier.testBit 0 = true ∧ s.lsr.testBit 0 = true then 0x04
       else if s.ier.testBit 1 = true ∧ s.thr_empty_pending = true then 0x02
       else 0x01) ∧
    (s.ier.testBit 2 = true ∧ s.ier.testBit 0 = true ∧ s.ier.testBit 1 = true ∧
      s.lsr.testBit 1 = true ∧ s.lsr.testBit 0 = true ∧ s.thr_empty_pending = true →
      (calypso_uart_update_irq s).1.iir = 0x06) := by
  have key : (calypso_uart_update_irq s).1.iir =
      (if s.ier.testBit 2 = true ∧ s.lsr.testBit 1 = true then 0x06
       else if s.ier.testBit 0 = true ∧ s.lsr.testBit 0 = true then 0x04
       else if s.ier.testBit 1 = true ∧ s.thr_empty_pending = true then 0x02
       else 0x01) := by
    rw [update_irq_state]
    simp only [irq_cause, IER_RX_LINE, IER_RX_DATA, IER_TX_EMPTY, LSR_OE, LSR_DR,
      and_four_ne_zero_iff, and_two_ne_zero_iff, and_one_ne_zero_iff,
      IIR_RX_LINE, IIR_RX_DATA, IIR_TX_EMPTY, IIR_NO_INT]
  refine ⟨key, ?_⟩
  rintro ⟨h2, _, _, l1, _, _⟩
  rw [key, if_pos ⟨h2, l1⟩]

theorem thr_write_state (s : CalypsoUARTState) (v : Nat) (hd : s.lcr &&& LCR_DLAB = 0) :
    calypso_uart_write s REG_RBR_THR v =
      ⟨(calypso_uart_update_irq { s with
          lsr := s.lsr ||| (LSR_THRE ||| LSR_TEMT), thr_empty_pending := true }).1,
       (calypso_uart_update_irq { s with
          lsr := s.lsr ||| (LSR_THRE ||| LSR_TEMT), thr_empty_pending := true }).2,
       [v % 256]⟩ := by
  simp [calypso_uart_write, hd]

theorem write_data_chr (vs : List Nat) : ∀ s : CalypsoUARTState, s.lcr &&& LCR_DLAB = 0 →
    (write_data s vs).2 = vs.map (· % 256) := by
  induction vs with
  | nil => intro s _; rfl
  | cons v vs ih =>
    intro s hd
    simp only [write_data, List.map_cons]
    rw [ih _ (by rw [thr_write_state s v hd, update_irq_state]; exact hd), thr_write_state s v hd]
    rfl

/-- Claim C9. UART transmit path. For every state with the divisor-latch-access bit
(`LCR_DLAB`) clear and every written value `v`, a guest write to offset 0 hands exactly one
byte, `v % 256`, to the backend, sets `LSR.THRE` (bit 5) and `LSR.TEMT` (bit 6), arms
`thr_empty_pending`, and leaves the receive buffer, IER, LCR, MCR, scratch, mode and divisor
registers unchanged; a sequence of such writes hands over the bytes in write order. -/
theorem thr_write_forwards (s : CalypsoUARTState) (v : Nat) (hd : s.lcr &&& LCR_DLAB = 0) :
    (calypso_uart_write s REG_RBR_THR v).chr = [v % 256] ∧
    (calypso_uart_write s REG_RBR_THR v).st.lsr = s.lsr ||| 0x60 ∧
    (calypso_uart_write s REG_RBR_THR v).st.lsr.testBit 5 = true ∧
    (calypso_uart_write s REG_RBR_THR v).st.lsr.testBit 6 = true ∧
    (calypso_uart_write s REG_RBR_THR v).st.thr_empty_pending = true ∧
    ((calypso_uart_write s REG_RBR_THR v).st.rx_fifo = s.rx_fifo ∧
     (calypso_uart_write s REG_RBR_THR v).st.rx_head = s.rx_head ∧
     (calypso_uart_write s REG_RBR_THR v).st.rx_tail = s.rx_tail ∧
     (calypso_uart_write s REG_RBR_THR v).st.rx_count = s.rx_count) ∧
    ((calypso_uart_write s REG_RBR_THR v).st.ier = s.ier ∧
     (calypso_uart_write s REG_RBR_THR v).st.lcr = s.lcr ∧
     (calypso_uart_write s REG_RBR_THR v).st.mcr = s.mcr ∧
     (calypso_uart_write s REG_RBR_THR v).st.spr = s.spr ∧
     (calypso_uart_write s REG_RBR_THR v).st.mdr1 = s.mdr1 ∧
     (calypso_uart_write s REG_RBR_THR v).st.dll = s.dll ∧
     (calypso_uart_write s REG_RBR_THR v).st.dlh = s.dlh) ∧
    (∀ vs : List Nat, (write_data s vs).2 = vs.map (· % 256)) := by
  rw [thr_write_state s v hd, update_irq_state]
  refine ⟨rfl, rfl, ?_, ?_, rfl, ⟨rfl, rfl, rfl, rfl⟩, ⟨rfl, rfl, rfl, rfl, rfl, rfl, rfl⟩,
    fun vs => write_data_chr vs s hd⟩
  · simp +decide [LSR_THRE, LSR_TEMT]
  · simp +decide [LSR_THRE, LSR_TEMT]

/-- Witness for C9: after reset, three writes to offset 0; the first value is wider than a
byte. -/
theorem thr_write_forwards_witness :
    (calypso_uart_reset_state zeroState).lcr &&& LCR_DLAB = 0 ∧
    (calypso_uart_write (calypso_uart_reset_state zeroState) REG_RBR_THR 0x141).chr = [0x41] ∧
    (calypso_uart_write (calypso_uart_reset_state zeroState) REG_RBR_THR 0x141).st.thr_empty_pending
      = true ∧
    (write_data (calypso_uart_reset_state zeroState) [0x141, 0x42, 0x243]).2
      = [0x41, 0x42, 0x43] := by
  have h := thr_write_forwards (calypso_uart_reset_state zeroState) 0x141 (by decide)
  exact ⟨by decide, h.1, h.2.2.2.2.1, h.2.2.2.2.2.2.2 [0x141, 0x42, 0x243]⟩

theorem and_mask_ne_zero (x m b : Nat) (h : (x &&& m) &&& b ≠ 0) : x &&& b ≠ 0 := by
  intro h0
  apply h
  rw [Nat.and_assoc, Nat.and_comm m b, ← Nat.and_assoc, h0, Nat.zero_and]

theorem fifo_push_irq_level (s : CalypsoUARTState) (b : Nat) :
    (fifo_push s b).irq_level = s.irq_level ∧ (fifo_push s b).iir = s.iir := by
  unfold fifo_push; split_ifs <;> exact ⟨rfl, rfl⟩

theorem push_all_irq_level (L : List Nat) : ∀ s : CalypsoUARTState,
    (push_all s L).irq_level = s.irq_level ∧ (push_all s L).iir = s.iir := by
  induction L with
  | nil => intro s; exact ⟨rfl, rfl⟩
  | cons b bs ih =>
    intro s
    have h1 := ih (fifo_push s b)
    have h2 := fifo_push_irq_level s b
    exact ⟨h1.1.trans h2.1, h1.2.trans h2.2⟩

theorem Shape.quiet (s : CalypsoUARTState) : Shape s s [] :=
  Or.inr ⟨rfl, rfl, rfl, rfl, Or.inl rfl⟩

theorem Shape.update (s t : CalypsoUARTState) (h : t.irq_level = s.irq_level) :
    Shape s (calypso_uart_update_irq t).1 (calypso_uart_update_irq t).2 :=
  Or.inl ⟨t, h, rfl, rfl⟩

theorem read_shape (s : CalypsoUARTState) (offset : Nat) :
    Shape s (calypso_uart_read s offset).st (calypso_uart_read s offset).irq := by
  unfold calypso_uart_read
  split_ifs
  · exact Shape.quiet s
  · apply Shape.update
    simp only [fifo_pop]; split_ifs <;> rfl
  · exact Shape.quiet s
  · exact Shape.quiet s
  · exact Shape.update s _ rfl
  · exact Shape.quiet s
  · exact Shape.quiet s
  · exact Shape.quiet s
  · exact Or.inr ⟨rfl, rfl, rfl, rfl, Or.inr ⟨_, rfl⟩⟩
  · exact Shape.quiet s
  · exact Shape.quiet s
  · exact Shape.quiet s
  · exact Shape.quiet s

theorem write_shape (s : CalypsoUARTState) (offset value : Nat) :
    Shape s (calypso_uart_write s offset value).st (calypso_uart_write s offset value).irq := by
  unfold calypso_uart_write
  split_ifs
  · exact Or.inr ⟨rfl, rfl, rfl, rfl, Or.inl rfl⟩
  · exact Shape.update s _ rfl
  · exact Or.inr ⟨rfl, rfl, rfl, rfl, Or.inl rfl⟩
  · apply Shape.update
    split_ifs <;> rfl
  · exact Or.inr ⟨rfl, rfl, rfl, rfl, Or.inr ⟨_, rfl⟩⟩
  · exact Or.inr ⟨rfl, rfl, rfl, rfl, Or.inl rfl⟩
  · exact Or.inr ⟨rfl, rfl, rfl, rfl, Or.inl rfl⟩
  · exact Or.inr ⟨rfl, rfl, rfl, rfl, Or.inl rfl⟩
  · exact Or.inr ⟨rfl, rfl, rfl, rfl, Or.inl rfl⟩
  · exact Or.inr ⟨rfl, rfl, rfl, rfl, Or.inl rfl⟩
  · exact Shape.quiet s

theorem receive_shape (s : CalypsoUARTState) (buf : List Nat) :
    Shape s (calypso_uart_receive s buf).1 (calypso_uart_receive s buf).2 := by
  unfold calypso_uart_receive
  apply Shape.update
  split_ifs
  · exact (push_all_irq_level buf s).1
  · exact (push_all_irq_level buf s).1

theorem step_shape (s : CalypsoUARTState) (op : Op) : Shape s (step s op) (stepIrq s op) := by
  cases op with
  | read offset => exact read_shape s offset
  | write offset value => exact write_shape s offset value
  | receive buf => exact receive_shape s buf

theorem IrqInv_update_irq (t : CalypsoUARTState) : IrqInv (calypso_uart_update_irq t).1 := by
  rw [update_irq_state]
  simp only [IrqInv, irq_cause, irq_want, IIR_RX_LINE, IIR_RX_DATA, IIR_TX_EMPTY, IIR_NO_INT]
  split_ifs with h1 h2 h3 <;> simp_all

theorem IrqInv_step (s : CalypsoUARTState) (op : Op) (h : IrqInv s) : IrqInv (step s op) := by
  rcases step_shape s op with ⟨t, _, e, _⟩ | ⟨_, e1, e2, e3, e4⟩
  · rw [e]; exact IrqInv_update_irq t
  · obtain ⟨h1, h2, h3⟩ := h
    refine ⟨by rw [e1]; exact h1, by rw [e1, e2]; exact h2, ?_⟩
    rw [e1, e3]
    intro h
    obtain ⟨a, b⟩ := h3 h
    rcases e4 with e4 | ⟨m, e4⟩
    · rw [e4]; exact ⟨a, b⟩
    · rw [e4]
      exact ⟨fun c => a ⟨c.1, and_mask_ne_zero _ _ _ c.2⟩,
             fun c => b ⟨c.1, and_mask_ne_zero _ _ _ c.2⟩⟩

theorem IrqInv_reset (s : CalypsoUARTState) : IrqInv (calypso_uart_reset_state s) := by
  simp [IrqInv, calypso_uart_reset_state, fifo_reset, IIR_NO_INT]

theorem Reachable.irqInv {s : CalypsoUARTState} (h : Reachable s) : IrqInv s := by
  induction h with
  | reset s0 => exact IrqInv_reset s0
  | step op _ ih => exact IrqInv_step _ op ih

theorem Reachable.run {s : CalypsoUARTState} (h : Reachable s) (ops : List Op) :
    Reachable (run s ops) := by
  induction ops generalizing s with
  | nil => exact h
  | cons op ops ih => exact ih (Reachable.step op h)

/-- One operation delivers nothing and keeps the tracked level, or delivers exactly the
opposite of the tracked level and flips it. -/
theorem step_edge (s : CalypsoUARTState) (op : Op) :
    (stepIrq s op = [] ∧ (step s op).irq_level = s.irq_level) ∨
    (stepIrq s op = [!s.irq_level] ∧ (step s op).irq_level = !s.irq_level) := by
  rcases step_shape s op with ⟨t, e0, e, e'⟩ | ⟨e, _, e2, _⟩
  · rw [e, e', update_irq_state, update_irq_events, ← e0]
    cases hw : irq_want t <;> cases hl : t.irq_level <;> simp
  · exact Or.inl ⟨e, e2⟩

theorem runIrq_alternating (ops : List Op) : ∀ s : CalypsoUARTState,
    alternating (!s.irq_level) (runIrq s ops) = true := by
  induction ops with
  | nil => intro s; rfl
  | cons op ops ih =>
    intro s
    have h := ih (step s op)
    rcases step_edge s op with ⟨e1, e2⟩ | ⟨e1, e2⟩
    · simp only [runIrq, e1, List.nil_append]; rw [← e2]; exact h
    · simp only [runIrq, e1, List.singleton_append, alternating, beq_self_eq_true, Bool.true_and]
      rw [e2] at h; exact h

/-- Edge discipline of the tracked level. For every sequence of guest reads and writes and
host receive batches applied from the reset state, the notifications delivered on the
interrupt line alternate raise, lower, raise, ... starting with a raise; every operation of
such a run delivers at most one notification; and an operation delivers none exactly when
the cause stored in the identification register (`iir` different from `IIR_NO_INT`) is
present before and after, or absent before and after. The stored cause is the one last
computed by `calypso_uart_update_irq`; it need not be the cause of the current registers. -/
theorem irq_edge_discipline (s0 : CalypsoUARTState) (ops : List Op) :
    alternating true (runIrq (calypso_uart_reset_state s0) ops) = true ∧
    (∀ (pre : List Op) (op : Op),
      (stepIrq (run (calypso_uart_reset_state s0) pre) op).length ≤ 1 ∧
      (cause_reported (step (run (calypso_uart_reset_state s0) pre) op)
          = cause_reported (run (calypso_uart_reset_state s0) pre) ↔
        stepIrq (run (calypso_uart_reset_state s0) pre) op = [])) := by
  refine ⟨runIrq_alternating ops (calypso_uart_reset_state s0), ?_⟩
  intro pre op
  have hr : Reachable (run (calypso_uart_reset_state s0) pre) := (Reachable.reset s0).run pre
  generalize run (calypso_uart_reset_state s0) pre = s at hr
  have i1 := hr.irqInv.2.1
  have i2 := (Reachable.step op hr).irqInv.2.1
  have key : cause_reported (step s op) = cause_reported s ↔
      ((step s op).irq_level = s.irq_level) := by
    rw [Bool.eq_iff_iff]
    simp only [cause_reported, IIR_NO_INT, bne_iff_ne]
    rw [← i1, ← i2]
    cases (step s op).irq_level <;> cases s.irq_level <;> simp
  rw [key]
  rcases step_edge s op with ⟨e1, e2⟩ | ⟨e1, e2⟩
  · rw [e1, e2]; simp
  · rw [e1, e2]; cases s.irq_level <;> simp

/-- Claim C7, evaluated where the code departs from it. After `staleOps` from reset (enable
the received-data interrupt, receive one byte, reset the receive FIFO through offset 2) no
cause applies to the current registers (`irq_want` is false, `irq_cause` is no-interrupt)
while the line is still raised. A guest read of the data register (offset 0) then leaves the
cause-present predicate of the registers unchanged (false before and after), yet delivers a
lower notification; so does rewriting IER with the value it already holds. The run as a
whole still alternates: raise, lower. -/
theorem lower_without_cause_change :
    irq_want (run (calypso_uart_reset_state zeroState) staleOps) = false ∧
    irq_cause (run (calypso_uart_reset_state zeroState) staleOps) = IIR_NO_INT ∧
    irq_want (step (run (calypso_uart_reset_state zeroState) staleOps) (.read REG_RBR_THR))
      = false ∧
    irq_cause (step (run (calypso_uart_reset_state zeroState) staleOps) (.read REG_RBR_THR))
      = IIR_NO_INT ∧
    stepIrq (run (calypso_uart_reset_state zeroState) staleOps) (.read REG_RBR_THR)
      = [false] ∧
    (run (calypso_uart_reset_state zeroState) staleOps).ier = 1 ∧
    irq_want (step (run (calypso_uart_reset_state zeroState) staleOps) (.write REG_IER 1))
      = false ∧
    stepIrq (run (calypso_uart_reset_state zeroState) staleOps) (.write REG_IER 1) = [false] ∧
    runIrq (calypso_uart_reset_state zeroState) (staleOps ++ [.read REG_RBR_THR])
      = [true, false] := by
  decide

theorem read_iir_val (s : CalypsoUARTState) : (calypso_uart_read s REG_IIR_FCR).val = s.iir := by
  unfold calypso_uart_read
  rw [if_neg (by decide), if_neg (by decide), if_pos rfl]
  split_ifs <;> rfl

/-- Claim C10. Reading the identification register disarms THR-empty. In every state
reachable from reset in which the identification register reports THR-empty (0x02), a guest
read at offset 2 returns 0x02, clears `thr_empty_pending`, leaves the identification
register reporting no-interrupt (0x01, also what the next read of offset 2 returns) and
lowers the interrupt line (one lower notification, tracked level false). In every reachable
state in which it reports another value, the read returns that value, changes no state and
delivers no notification. -/
theorem iir_read_disarms (s : CalypsoUARTState) (hr : Reachable s) :
    (s.iir = IIR_TX_EMPTY →
      (calypso_uart_read s REG_IIR_FCR).val = 0x02 ∧
      (calypso_uart_read s REG_IIR_FCR).st.thr_empty_pending = false ∧
      (calypso_uart_read s REG_IIR_FCR).st.iir = IIR_NO_INT ∧
      (calypso_uart_read (calypso_uart_read s REG_IIR_FCR).st REG_IIR_FCR).val = 0x01 ∧
      (calypso_uart_read s REG_IIR_FCR).irq = [false] ∧
      (calypso_uart_read s REG_IIR_FCR).st.irq_level = false) ∧
    (s.iir ≠ IIR_TX_EMPTY →
      (calypso_uart_read s REG_IIR_FCR).val = s.iir ∧
      (calypso_uart_read s REG_IIR_FCR).st = s ∧
      (calypso_uart_read s REG_IIR_FCR).irq = []) := by
  obtain ⟨h1, h2, h3⟩ := hr.irqInv
  constructor
  · intro h
    simp only [IIR_TX_EMPTY] at h
    obtain ⟨a, b⟩ := h3 h
    have hl : s.irq_level = true := h2.2 (by omega)
    have hc : irq_cause { s with thr_empty_pending := false } = IIR_NO_INT := by
      simp only [irq_cause]
      rw [if_neg a, if_neg b, if_neg (by simp)]
    have hw : irq_want { s with thr_empty_pending := false } = false := by
      simp only [irq_want]
      rw [if_neg a, if_neg b, if_neg (by simp)]
    have e : calypso_uart_read s REG_IIR_FCR =
        ⟨s.iir, (calypso_uart_update_irq { s with thr_empty_pending := false }).1,
          (calypso_uart_update_irq { s with thr_empty_pending := false }).2⟩ := by
      unfold calypso_uart_read
      rw [if_neg (by decide), if_neg (by decide), if_pos rfl, if_pos (by rw [h]; decide)]
    rw [e, update_irq_state, update_irq_events, hc, hw]
    refine ⟨h, rfl, rfl, ?_, ?_, rfl⟩
    · rw [read_iir_val]; rfl
    · simp [hl]
  · intro h
    simp only [IIR_TX_EMPTY] at h
    have hm : ¬ (s.iir &&& 0x0F = IIR_TX_EMPTY) := by
      simp only [IIR_TX_EMPTY]
      rcases h1 with e | e | e | e
      · rw [e]; decide
      · exact absurd e h
      · rw [e]; decide
      · rw [e]; decide
    unfold calypso_uart_read
    rw [if_neg (by decide), if_neg (by decide), if_pos rfl, if_neg hm]
    exact ⟨rfl, rfl, rfl⟩

/-- Witness for C10: after reset, enabling the TX-empty interrupt makes THR-empty the
reported cause; the read of offset 2 disarms it and lowers the line. -/
theorem iir_read_disarms_witness :
    Reachable (step (calypso_uart_reset_state zeroState) (.write 1 2)) ∧
    (step (calypso_uart_reset_state zeroState) (.write 1 2)).iir = IIR_TX_EMPTY ∧
    (calypso_uart_read (step (calypso_uart_reset_state zeroState) (.write 1 2))
      REG_IIR_FCR).val = 0x02 ∧
    (calypso_uart_read (step (calypso_uart_reset_state zeroState) (.write 1 2))
      REG_IIR_FCR).irq = [false] := by
  have hr : Reachable (step (calypso_uart_reset_state zeroState) (.write 1 2)) :=
    Reachable.step _ (Reachable.reset _)
  have h := (iir_read_disarms _ hr).1 (by decide)
  exact ⟨hr, by decide, h.1, h.2.2.2.2.1⟩

/-- Claim C8, evaluated where the code departs from it. After `staleOps` from reset (enable
the received-data interrupt, receive one byte, reset the receive FIFO through offset 2) the
identification register still reports received-data (0x04) and the tracked line level is
still asserted with a single raise delivered, although the cause recomputed from the current
IER, LSR and `thr_empty_pending` is no-interrupt and no cause applies. -/
theorem irq_state_stale_after_fifo_reset :
    (run (calypso_uart_reset_state zeroState) staleOps).iir = IIR_RX_DATA ∧
    irq_cause (run (calypso_uart_reset_state zeroState) staleOps) = IIR_NO_INT ∧
    (run (calypso_uart_reset_state zeroState) staleOps).irq_level = true ∧
    irq_want (run (calypso_uart_reset_state zeroState) staleOps) = false ∧
    runIrq (calypso_uart_reset_state zeroState) staleOps = [true] := by
  decide

/-- Claim C18. UART reset defaults. After `calypso_uart_reset_state` applied to any state,
IER, FCR, LCR, MCR, scratch, DLL, DLH and the mode byte MDR1 are 0; the identification
register is 0x01 (no interrupt); LSR = 0x60 (THRE | TEMT); MSR = 0xB0 (CTS | DSR | DCD); the
receive buffer is empty (`rx_count = rx_head = rx_tail = 0`, no byte held);
`thr_empty_pending` is false and the tracked interrupt level is false. -/
theorem uart_reset_defaults (s : CalypsoUARTState) :
    ((calypso_uart_reset_state s).ier = 0 ∧ (calypso_uart_reset_state s).fcr = 0 ∧
     (calypso_uart_reset_state s).lcr = 0 ∧ (calypso_uart_reset_state s).mcr = 0 ∧
     (calypso_uart_reset_state s).spr = 0 ∧ (calypso_uart_reset_state s).dll = 0 ∧
     (calypso_uart_reset_state s).dlh = 0 ∧ (calypso_uart_reset_state s).mdr1 = 0) ∧
    (calypso_uart_reset_state s).iir = 0x01 ∧
    (calypso_uart_reset_state s).lsr = 0x60 ∧
    (calypso_uart_reset_state s).msr = 0xB0 ∧
    ((calypso_uart_reset_state s).rx_count = 0 ∧ (calypso_uart_reset_state s).rx_head = 0 ∧
     (calypso_uart_reset_state s).rx_tail = 0 ∧ held (calypso_uart_reset_state s) = []) ∧
    (calypso_uart_reset_state s).thr_empty_pending = false ∧
    (calypso_uart_reset_state s).irq_level = false := by
  refine ⟨⟨rfl, rfl, rfl, rfl, rfl, rfl, rfl, rfl⟩, rfl, ?_, ?_, ⟨rfl, rfl, rfl, rfl⟩, rfl, rfl⟩
  · show LSR_THRE ||| LSR_TEMT = 0x60
    decide
  · show MSR_CTS ||| MSR_DSR ||| MSR_DCD = 0xB0
    decide

/-- Claim C19, evaluated where the code departs from it. From reset, enabling the TX-empty
interrupt raises the line; a device reset then clears the tracked level but delivers no
notification, so the level last notified is still raised; enabling the TX-empty interrupt
again delivers a second raise. The router receives raise, raise with no lower in between. -/
theorem reset_leaves_line_raised :
    runIrq (calypso_uart_reset_state zeroState) [.write 1 2] = [true] ∧
    devIrq (run (calypso_uart_reset_state zeroState) [.write 1 2]) .reset = [] ∧
    (devRun (calypso_uart_reset_state zeroState) [.op (.write 1 2), .reset]).irq_level = false ∧
    devRunIrq (calypso_uart_reset_state zeroState) resetOps = [true, true] ∧
    alternating true (devRunIrq (calypso_uart_reset_state zeroState) resetOps) = false := by
  decide

theorem and_mask_bit (k : Nat) (x : Nat) : x &&& 2 ^ k ≠ 0 ↔ x.testBit k = true := by
  rw [Nat.and_two_pow]
  cases x.testBit k <;> simp

theorem ier_write_eq (s : CalypsoUARTState) (v : Nat) (hd : s.lcr &&& LCR_DLAB = 0) :
    calypso_uart_write s REG_IER v =
      ⟨(calypso_uart_update_irq
          (if s.ier &&& 2 = 0 ∧ (v &&& 0x0F) &&& 2 ≠ 0 ∧ s.lsr &&& 0x20 ≠ 0 then
            { s with ier := v &&& 0x0F, thr_empty_pending := true }
           else { s with ier := v &&& 0x0F })).1,
       (calypso_uart_update_irq
          (if s.ier &&& 2 = 0 ∧ (v &&& 0x0F) &&& 2 ≠ 0 ∧ s.lsr &&& 0x20 ≠ 0 then
            { s with ier := v &&& 0x0F, thr_empty_pending := true }
           else { s with ier := v &&& 0x0F })).2,
       []⟩ := by
  unfold calypso_uart_write
  rw [if_neg (by decide), if_pos rfl, if_neg (by rw [hd]; decide)]
  rfl

/-- Claim C22. UART TX-empty enable re-trigger. For every state with the
divisor-latch-access bit clear and every value `v`, a guest write to offset 1 sets
`IER = v & 0x0F`; `thr_empty_pending` becomes armed if the TX-empty enable bit (bit 1) was
clear before the write, is set by it, and `LSR.THRE` (bit 5) is set; in every other case
`thr_empty_pending` is unchanged by the write. -/
theorem ier_write_retrigger (s : CalypsoUARTState) (v : Nat) (hd : s.lcr &&& LCR_DLAB = 0) :
    (calypso_uart_write s REG_IER v).st.ier = v &&& 0x0F ∧
    (calypso_uart_write s REG_IER v).st.ier = v % 16 ∧
    (s.ier.testBit 1 = false ∧ v.testBit 1 = true ∧ s.lsr.testBit 5 = true →
      (calypso_uart_write s REG_IER v).st.thr_empty_pending = true) ∧
    (¬ (s.ier.testBit 1 = false ∧ v.testBit 1 = true ∧ s.lsr.testBit 5 = true) →
      (calypso_uart_write s REG_IER v).st.thr_empty_pending = s.thr_empty_pending) := by
  have c1 : s.ier &&& 2 = 0 ↔ s.ier.testBit 1 = false := by
    have h := and_mask_bit 1 s.ier
    simp only [pow_one] at h
    constructor
    · intro e; by_contra c; exact (h.2 (by simpa using c)) e
    · intro e; by_contra c; rw [h.1 c] at e; exact absurd e (by decide)
  have c2 : (v &&& 0x0F) &&& 2 ≠ 0 ↔ v.testBit 1 = true := by
    have e : (0x0F : Nat) &&& 2 = 2 := by decide
    rw [Nat.and_assoc, e]
    have h := and_mask_bit 1 v
    simpa only [pow_one] using h
  have c3 : s.lsr &&& 0x20 ≠ 0 ↔ s.lsr.testBit 5 = true := and_mask_bit 5 s.lsr
  have hmod : v &&& 0x0F = v % 16 := Nat.and_pow_two_sub_one_eq_mod v 4
  rw [ier_write_eq s v hd, update_irq_state]
  simp only [c1, c2, c3]
  refine ⟨?_, ?_, ?_, ?_⟩
  · split_ifs <;> rfl
  · rw [← hmod]; split_ifs <;> rfl
  · intro h; rw [if_pos h]
  · intro h; rw [if_neg h]

/-- Witness for C22: after reset (THRE set, IER 0), writing 0x02 to offset 1 arms the
flag. -/
theorem ier_write_retrigger_witness :
    (calypso_uart_reset_state zeroState).lcr &&& LCR_DLAB = 0 ∧
    (calypso_uart_write (calypso_uart_reset_state zeroState) REG_IER 0xF2).st.ier = 0x02 ∧
    (calypso_uart_write (calypso_uart_reset_state zeroState) REG_IER 0xF2).st.thr_empty_pending
      = true := by
  have h := ier_write_retrigger (calypso_uart_reset_state zeroState) 0xF2 (by decide)
  exact ⟨by decide, by rw [h.1]; decide, h.2.2.1 (by decide)⟩

theorem testBit_253 (i : Nat) : (0xFD : Nat).testBit i = decide (i ≠ 1 ∧ i < 8) := by
  by_cases h : i < 8
  · interval_cases i <;> decide
  · have : (0xFD : Nat).testBit i = false :=
      Nat.testBit_lt_two_pow (lt_of_lt_of_le (by norm_num : (0xFD : Nat) < 2 ^ 8)
        (Nat.pow_le_pow_right (by norm_num) (by omega)))
    rw [this]; simp; omega

/-- Claim C23. UART line-status read-to-clear. For every state, a guest read at offset 5
returns the LSR value held before the read (overrun bit included), delivers no interrupt
notification, and changes nothing but LSR, which afterwards is that value with only the
overrun bit (bit 1) cleared among its eight bits; the receive buffer, IER,
`thr_empty_pending` and every other register are unchanged. -/
theorem lsr_read_clears_overrun (s : CalypsoUARTState) :
    (calypso_uart_read s REG_LSR).val = s.lsr ∧
    (calypso_uart_read s REG_LSR).irq = [] ∧
    (calypso_uart_read s REG_LSR).st = { s with lsr := (calypso_uart_read s REG_LSR).st.lsr } ∧
    (∀ i, (calypso_uart_read s REG_LSR).st.lsr.testBit i
      = (s.lsr.testBit i && decide (i ≠ 1 ∧ i < 8))) ∧
    (s.lsr < 256 → ∀ i, (calypso_uart_read s REG_LSR).st.lsr.testBit i
      = (s.lsr.testBit i && decide (i ≠ 1))) := by
  have e : calypso_uart_read s REG_LSR = ⟨s.lsr, { s with lsr := s.lsr &&& 0xFD }, []⟩ := rfl
  rw [e]
  refine ⟨rfl, rfl, rfl, ?_, ?_⟩
  · intro i
    show (s.lsr &&& 0xFD).testBit i = _
    rw [Nat.testBit_and, testBit_253]
  · intro hlt i
    show (s.lsr &&& 0xFD).testBit i = _
    rw [Nat.testBit_and, testBit_253]
    by_cases h8 : i < 8
    · simp [h8]
    · have hpow : (256 : Nat) ≤ 2 ^ i :=
        calc (256 : Nat) = 2 ^ 8 := by norm_num
          _ ≤ 2 ^ i := Nat.pow_le_pow_right (by norm_num) (by omega)
      have : s.lsr.testBit i = false := Nat.testBit_lt_two_pow (lt_of_lt_of_le hlt hpow)
      rw [this]; simp

theorem dlab_mask (x : Nat) : x &&& LCR_DLAB ≠ 0 ↔ x.testBit 7 = true := and_mask_bit 7 x

theorem write_keeps_divisor (s : CalypsoUARTState) (offset v : Nat)
    (hd : s.lcr &&& LCR_DLAB = 0) :
    (calypso_uart_write s offset v).st.dll = s.dll ∧
    (calypso_uart_write s offset v).st.dlh = s.dlh := by
  unfold calypso_uart_write
  split_ifs
  all_goals first
    | exact ⟨rfl, rfl⟩
    | exact absurd hd ‹s.lcr &&& LCR_DLAB ≠ 0›
    | (simp only [update_irq_state]; (try split_ifs) <;> simp)

theorem read_keeps_divisor (s : CalypsoUARTState) (offset : Nat) :
    (calypso_uart_read s offset).st.dll = s.dll ∧
    (calypso_uart_read s offset).st.dlh = s.dlh := by
  unfold calypso_uart_read
  split_ifs
  all_goals first
    | exact ⟨rfl, rfl⟩
    | (simp only [update_irq_state, fifo_pop]; (try split_ifs) <;> simp)

/-- Claim C24. UART divisor-latch banking. For every state with LCR bit 7 set, reads at
offsets 0 and 1 return DLL and DLH and change no state (no byte is popped, no notification),
and writes at offsets 0 and 1 store the low byte of the value into DLL and DLH and change
nothing else (no byte is handed to the backend, no notification; IER, LSR, the receive
buffer and `thr_empty_pending` are unchanged). For every state with LCR bit 7 clear, no
guest access at any offset changes DLL or DLH, and the reads at offsets 0 and 1 return the
popped receive byte and IER, not the divisor bytes. -/
theorem divisor_latch_banking (s : CalypsoUARTState) (v : Nat) :
    (s.lcr.testBit 7 = true →
      calypso_uart_read s REG_RBR_THR = ⟨s.dll, s, []⟩ ∧
      calypso_uart_read s REG_IER = ⟨s.dlh, s, []⟩ ∧
      calypso_uart_write s REG_RBR_THR v = ⟨{ s with dll := v % 256 }, [], []⟩ ∧
      calypso_uart_write s REG_IER v = ⟨{ s with dlh := v % 256 }, [], []⟩) ∧
    (s.lcr.testBit 7 = false →
      (∀ offset value,
        (calypso_uart_write s offset value).st.dll = s.dll ∧
        (calypso_uart_write s offset value).st.dlh = s.dlh) ∧
      (∀ offset,
        (calypso_uart_read s offset).st.dll = s.dll ∧
        (calypso_uart_read s offset).st.dlh = s.dlh) ∧
      (calypso_uart_read s REG_RBR_THR).val = (fifo_pop s).1 ∧
      (calypso_uart_read s REG_IER).val = s.ier) := by
  constructor
  · intro h
    have hd : s.lcr &&& LCR_DLAB ≠ 0 := (dlab_mask s.lcr).2 h
    refine ⟨?_, ?_, ?_, ?_⟩
    · unfold calypso_uart_read
      rw [if_pos rfl, if_pos hd]
    · unfold calypso_uart_read
      rw [if_neg (by decide), if_pos rfl, if_pos hd]
    · unfold calypso_uart_write
      rw [if_pos rfl, if_pos hd]
    · unfold calypso_uart_write
      rw [if_neg (by decide), if_pos rfl, if_pos hd]
  · intro h
    have hd : s.lcr &&& LCR_DLAB = 0 := by
      by_contra c
      rw [← ne_eq, dlab_mask, h] at c
      exact absurd c (by decide)
    refine ⟨fun offset value => write_keeps_divisor s offset value hd,
      fun offset => read_keeps_divisor s offset, ?_, ?_⟩
    · unfold calypso_uart_read
      rw [if_pos rfl, if_neg (by rw [hd]; decide)]
    · unfold calypso_uart_read
      rw [if_neg (by decide), if_pos rfl, if_neg (by rw [hd]; decide)]

theorem or_two_and_one (x : Nat) : (x ||| 2) &&& 1 = x &&& 1 := by
  rw [Nat.and_distrib_right]
  have e : (2 : Nat) &&& 1 = 0 := by decide
  rw [e, Nat.or_zero]

theorem or_one_and_one_ne (x : Nat) : (x ||| 1) &&& 1 ≠ 0 := by
  rw [Nat.and_distrib_right]
  have e : (1 : Nat) &&& 1 = 1 := by decide
  rw [e]
  intro h
  have := congrArg (fun n => n.testBit 0) h
  simp at this

theorem mask_and_one (x m : Nat) (hm : m &&& 1 = 1) : (x &&& m) &&& 1 = x &&& 1 := by
  rw [Nat.and_assoc, hm]

theorem or_mask_and_one (x m : Nat) (hm : m &&& 1 = 0) : (x ||| m) &&& 1 = x &&& 1 := by
  rw [Nat.and_distrib_right, hm, Nat.or_zero]

theorem fifo_push_dr (s : CalypsoUARTState) (b : Nat) :
    (fifo_push s b).lsr &&& 1 = s.lsr &&& 1 ∧ s.rx_count ≤ (fifo_push s b).rx_count := by
  unfold fifo_push
  split_ifs
  · exact ⟨or_two_and_one s.lsr, le_refl _⟩
  · exact ⟨rfl, Nat.le_succ _⟩

theorem push_all_dr (L : List Nat) : ∀ s : CalypsoUARTState,
    (push_all s L).lsr &&& 1 = s.lsr &&& 1 ∧ s.rx_count ≤ (push_all s L).rx_count := by
  induction L with
  | nil => intro s; exact ⟨rfl, le_refl _⟩
  | cons b bs ih =>
    intro s
    obtain ⟨a1, a2⟩ := fifo_push_dr s b
    obtain ⟨b1, b2⟩ := ih (fifo_push s b)
    exact ⟨b1.trans a1, le_trans a2 b2⟩

theorem DrInv_update_irq (t : CalypsoUARTState) (h : DrInv t) :
    DrInv (calypso_uart_update_irq t).1 := by
  rw [update_irq_state]; exact h

theorem DrInv_set (t : CalypsoUARTState) :
    DrInv { t with lsr := if t.rx_count > 0 then t.lsr ||| LSR_DR else t.lsr &&& 0xFE } := by
  unfold DrInv
  by_cases hc : t.rx_count > 0
  · simp only [if_pos hc, LSR_DR]
    exact ⟨fun _ => hc, fun _ => or_one_and_one_ne _⟩
  · simp only [if_neg hc, LSR_DR]
    have e : (0xFE : Nat) &&& 1 = 0 := by decide
    rw [Nat.and_assoc, e, Nat.and_zero]
    simp [hc]

theorem DrInv_read (s : CalypsoUARTState) (offset : Nat) (h : DrInv s) :
    DrInv (calypso_uart_read s offset).st := by
  unfold calypso_uart_read
  split_ifs
  · exact h
  · exact DrInv_update_irq _ (DrInv_set (fifo_pop s).2)
  · exact h
  · exact h
  · exact DrInv_update_irq _ h
  · exact h
  · exact h
  · exact h
  · unfold DrInv at h ⊢
    show (s.lsr &&& 0xFD) &&& LSR_DR ≠ 0 ↔ 0 < s.rx_count
    rw [LSR_DR, mask_and_one s.lsr 0xFD (by decide)]
    exact h
  · exact h
  · exact h
  · exact h
  · exact h

theorem DrInv_write (s : CalypsoUARTState) (offset value : Nat) (h : DrInv s) :
    DrInv (calypso_uart_write s offset value).st := by
  unfold calypso_uart_write
  split_ifs
  · exact h
  · apply DrInv_update_irq
    unfold DrInv at h ⊢
    show (s.lsr ||| (LSR_THRE ||| LSR_TEMT)) &&& LSR_DR ≠ 0 ↔ 0 < s.rx_count
    rw [LSR_DR, or_mask_and_one s.lsr _ (by decide)]
    exact h
  · exact h
  · apply DrInv_update_irq
    split_ifs <;> exact h
  · unfold DrInv
    show (s.lsr &&& 0xFE) &&& LSR_DR ≠ 0 ↔ 0 < 0
    have e : (0xFE : Nat) &&& 1 = 0 := by decide
    rw [LSR_DR, Nat.and_assoc, e, Nat.and_zero]
    simp
  · exact h
  · exact h
  · exact h
  · exact h
  · exact h
  · exact h

theorem DrInv_receive (s : CalypsoUARTState) (buf : List Nat) (h : DrInv s) :
    DrInv (calypso_uart_receive s buf).1 := by
  unfold calypso_uart_receive
  apply DrInv_update_irq
  obtain ⟨a1, a2⟩ := push_all_dr buf s
  unfold DrInv at h ⊢
  by_cases hc : (push_all s buf).rx_count > 0
  · simp only [if_pos hc, LSR_DR]
    exact ⟨fun _ => hc, fun _ => or_one_and_one_ne _⟩
  · simp only [if_neg hc]
    rw [LSR_DR, a1]
    rw [LSR_DR] at h
    constructor
    · intro hb; exact absurd (lt_of_lt_of_le (h.1 hb) a2) hc
    · intro hb; exact absurd hb hc

theorem DrInv_reset (s : CalypsoUARTState) : DrInv (calypso_uart_reset_state s) := by
  unfold DrInv
  show (LSR_THRE ||| LSR_TEMT) &&& LSR_DR ≠ 0 ↔ 0 < 0
  decide

theorem Reachable.drInv {s : CalypsoUARTState} (h : Reachable s) : DrInv s := by
  induction h with
  | reset s0 => exact DrInv_reset s0
  | step op _ ih =>
    cases op with
    | read offset => exact DrInv_read _ offset ih
    | write offset value => exact DrInv_write _ offset value ih
    | receive buf => exact DrInv_receive _ buf ih

theorem Reachable.devRun {s : CalypsoUARTState} (h : Reachable s) (ops : List DevOp) :
    Reachable (devRun s ops) := by
  induction ops generalizing s with
  | nil => exact h
  | cons o os ih =>
    cases o with
    | op o => exact ih (Reachable.step o h)
    | reset => exact ih (Reachable.reset s)

/-- Counterexample to C28 as stated: after `overrunOps` from reset the received-data enable
bit is set and the buffer holds sixteen bytes, yet the identification register reports the
line-status cause (0x06), not received-data (0x04); recomputing the cause gives 0x06
again. -/
theorem rx_data_cause_masked_by_overrun :
    (run (calypso_uart_reset_state zeroState) overrunOps).ier.testBit 0 = true ∧
    (run (calypso_uart_reset_state zeroState) overrunOps).rx_count = 16 ∧
    (run (calypso_uart_reset_state zeroState) overrunOps).iir = IIR_RX_LINE ∧
    (calypso_uart_update_irq (run (calypso_uart_reset_state zeroState) overrunOps)).1.iir
      = IIR_RX_LINE := by
  decide

/-- Claim C28, amended. UART data-ready tracks occupancy. In every state reached from reset
by guest accesses, host receive batches and device resets, the LSR data-ready bit (bit 0) is
set if and only if `rx_count > 0`; consequently, whenever `calypso_uart_update_irq`
recomputes the cause there, it reports received-data (0x04) exactly when the received-data
enable bit (IER bit 0) is set, the buffer is non-empty, and no enabled line-status cause
(IER bit 2 with `LSR.OE`) takes priority. -/
theorem data_ready_tracks_occupancy (s0 : CalypsoUARTState) (ops : List DevOp) :
    ((devRun (calypso_uart_reset_state s0) ops).lsr.testBit 0 = true ↔
      0 < (devRun (calypso_uart_reset_state s0) ops).rx_count) ∧
    ((calypso_uart_update_irq (devRun (calypso_uart_reset_state s0) ops)).1.iir = 0x04 ↔
      ((devRun (calypso_uart_reset_state s0) ops).ier.testBit 0 = true ∧
       0 < (devRun (calypso_uart_reset_state s0) ops).rx_count ∧
       ¬ ((devRun (calypso_uart_reset_state s0) ops).ier.testBit 2 = true ∧
          (devRun (calypso_uart_reset_state s0) ops).lsr.testBit 1 = true))) := by
  have hr : Reachable (devRun (calypso_uart_reset_state s0) ops) :=
    (Reachable.reset s0).devRun ops
  generalize devRun (calypso_uart_reset_state s0) ops = s at hr
  have hdr : s.lsr.testBit 0 = true ↔ 0 < s.rx_count := by
    have h := hr.drInv
    unfold DrInv at h
    rw [LSR_DR, and_one_ne_zero_iff] at h
    exact h
  refine ⟨hdr, ?_⟩
  rw [update_irq_state]
  simp only [irq_cause, IER_RX_LINE, IER_RX_DATA, IER_TX_EMPTY, LSR_OE, LSR_DR,
    and_four_ne_zero_iff, and_two_ne_zero_iff, and_one_ne_zero_iff,
    IIR_RX_LINE, IIR_RX_DATA, IIR_TX_EMPTY, IIR_NO_INT]
  rw [← hdr]
  by_cases a : s.ier.testBit 2 = true ∧ s.lsr.testBit 1 = true
  · rw [if_pos a]
    constructor
    · intro h; exact absurd h (by decide)
    · intro h; exact absurd a h.2.2
  · rw [if_neg a]
    by_cases b : s.ier.testBit 0 = true ∧ s.lsr.testBit 0 = true
    · rw [if_pos b]
      exact ⟨fun _ => ⟨b.1, b.2, a⟩, fun _ => rfl⟩
    · rw [if_neg b]
      constructor
      · intro h
        split_ifs at h <;> exact absurd h (by decide)
      · intro h; exact absurd ⟨h.1, h.2.1⟩ b

/-- Claim C30. UART ring-buffer well-formedness. In every state reached from reset by any
sequence of guest accesses (FIFO-control resets among them), host receive batches and device
resets, `rx_count ≤ 16`, `rx_head < 16`, `rx_tail < 16` and
`rx_head = (rx_tail + rx_count) % 16`, so every index `fifo_push` and `fifo_pop` use is
within the sixteen-byte buffer. -/
theorem ring_buffer_well_formed (s0 : CalypsoUARTState) (ops : List DevOp) :
    (devRun (calypso_uart_reset_state s0) ops).rx_count ≤ 16 ∧
    (devRun (calypso_uart_reset_state s0) ops).rx_head < 16 ∧
    (devRun (calypso_uart_reset_state s0) ops).rx_tail < 16 ∧
    (devRun (calypso_uart_reset_state s0) ops).rx_head
      = ((devRun (calypso_uart_reset_state s0) ops).rx_tail
          + (devRun (calypso_uart_reset_state s0) ops).rx_count) % 16 := by
  have hr : Reachable (devRun (calypso_uart_reset_state s0) ops) :=
    (Reachable.reset s0).devRun ops
  obtain ⟨h1, h2, h3⟩ := hr.ringOk
  refine ⟨h1, ?_, h2, h3⟩
  rw [h3]
  exact Nat.mod_lt _ (by norm_num)

theorem fifo_push_lsr_bit (s : CalypsoUARTState) (b k : Nat)
    (h : s.lsr.testBit k = true) : (fifo_push s b).lsr.testBit k = true := by
  unfold fifo_push
  split_ifs
  · show (s.lsr ||| LSR_OE).testBit k = true
    rw [Nat.testBit_or, h]; rfl
  · exact h

theorem push_all_lsr_bit (L : List Nat) (k : Nat) : ∀ s : CalypsoUARTState,
    s.lsr.testBit k = true → (push_all s L).lsr.testBit k = true := by
  induction L with
  | nil => intro s h; exact h
  | cons b bs ih => intro s h; exact ih _ (fifo_push_lsr_bit s b k h)

theorem testBit_mask_keep (x m k : Nat) (hm : m.testBit k = true) (h : x.testBit k = true) :
    (x &&& m).testBit k = true := by
  rw [Nat.testBit_and, h, hm]; rfl

theorem testBit_or_keep (x m k : Nat) (h : x.testBit k = true) :
    (x ||| m).testBit k = true := by
  rw [Nat.testBit_or, h]; rfl

theorem step_lsr_bit (s : CalypsoUARTState) (op : Op) (k : Nat) (hk : k = 5 ∨ k = 6)
    (h : s.lsr.testBit k = true) : (step s op).lsr.testBit k = true := by
  have hFE : (0xFE : Nat).testBit k = true := by rcases hk with rfl | rfl <;> decide
  have hFD : (0xFD : Nat).testBit k = true := by rcases hk with rfl | rfl <;> decide
  cases op with
  | read offset =>
    show (calypso_uart_read s offset).st.lsr.testBit k = true
    unfold calypso_uart_read
    split_ifs
    any_goals exact h
    · simp only [update_irq_state, fifo_pop]
      split_ifs
      all_goals first
        | exact testBit_or_keep _ _ _ h
        | exact testBit_mask_keep _ _ _ hFE h
    · simp only [update_irq_state]
      exact h
    · exact testBit_mask_keep _ _ _ hFD h
  | write offset value =>
    show (calypso_uart_write s offset value).st.lsr.testBit k = true
    unfold calypso_uart_write
    split_ifs
    any_goals exact h
    · simp only [update_irq_state]
      exact testBit_or_keep _ _ _ h
    · simp only [update_irq_state]
      split_ifs <;> exact h
    · exact testBit_mask_keep _ _ _ hFE h
  | receive buf =>
    show (calypso_uart_receive s buf).1.lsr.testBit k = true
    rw [(receive_fields s buf).2.2.2]
    split_ifs
    · exact testBit_or_keep _ _ _ (push_all_lsr_bit buf k s h)
    · exact push_all_lsr_bit buf k s h

theorem Reachable.lsr_bit {s : CalypsoUARTState} (h : Reachable s) (k : Nat)
    (hk : k = 5 ∨ k = 6) : s.lsr.testBit k = true := by
  induction h with
  | reset s0 =>
    rcases hk with rfl | rfl
    · exact (by decide : (LSR_THRE ||| LSR_TEMT).testBit 5 = true)
    · exact (by decide : (LSR_THRE ||| LSR_TEMT).testBit 6 = true)
  | step op _ ih => exact step_lsr_bit _ op k hk ih

/-- Claim C34. UART transmitter is always ready. In every state reached from reset by any
sequence of guest accesses, host receive batches and device resets, LSR has THRE (bit 5) and
TEMT (bit 6) set, and a guest read of the line-status register (offset 5) returns a value
with both bits set. -/
theorem transmitter_always_ready (s0 : CalypsoUARTState) (ops : List DevOp) :
    (devRun (calypso_uart_reset_state s0) ops).lsr &&& LSR_THRE ≠ 0 ∧
    (devRun (calypso_uart_reset_state s0) ops).lsr &&& LSR_TEMT ≠ 0 ∧
    (calypso_uart_read (devRun (calypso_uart_reset_state s0) ops) REG_LSR).val.testBit 5
      = true ∧
    (calypso_uart_read (devRun (calypso_uart_reset_state s0) ops) REG_LSR).val.testBit 6
      = true := by
  have hr : Reachable (devRun (calypso_uart_reset_state s0) ops) :=
    (Reachable.reset s0).devRun ops
  generalize devRun (calypso_uart_reset_state s0) ops = s at hr
  have h5 := hr.lsr_bit 5 (Or.inl rfl)
  have h6 := hr.lsr_bit 6 (Or.inr rfl)
  refine ⟨?_, ?_, h5, h6⟩
  · rw [show LSR_THRE = 2 ^ 5 from rfl, and_mask_bit]; exact h5
  · rw [show LSR_TEMT = 2 ^ 6 from rfl, and_mask_bit]; exact h6

theorem fifo_push_mdr1 (s : CalypsoUARTState) (m b : Nat) :
    fifo_push { s with mdr1 := m } b = { fifo_push s b with mdr1 := m } := by
  simp only [fifo_push]
  split_ifs <;> rfl

theorem push_all_mdr1 (L : List Nat) (m : Nat) : ∀ s : CalypsoUARTState,
    push_all { s with mdr1 := m } L = { push_all s L with mdr1 := m } := by
  induction L with
  | nil => intro s; rfl
  | cons b bs ih =>
    intro s
    show push_all (fifo_push { s with mdr1 := m } b) bs = _
    rw [fifo_push_mdr1, ih]
    rfl

theorem update_irq_mdr1 (s : CalypsoUARTState) (m : Nat) :
    calypso_uart_update_irq { s with mdr1 := m } =
      ({ (calypso_uart_update_irq s).1 with mdr1 := m }, (calypso_uart_update_irq s).2) := by
  simp only [calypso_uart_update_irq, irq_want, irq_cause]
  split_ifs <;> rfl

theorem receive_mdr1 (s : CalypsoUARTState) (m : Nat) (buf : List Nat) :
    calypso_uart_receive { s with mdr1 := m } buf =
      ({ (calypso_uart_receive s buf).1 with mdr1 := m }, (calypso_uart_receive s buf).2) := by
  unfold calypso_uart_receive
  simp only [push_all_mdr1]
  split_ifs
  · exact update_irq_mdr1 { push_all s buf with lsr := (push_all s buf).lsr ||| LSR_DR } m
  · exact update_irq_mdr1 (push_all s buf) m

theorem read_mdr1 (s : CalypsoUARTState) (m offset : Nat) (ho : offset ≠ REG_MDR1) :
    (calypso_uart_read { s with mdr1 := m } offset).val = (calypso_uart_read s offset).val ∧
    (calypso_uart_read { s with mdr1 := m } offset).st
      = { (calypso_uart_read s offset).st with mdr1 := m } ∧
    (calypso_uart_read { s with mdr1 := m } offset).irq = (calypso_uart_read s offset).irq := by
  rcases s with ⟨rbr, ier, iir, fcr, lcr, mcr, lsr, msr, spr, dll, dlh, mdr1, rx_fifo, rx_head,
    rx_tail, rx_count, irq_level, thr_empty_pending⟩
  simp only [calypso_uart_read, fifo_pop]
  split_ifs
  all_goals first
    | exact ⟨rfl, rfl, rfl⟩
    | exact absurd ‹offset = REG_MDR1› ho
    | skip
  all_goals
    dsimp only
    simp only [update_irq_state, update_irq_events, irq_want, irq_cause]
    exact ⟨trivial, trivial, trivial⟩

theorem write_mdr1 (s : CalypsoUARTState) (m offset value : Nat) (ho : offset ≠ REG_MDR1) :
    (calypso_uart_write { s with mdr1 := m } offset value).st
      = { (calypso_uart_write s offset value).st with mdr1 := m } ∧
    (calypso_uart_write { s with mdr1 := m } offset value).irq
      = (calypso_uart_write s offset value).irq ∧
    (calypso_uart_write { s with mdr1 := m } offset value).chr
      = (calypso_uart_write s offset value).chr := by
  rcases s with ⟨rbr, ier, iir, fcr, lcr, mcr, lsr, msr, spr, dll, dlh, mdr1, rx_fifo, rx_head,
    rx_tail, rx_count, irq_level, thr_empty_pending⟩
  simp only [calypso_uart_write, fifo_reset]
  split_ifs
  all_goals first
    | exact ⟨rfl, rfl, rfl⟩
    | exact absurd ‹offset = REG_MDR1› ho
    | skip
  all_goals
    dsimp only
    simp only [update_irq_state, update_irq_events, irq_want, irq_cause]
    exact ⟨trivial, trivial, trivial⟩

theorem write_mode_reg (s : CalypsoUARTState) (value : Nat) :
    calypso_uart_write s REG_MDR1 value = ⟨{ s with mdr1 := value % 256 }, [], []⟩ := by
  unfold calypso_uart_write
  rw [if_neg (by decide : REG_MDR1 ≠ REG_RBR_THR), if_neg (by decide : REG_MDR1 ≠ REG_IER),
    if_neg (by decide : REG_MDR1 ≠ REG_IIR_FCR), if_neg (by decide : REG_MDR1 ≠ REG_LCR),
    if_neg (by decide : REG_MDR1 ≠ REG_MCR), if_neg (by decide : REG_MDR1 ≠ REG_SPR),
    if_pos rfl]

theorem step_mdr1 (s : CalypsoUARTState) (m : Nat) (op : Op) (h : readsMode op = false) :
    ∃ m1 : Nat, step { s with mdr1 := m } op = { step s op with mdr1 := m1 } ∧
      stepVal { s with mdr1 := m } op = stepVal s op ∧
      stepChr { s with mdr1 := m } op = stepChr s op ∧
      stepIrq { s with mdr1 := m } op = stepIrq s op := by
  cases op with
  | read offset =>
    have ho : offset ≠ REG_MDR1 := by
      intro e; rw [readsMode, decide_eq_false_iff_not] at h; exact h e
    obtain ⟨h1, h2, h3⟩ := read_mdr1 s m offset ho
    exact ⟨m, h2, congrArg (fun v => [v]) h1, rfl, h3⟩
  | write offset value =>
    by_cases ho : offset = REG_MDR1
    · subst ho
      refine ⟨value % 256, ?_, rfl, ?_, ?_⟩
      · show (calypso_uart_write _ REG_MDR1 value).st
          = { (calypso_uart_write s REG_MDR1 value).st with mdr1 := value % 256 }
        rw [write_mode_reg, write_mode_reg]
      · show (calypso_uart_write _ REG_MDR1 value).chr = (calypso_uart_write s REG_MDR1 value).chr
        rw [write_mode_reg, write_mode_reg]
      · show (calypso_uart_write _ REG_MDR1 value).irq = (calypso_uart_write s REG_MDR1 value).irq
        rw [write_mode_reg, write_mode_reg]
    · obtain ⟨h1, h2, h3⟩ := write_mdr1 s m offset value ho
      exact ⟨m, h1, rfl, h3, h2⟩
  | receive buf =>
    have e := receive_mdr1 s m buf
    refine ⟨m, ?_, rfl, rfl, ?_⟩
    · show (calypso_uart_receive _ buf).1 = _
      rw [e]; rfl
    · show (calypso_uart_receive _ buf).2 = (calypso_uart_receive s buf).2
      rw [e]

theorem run_mdr1 (ops : List Op) : ∀ (s : CalypsoUARTState) (m : Nat),
    (∀ op ∈ ops, readsMode op = false) →
    ∃ m1 : Nat, run { s with mdr1 := m } ops = { run s ops with mdr1 := m1 } ∧
      runVals { s with mdr1 := m } ops = runVals s ops ∧
      runChr { s with mdr1 := m } ops = runChr s ops ∧
      runIrq { s with mdr1 := m } ops = runIrq s ops := by
  induction ops with
  | nil => intro s m _; exact ⟨m, rfl, rfl, rfl, rfl⟩
  | cons op ops ih =>
    intro s m h
    obtain ⟨m1, e1, e2, e3, e4⟩ := step_mdr1 s m op (h op (List.mem_cons_self _ _))
    obtain ⟨m2, f1, f2, f3, f4⟩ := ih (step s op) m1
      (fun o ho => h o (List.mem_cons_of_mem _ ho))
    refine ⟨m2, ?_, ?_, ?_, ?_⟩
    · show run (step _ op) ops = _
      rw [e1, f1]; rfl
    · show stepVal _ op ++ runVals (step _ op) ops = stepVal s op ++ runVals (step s op) ops
      rw [e1, e2, f2]
    · show stepChr _ op ++ runChr (step _ op) ops = stepChr s op ++ runChr (step s op) ops
      rw [e1, e3, f3]
    · show stepIrq _ op ++ runIrq (step _ op) ops = stepIrq s op ++ runIrq (step s op) ops
      rw [e1, e4, f4]

/-- Claim C31. UART mode byte gates nothing. For any two states that differ only in the
mode byte `mdr1` and any sequence of guest accesses (reads of offset 8 excluded) and host
receive batches, the two runs return the same read values, hand the same bytes to the
character backend, deliver the same interrupt notifications, and end in states that again
differ only in `mdr1`; and a guest write of any value to offset 8 stores the value's low
byte in `mdr1`, changes no other field, forwards nothing and notifies nothing. -/
theorem mode_byte_gates_nothing (s t : CalypsoUARTState) (ops : List Op)
    (hst : SameButMode s t) (hops : ∀ op ∈ ops, readsMode op = false) :
    runVals t ops = runVals s ops ∧
    runChr t ops = runChr s ops ∧
    runIrq t ops = runIrq s ops ∧
    SameButMode (run s ops) (run t ops) ∧
    ∀ value : Nat,
      calypso_uart_write s REG_MDR1 value = ⟨{ s with mdr1 := value % 256 }, [], []⟩ := by
  obtain ⟨m, rfl⟩ : ∃ m : Nat, t = { s with mdr1 := m } := ⟨t.mdr1, hst⟩
  obtain ⟨m1, e1, e2, e3, e4⟩ := run_mdr1 ops s m hops
  refine ⟨e2, e3, e4, ?_, fun value => write_mode_reg s value⟩
  unfold SameButMode
  rw [e1]

/-- Witness for C31: the session `modeOps` run from the reset state and from the reset
state with the mode byte set to 7. -/
theorem mode_byte_gates_nothing_witness :
    SameButMode (calypso_uart_reset_state zeroState)
      { calypso_uart_reset_state zeroState with mdr1 := 7 } ∧
    (∀ op ∈ modeOps, readsMode op = false) ∧
    runVals { calypso_uart_reset_state zeroState with mdr1 := 7 } modeOps = [7, 2, 0x61, 9] ∧
    runChr { calypso_uart_reset_state zeroState with mdr1 := 7 } modeOps = [0x41] ∧
    runIrq { calypso_uart_reset_state zeroState with mdr1 := 7 } modeOps = [true, false] := by
  have h := mode_byte_gates_nothing (calypso_uart_reset_state zeroState)
    { calypso_uart_reset_state zeroState with mdr1 := 7 } modeOps rfl (by decide)
  refine ⟨rfl, by decide, ?_, ?_, ?_⟩
  · rw [h.1]; decide
  · rw [h.2.1]; decide
  · rw [h.2.2.1]; decide

end UART

/-! ## SPI: theorems -/

namespace SPI

theorem shift15_and_one (w : Nat) : (w >>> 15) &&& 1 ≠ 0 ↔ w.testBit 15 = true := by
  simp [Nat.testBit, Nat.and_comm]

theorem index_field (w : Nat) : (w >>> 6) &&& 0x1FF = w / 64 % 512 := by
  rw [Nat.shiftRight_eq_div_pow]
  exact Nat.and_pow_two_sub_one_eq_mod (w / 2 ^ 6) 9

theorem payload_field (w : Nat) : w &&& 0x3F = w % 64 :=
  Nat.and_pow_two_sub_one_eq_mod w 6

theorem low_byte (x : Nat) : x &&& 0xFF = x % 256 :=
  Nat.and_pow_two_sub_one_eq_mod x 8

theorem high_byte (x : Nat) : (x >>> 8) &&& 0xFF = x / 256 % 256 := by
  rw [Nat.shiftRight_eq_div_pow]
  exact Nat.and_pow_two_sub_one_eq_mod (x / 2 ^ 8) 8

theorem ctrl_start_state (s : CalypsoSPIState) (v : Nat) (hv : v &&& 1 ≠ 0) :
    (calypso_spi_write s SPI_REG_CTRL v).1 =
      { (twl3025_spi_xfer { s with ctrl := v &&& 0xFFFF } s.tx_data).2 with
        rx_data := (twl3025_spi_xfer { s with ctrl := v &&& 0xFFFF } s.tx_data).1 } := by
  unfold calypso_spi_write
  rw [if_neg (by decide), if_neg (by decide), if_pos rfl]
  simp only [SPI_CTRL_START]
  rw [if_pos hv]

/-- Claim C3. SPI read transaction. For every SPI state whose transmit word has bit 15 set
and index field (bits 14..6) `i < 256`, a guest write to the control register (offset 0x04)
with bit 0 set makes the receive word equal to `abb_regs[i]`, so that reads at 0x0C and 0x0E
return its low and high byte, and leaves every entry of the shadow table unmodified. -/
theorem spi_read_transaction (s : CalypsoSPIState) (v : Nat)
    (hread : s.tx_data.testBit 15 = true) (hidx : s.tx_data / 64 % 512 < 256)
    (hstart : v.testBit 0 = true) :
    (calypso_spi_write s SPI_REG_CTRL v).1.rx_data = s.abb_regs (s.tx_data / 64 % 512) ∧
    calypso_spi_read (calypso_spi_write s SPI_REG_CTRL v).1 0x0C
      = s.abb_regs (s.tx_data / 64 % 512) % 256 ∧
    calypso_spi_read (calypso_spi_write s SPI_REG_CTRL v).1 0x0E
      = s.abb_regs (s.tx_data / 64 % 512) / 256 % 256 ∧
    (calypso_spi_write s SPI_REG_CTRL v).1.abb_regs = s.abb_regs := by
  have hv : v &&& 1 ≠ 0 := by
    have h := Nat.and_two_pow v 0
    simp only [pow_zero] at h
    rw [h, hstart]; decide
  have hx : twl3025_spi_xfer { s with ctrl := v &&& 0xFFFF } s.tx_data =
      (s.abb_regs (s.tx_data / 64 % 512), { s with ctrl := v &&& 0xFFFF }) := by
    unfold twl3025_spi_xfer
    simp only [index_field]
    rw [if_pos ((shift15_and_one _).2 hread), if_neg (by omega)]
  rw [ctrl_start_state s v hv, hx]
  refine ⟨rfl, ?_, ?_, rfl⟩
  · simp only [calypso_spi_read, SPI_REG_SET1, SPI_REG_SET2, SPI_REG_CTRL, SPI_REG_STATUS,
      SPI_REG_TX_LSB, SPI_REG_TX_MSB, SPI_REG_RX_LSB, low_byte]
    simp
  · simp only [calypso_spi_read, SPI_REG_SET1, SPI_REG_SET2, SPI_REG_CTRL, SPI_REG_STATUS,
      SPI_REG_TX_LSB, SPI_REG_TX_MSB, SPI_REG_RX_LSB, SPI_REG_RX_MSB, high_byte]
    simp

/-- Witness for C3: transaction word `0x8040` with `abb_regs[1] = 0x2A`. -/
theorem spi_read_transaction_witness :
    demoRead.tx_data.testBit 15 = true ∧ demoRead.tx_data / 64 % 512 < 256 ∧
    (1 : Nat).testBit 0 = true ∧
    (calypso_spi_write demoRead SPI_REG_CTRL 1).1.rx_data = 0x2A ∧
    (calypso_spi_write demoRead SPI_REG_CTRL 1).1.abb_regs = demoRead.abb_regs := by
  have h := spi_read_transaction demoRead 1 (by decide) (by decide) (by decide)
  exact ⟨by decide, by decide, by decide, by rw [h.1]; decide, h.2.2.2⟩

/-- Claim C4. SPI write transaction. For every SPI state whose transmit word has bit 15
clear, with effective index `i` (bits 14..6, replaced by 0 when at least 256) and payload
`p` (bits 5..0), a control write with bit 0 set stores `abb_regs[i] := p`; when `i = 1`
(`ABB_VRPCDEV`) it also sets `abb_regs[2]` (`ABB_VRPCSTS`) to 0x1F; every other
shadow-table entry is unchanged; the receive word becomes 0; and a status read afterwards
returns ready (0x02). -/
theorem spi_write_transaction (s : CalypsoSPIState) (v : Nat)
    (hwrite : s.tx_data.testBit 15 = false) (hstart : v.testBit 0 = true) :
    (calypso_spi_write s SPI_REG_CTRL v).1.abb_regs =
      (fun k =>
        if k = 2 ∧ (if s.tx_data / 64 % 512 ≥ 256 then 0 else s.tx_data / 64 % 512) = 1 then 0x1F
        else if k = (if s.tx_data / 64 % 512 ≥ 256 then 0 else s.tx_data / 64 % 512)
          then s.tx_data % 64
        else s.abb_regs k) ∧
    (calypso_spi_write s SPI_REG_CTRL v).1.rx_data = 0 ∧
    calypso_spi_read (calypso_spi_write s SPI_REG_CTRL v).1 0x06 = 2 := by
  have hv : v &&& 1 ≠ 0 := by
    have h := Nat.and_two_pow v 0
    simp only [pow_zero] at h
    rw [h, hstart]; decide
  have hr : ¬ ((s.tx_data >>> 15) &&& 1 ≠ 0) := by
    rw [shift15_and_one, hwrite]; decide
  rw [ctrl_start_state s v hv]
  unfold twl3025_spi_xfer
  simp only [index_field, payload_field]
  rw [if_neg hr]
  refine ⟨?_, rfl, rfl⟩
  funext k
  simp only [ABB_VRPCDEV, ABB_VRPCSTS]
  split_ifs <;> simp_all [Function.update]

/-- Witness for C4: a write of payload `0x15` to index 1. -/
theorem spi_write_transaction_witness :
    demoWrite.tx_data.testBit 15 = false ∧ (1 : Nat).testBit 0 = true ∧
    (calypso_spi_write demoWrite SPI_REG_CTRL 1).1.abb_regs 1 = 0x15 ∧
    (calypso_spi_write demoWrite SPI_REG_CTRL 1).1.abb_regs 2 = 0x1F ∧
    calypso_spi_read (calypso_spi_write demoWrite SPI_REG_CTRL 1).1 0x06 = 2 := by
  have h := spi_write_transaction demoWrite 1 (by decide) (by decide)
  refine ⟨by decide, by decide, ?_, ?_, h.2.2⟩
  · rw [h.1]; decide
  · rw [h.1]; decide

theorem ctrl_write_eq (s : CalypsoSPIState) (v : Nat) :
    calypso_spi_write s SPI_REG_CTRL v =
      if v &&& 1 ≠ 0 then
        ({ (twl3025_spi_xfer { s with ctrl := v &&& 0xFFFF } s.tx_data).2 with
           rx_data := (twl3025_spi_xfer { s with ctrl := v &&& 0xFFFF } s.tx_data).1 },
         [true, false])
      else ({ s with ctrl := v &&& 0xFFFF }, []) := by
  unfold calypso_spi_write
  rw [if_neg (by decide), if_neg (by decide), if_pos rfl]
  rfl

/-- A transaction reads nothing of the state but the shadow table. -/
theorem xfer_reads_table (t u : CalypsoSPIState) (tx : Nat) (h : t.abb_regs = u.abb_regs) :
    (twl3025_spi_xfer t tx).1 = (twl3025_spi_xfer u tx).1 ∧
    (twl3025_spi_xfer t tx).2.abb_regs = (twl3025_spi_xfer u tx).2.abb_regs := by
  unfold twl3025_spi_xfer
  dsimp only
  split_ifs <;> simp [h]

/-- Claim C11. SPI index clamp. For every SPI state and every transmit word whose 9-bit
index field (bits 14..6) is at least 256, a transaction has exactly the same result (receive
word) and the same effect on the shadow table as the transaction with the same read flag
(bit 15) and payload (bits 5..0) addressed to index 0, both as `twl3025_spi_xfer` and as the
guest's control write that starts it. -/
theorem spi_index_clamp (s : CalypsoSPIState) (tx tx0 v : Nat)
    (hread : tx.testBit 15 = tx0.testBit 15) (hpay : tx % 64 = tx0 % 64)
    (hidx : 256 ≤ tx / 64 % 512) (hidx0 : tx0 / 64 % 512 = 0) :
    twl3025_spi_xfer s tx = twl3025_spi_xfer s tx0 ∧
    (calypso_spi_write { s with tx_data := tx } SPI_REG_CTRL v).1.rx_data
      = (calypso_spi_write { s with tx_data := tx0 } SPI_REG_CTRL v).1.rx_data ∧
    (calypso_spi_write { s with tx_data := tx } SPI_REG_CTRL v).1.abb_regs
      = (calypso_spi_write { s with tx_data := tx0 } SPI_REG_CTRL v).1.abb_regs ∧
    (calypso_spi_write { s with tx_data := tx } SPI_REG_CTRL v).2
      = (calypso_spi_write { s with tx_data := tx0 } SPI_REG_CTRL v).2 := by
  have hflag : ((tx >>> 15) &&& 1 ≠ 0) ↔ ((tx0 >>> 15) &&& 1 ≠ 0) := by
    rw [shift15_and_one, shift15_and_one, hread]
  have key : ∀ t : CalypsoSPIState, twl3025_spi_xfer t tx = twl3025_spi_xfer t tx0 := by
    intro t
    unfold twl3025_spi_xfer
    have e1 : (if tx / 64 % 512 ≥ 256 then 0 else tx / 64 % 512) = 0 := if_pos hidx
    have e2 : (if (0 : Nat) ≥ 256 then 0 else 0) = 0 := by simp
    simp only [index_field, payload_field, hpay, hidx0, e1, e2]
    by_cases hr : (tx >>> 15) &&& 1 ≠ 0
    · rw [if_pos hr, if_pos (hflag.1 hr)]
    · rw [if_neg hr, if_neg (fun h => hr (hflag.2 h))]
  have hx := xfer_reads_table { s with tx_data := tx, ctrl := v &&& 0xFFFF }
    { s with tx_data := tx0, ctrl := v &&& 0xFFFF } tx rfl
  have kb := key { s with tx_data := tx0, ctrl := v &&& 0xFFFF }
  rw [ctrl_write_eq, ctrl_write_eq]
  refine ⟨key s, ?_, ?_, ?_⟩
  · split_ifs
    · exact hx.1.trans (congrArg Prod.fst kb)
    · rfl
  · split_ifs
    · exact hx.2.trans (congrArg (fun p => p.2.abb_regs) kb)
    · rfl
  · split_ifs <;> rfl

/-- Witness for C11: the write `0x4055` (index field 257, payload `0x15`) acts as the write
`0x0015` to index 0. -/
theorem spi_index_clamp_witness :
    (0x4055 : Nat).testBit 15 = (0x0015 : Nat).testBit 15 ∧ 0x4055 % 64 = 0x0015 % 64 ∧
    256 ≤ 0x4055 / 64 % 512 ∧ 0x0015 / 64 % 512 = 0 ∧
    twl3025_spi_xfer demoClamp 0x4055 = twl3025_spi_xfer demoClamp 0x0015 ∧
    (calypso_spi_write demoClamp SPI_REG_CTRL 1).1.abb_regs 0 = 0x15 := by
  have h := spi_index_clamp demoClamp 0x4055 0x0015 1 (by decide) (by decide) (by decide)
    (by decide)
  exact ⟨by decide, by decide, by decide, by decide, h.1, by decide⟩

/-- Claim C20. SPI reset defaults. After `calypso_spi_reset` applied to any state, `set1`,
`set2`, `ctrl`, the transmit word and the receive word are 0, the `status` field is 0x02
(ready), and every shadow-table entry is 0 except `abb_regs[2]` (`ABB_VRPCSTS`), which is
0x1F; in particular `abb_regs[0x1B]` (`ABB_ITSTATREG`) is 0. -/
theorem spi_reset_defaults (s : CalypsoSPIState) :
    (calypso_spi_reset s).set1 = 0 ∧ (calypso_spi_reset s).set2 = 0 ∧
    (calypso_spi_reset s).ctrl = 0 ∧ (calypso_spi_reset s).tx_data = 0 ∧
    (calypso_spi_reset s).rx_data = 0 ∧ (calypso_spi_reset s).status = 0x02 ∧
    (∀ k, (calypso_spi_reset s).abb_regs k = if k = 2 then 0x1F else 0) ∧
    (calypso_spi_reset s).abb_regs 0x1B = 0 := by
  refine ⟨rfl, rfl, rfl, rfl, rfl, rfl, ?_, ?_⟩
  · intro k
    simp only [calypso_spi_reset, ABB_VRPCSTS, ABB_ITSTATREG, Function.update]
    split_ifs <;> first | rfl | omega | simp_all
  · simp [calypso_spi_reset, ABB_VRPCSTS, ABB_ITSTATREG, Function.update]

theorem write_other_offset (s : CalypsoSPIState) (offset value : Nat)
    (h : offset ≠ SPI_REG_CTRL) :
    (calypso_spi_write s offset value).2 = [] ∧
    (calypso_spi_write s offset value).1.abb_regs = s.abb_regs ∧
    (calypso_spi_write s offset value).1.rx_data = s.rx_data := by
  unfold calypso_spi_write
  split_ifs <;> exact ⟨rfl, rfl, rfl⟩

/-- Claim C21. SPI completion pulse. For every state, a guest write to the control register
(offset 0x04) with bit 0 set executes exactly one transaction (the shadow table and the
receive word are those of one `twl3025_spi_xfer` on the transmit word) and pulses the
interrupt line exactly once: one raise followed by one lower, the line ending lowered. A
control write with bit 0 clear, and every write to any other offset, executes no transaction,
delivers no interrupt notification, and leaves the shadow table and the receive word
unchanged. -/
theorem spi_completion_pulse (s : CalypsoSPIState) (v : Nat) :
    (v.testBit 0 = true →
      (calypso_spi_write s SPI_REG_CTRL v).2 = [true, false] ∧
      (calypso_spi_write s SPI_REG_CTRL v).1.abb_regs
        = (twl3025_spi_xfer s s.tx_data).2.abb_regs ∧
      (calypso_spi_write s SPI_REG_CTRL v).1.rx_data = (twl3025_spi_xfer s s.tx_data).1) ∧
    (v.testBit 0 = false →
      (calypso_spi_write s SPI_REG_CTRL v).2 = [] ∧
      (calypso_spi_write s SPI_REG_CTRL v).1.abb_regs = s.abb_regs ∧
      (calypso_spi_write s SPI_REG_CTRL v).1.rx_data = s.rx_data) ∧
    (∀ offset, offset ≠ 0x04 →
      (calypso_spi_write s offset v).2 = [] ∧
      (calypso_spi_write s offset v).1.abb_regs = s.abb_regs ∧
      (calypso_spi_write s offset v).1.rx_data = s.rx_data) := by
  have hbit : v &&& 1 ≠ 0 ↔ v.testBit 0 = true := by
    have h := Nat.and_two_pow v 0
    simp only [pow_zero] at h
    rw [h]; cases v.testBit 0 <;> simp
  refine ⟨?_, ?_, fun offset h => write_other_offset s offset v h⟩
  · intro h
    have hx := xfer_reads_table { s with ctrl := v &&& 0xFFFF } s s.tx_data rfl
    rw [ctrl_write_eq, if_pos (hbit.2 h)]
    exact ⟨rfl, hx.2, hx.1⟩
  · intro h
    rw [ctrl_write_eq, if_neg (by rw [hbit, h]; decide)]
    exact ⟨rfl, rfl, rfl⟩

theorem xfer_write_then_read (s : CalypsoSPIState) (w r : Nat)
    (hw : w.testBit 15 = false) (hr : r.testBit 15 = true)
    (hidx : w / 64 % 512 = r / 64 % 512) :
    (twl3025_spi_xfer (twl3025_spi_xfer s w).2 r).1 = w % 64 := by
  have h1 : ¬ ((w >>> 15) &&& 1 ≠ 0) := by rw [shift15_and_one, hw]; decide
  have h2 : (r >>> 15) &&& 1 ≠ 0 := (shift15_and_one r).2 hr
  unfold twl3025_spi_xfer
  simp only [index_field, payload_field, ← hidx]
  rw [if_neg h1, if_pos h2]
  simp only [ABB_VRPCDEV, ABB_VRPCSTS]
  generalize (if w / 64 % 512 ≥ 256 then 0 else w / 64 % 512) = i
  by_cases hi : i = 1
  · subst hi
    rw [if_pos rfl]
    show Function.update (Function.update s.abb_regs 1 (w % 64)) 2 31 1 = w % 64
    rw [Function.update_noteq (by decide), Function.update_same]
  · rw [if_neg hi]
    show Function.update s.abb_regs i (w % 64) i = w % 64
    rw [Function.update_same]

/-- Claim C25. SPI write-then-read round trip. For every SPI state, every 9-bit index field
value `a` (0..511) and every 6-bit payload `p`, a write transaction (bit 15 clear, index `a`,
payload `p`: the word `a * 64 + p`) followed by a read transaction (bit 15 set, index `a`:
the word `0x8000 + a * 64`) yields receive word exactly `p`, as two calls of
`twl3025_spi_xfer` and as the guest does it through the transmit word and two control
writes with the start bit. -/
theorem spi_write_read_round_trip (s : CalypsoSPIState) (a p v1 v2 : Nat)
    (ha : a < 512) (hp : p < 64) (hv1 : v1.testBit 0 = true) (hv2 : v2.testBit 0 = true) :
    (twl3025_spi_xfer (twl3025_spi_xfer s (a * 64 + p)).2 (0x8000 + a * 64)).1 = p ∧
    (calypso_spi_write
        { (calypso_spi_write { s with tx_data := a * 64 + p } SPI_REG_CTRL v1).1 with
          tx_data := 0x8000 + a * 64 }
        SPI_REG_CTRL v2).1.rx_data = p := by
  have hw : (a * 64 + p).testBit 15 = false :=
    Nat.testBit_lt_two_pow (by norm_num; omega)
  have hr : (0x8000 + a * 64).testBit 15 = true := by
    have h := Nat.testBit_two_pow_add_eq (a * 64) 15
    rw [Nat.testBit_lt_two_pow (show a * 64 < 2 ^ 15 by norm_num; omega)] at h
    simpa using h
  have hidx : (a * 64 + p) / 64 % 512 = (0x8000 + a * 64) / 64 % 512 := by omega
  have hpay : (a * 64 + p) % 64 = p := by omega
  have key := xfer_write_then_read s (a * 64 + p) (0x8000 + a * 64) hw hr hidx
  rw [hpay] at key
  have hbit : ∀ v : Nat, v.testBit 0 = true → v &&& 1 ≠ 0 := by
    intro v hv
    have h := Nat.and_two_pow v 0
    simp only [pow_zero] at h
    rw [h, hv]; decide
  refine ⟨key, ?_⟩
  rw [ctrl_write_eq, if_pos (hbit v2 hv2), ctrl_write_eq, if_pos (hbit v1 hv1)]
  have e1 := xfer_reads_table { s with tx_data := a * 64 + p, ctrl := v1 &&& 0xFFFF } s
    (a * 64 + p) rfl
  have e2 := xfer_reads_table
    { (twl3025_spi_xfer { s with tx_data := a * 64 + p, ctrl := v1 &&& 0xFFFF }
        (a * 64 + p)).2 with
      rx_data := (twl3025_spi_xfer { s with tx_data := a * 64 + p, ctrl := v1 &&& 0xFFFF }
        (a * 64 + p)).1
      tx_data := 0x8000 + a * 64, ctrl := v2 &&& 0xFFFF }
    (twl3025_spi_xfer s (a * 64 + p)).2 (0x8000 + a * 64) e1.2
  exact e2.1.trans key

/-- Witness for C25: write payload `0x15` to index 1, then read index 1; and the same at
index 257, which is clamped to index 0. -/
theorem spi_write_read_round_trip_witness :
    (1 : Nat) < 512 ∧ (0x15 : Nat) < 64 ∧ (1 : Nat).testBit 0 = true ∧
    (twl3025_spi_xfer (twl3025_spi_xfer demoRead (1 * 64 + 0x15)).2 (0x8000 + 1 * 64)).1
      = 0x15 ∧
    (twl3025_spi_xfer (twl3025_spi_xfer demoRead (257 * 64 + 0x15)).2 (0x8000 + 257 * 64)).1
      = 0x15 := by
  have h := spi_write_read_round_trip demoRead 1 0x15 1 1 (by decide) (by decide) (by decide)
    (by decide)
  have g := spi_write_read_round_trip demoRead 257 0x15 1 1 (by decide) (by decide)
    (by decide) (by decide)
  exact ⟨by decide, by decide, by decide, h.1, g.1⟩

theorem shiftLeft_and_shiftLeft (a b i : Nat) : (a <<< i) &&& (b <<< i) = (a &&& b) <<< i := by
  apply Nat.eq_of_testBit_eq
  intro j
  simp only [Nat.testBit_and, Nat.testBit_shiftLeft]
  cases decide (j ≥ i) <;> simp

theorem tx_lsb_then_msb (x l h : Nat) :
    (((x &&& 0xFF00) ||| (l &&& 0xFF)) &&& 0x00FF) ||| ((h &&& 0xFF) <<< 8)
      = (h % 256) * 256 + l % 256 := by
  have e0 : (0xFF00 : Nat) &&& 0xFF = 0 := by decide
  have e1 : (0xFF : Nat) &&& 0xFF = 0xFF := by decide
  rw [Nat.and_distrib_right, Nat.and_assoc, Nat.and_assoc, e0, e1, Nat.and_zero, Nat.zero_or]
  have hl : l &&& 0xFF = l % 256 := Nat.and_pow_two_sub_one_eq_mod l 8
  have hh : h &&& 0xFF = h % 256 := Nat.and_pow_two_sub_one_eq_mod h 8
  rw [hl, hh, Nat.shiftLeft_eq, Nat.or_comm, Nat.mul_comm]
  exact (Nat.mul_add_lt_is_or (Nat.mod_lt l (by norm_num)) (h % 256)).symm

theorem tx_msb_then_lsb (x l h : Nat) :
    (((x &&& 0x00FF) ||| ((h &&& 0xFF) <<< 8)) &&& 0xFF00) ||| (l &&& 0xFF)
      = (h % 256) * 256 + l % 256 := by
  have e0 : (0xFF : Nat) &&& 0xFF00 = 0 := by decide
  have e1 : (0xFF : Nat) &&& 0xFF = 0xFF := by decide
  have e2 : (0xFF00 : Nat) = 0xFF <<< 8 := by decide
  rw [Nat.and_distrib_right, Nat.and_assoc, e0, Nat.and_zero, Nat.zero_or, e2,
    shiftLeft_and_shiftLeft, Nat.and_assoc, e1]
  have hl : l &&& 0xFF = l % 256 := Nat.and_pow_two_sub_one_eq_mod l 8
  have hh : h &&& 0xFF = h % 256 := Nat.and_pow_two_sub_one_eq_mod h 8
  rw [hl, hh, Nat.shiftLeft_eq, Nat.mul_comm]
  exact (Nat.mul_add_lt_is_or (Nat.mod_lt l (by norm_num)) (h % 256)).symm

/-- Claim C27. SPI status and read-only registers. In every state, a guest read at offset
0x06 returns exactly 0x02 (bit 1, ready), whatever the `status` field holds and whatever was
written before; guest writes to offsets 0x06 (status), 0x0C and 0x0E (receive low and high)
leave the whole device state unchanged and deliver no interrupt; and after writing low byte
`l` to 0x08 and high byte `h` to 0x0A, in either order, the transmit word equals
`(h % 256) * 256 + l % 256`. -/
theorem spi_status_read_only (s : CalypsoSPIState) (v l h : Nat) :
    calypso_spi_read s 0x06 = 0x02 ∧
    (∀ offset value, calypso_spi_read (calypso_spi_write s offset value).1 0x06 = 0x02) ∧
    calypso_spi_write s 0x06 v = (s, []) ∧
    calypso_spi_write s 0x0C v = (s, []) ∧
    calypso_spi_write s 0x0E v = (s, []) ∧
    (calypso_spi_write (calypso_spi_write s 0x08 l).1 0x0A h).1.tx_data
      = (h % 256) * 256 + l % 256 ∧
    (calypso_spi_write (calypso_spi_write s 0x0A h).1 0x08 l).1.tx_data
      = (h % 256) * 256 + l % 256 := by
  refine ⟨rfl, fun _ _ => rfl, rfl, rfl, rfl, ?_, ?_⟩
  · exact tx_lsb_then_msb s.tx_data l h
  · exact tx_msb_then_lsb s.tx_data l h

theorem SixBit_xfer (s : CalypsoSPIState) (tx : Nat) (h : ∀ k : Nat, s.abb_regs k ≤ 0x3F) :
    (twl3025_spi_xfer s tx).1 ≤ 0x3F ∧
    ∀ k : Nat, (twl3025_spi_xfer s tx).2.abb_regs k ≤ 0x3F := by
  have hw : tx &&& 0x3F ≤ 0x3F := Nat.and_le_right
  have hu : ∀ (f : Nat → Nat) (i v : Nat), (∀ k, f k ≤ 0x3F) → v ≤ 0x3F →
      ∀ k, Function.update f i v k ≤ 0x3F := by
    intro f i v hf hv k
    by_cases hk : k = i
    · rw [hk, Function.update_same]; exact hv
    · rw [Function.update_noteq hk]; exact hf k
  unfold twl3025_spi_xfer
  dsimp only
  split_ifs
  all_goals first
    | exact ⟨h _, h⟩
    | exact ⟨Nat.zero_le _, hu _ _ _ (hu _ _ _ h hw) (by norm_num)⟩
    | exact ⟨Nat.zero_le _, hu _ _ _ h hw⟩

theorem SixBit_write (s : CalypsoSPIState) (offset value : Nat) (h : SixBit s) :
    SixBit (calypso_spi_write s offset value).1 := by
  by_cases ho : offset = SPI_REG_CTRL
  · subst ho
    rw [ctrl_write_eq]
    split_ifs
    · have hx := SixBit_xfer { s with ctrl := value &&& 0xFFFF } s.tx_data h.1
      exact ⟨hx.2, hx.1⟩
    · exact h
  · obtain ⟨-, h2, h3⟩ := write_other_offset s offset value ho
    unfold SixBit
    rw [h2, h3]
    exact h

theorem SixBit_reset (s : CalypsoSPIState) : SixBit (calypso_spi_reset s) := by
  refine ⟨fun k => ?_, Nat.zero_le _⟩
  show Function.update (Function.update (fun _ => 0) ABB_VRPCSTS 0x1F) ABB_ITSTATREG 0x00 k
    ≤ 0x3F
  by_cases h1 : k = ABB_ITSTATREG
  · rw [h1, Function.update_same]; norm_num
  · rw [Function.update_noteq h1]
    by_cases h2 : k = ABB_VRPCSTS
    · rw [h2, Function.update_same]; norm_num
    · rw [Function.update_noteq h2]; norm_num

theorem SixBit_run (ops : List SpiOp) : ∀ s : CalypsoSPIState, SixBit s →
    SixBit (spiRun s ops) := by
  induction ops with
  | nil => intro s h; exact h
  | cons op ops ih =>
    intro s h
    cases op with
    | read offset => exact ih s h
    | write offset value => exact ih _ (SixBit_write s offset value h)
    | reset => exact ih _ (SixBit_reset s)

/-- Claim C35. SPI shadow values are 6-bit. In every state reached from reset by any
sequence of guest register reads and writes and device resets, every entry of the shadow
table is at most 0x3F and the receive word is at most 0x3F, so a guest read of the receive
high byte (offset 0x0E) returns 0 and a read of the receive low byte (offset 0x0C) returns
the receive word itself. -/
theorem shadow_values_six_bit (s0 : CalypsoSPIState) (ops : List SpiOp) :
    (∀ k : Nat, (spiRun (calypso_spi_reset s0) ops).abb_regs k ≤ 0x3F) ∧
    (spiRun (calypso_spi_reset s0) ops).rx_data ≤ 0x3F ∧
    calypso_spi_read (spiRun (calypso_spi_reset s0) ops) SPI_REG_RX_MSB = 0 ∧
    calypso_spi_read (spiRun (calypso_spi_reset s0) ops) SPI_REG_RX_LSB
      = (spiRun (calypso_spi_reset s0) ops).rx_data := by
  have h := SixBit_run ops _ (SixBit_reset s0)
  generalize spiRun (calypso_spi_reset s0) ops = s at h
  obtain ⟨h1, h2⟩ := h
  refine ⟨h1, h2, ?_, ?_⟩
  · show (s.rx_data >>> 8) &&& 0xFF = 0
    rw [high_byte, Nat.div_eq_of_lt (by omega)]
  · show s.rx_data &&& 0xFF = s.rx_data
    rw [low_byte]
    exact Nat.mod_eq_of_lt (by omega)

end SPI

/-! ## Socket bridge: theorems -/

namespace Socket

theorem handler_stores (s : CalypsoSocketState) (c : List Nat) (hc : c ≠ [])
    (hroom : s.rx_len + c.length < 1024) :
    buffered (calypso_socket_read_handler s (.bytes c)).1 = buffered s ++ c ∧
    (calypso_socket_read_handler s (.bytes c)).1.rx_len = s.rx_len + c.length ∧
    (calypso_socket_read_handler s (.bytes c)).1.status = s.status ||| 1 ∧
    (calypso_socket_read_handler s (.bytes c)).1.client_fd = s.client_fd ∧
    (calypso_socket_read_handler s (.bytes c)).1.socket_fd = s.socket_fd ∧
    (calypso_socket_read_handler s (.bytes c)).2 = [] := by
  have hpos : c.length > 0 := List.length_pos.mpr hc
  have hmod : (s.rx_len + c.length) % 2 ^ 32 = s.rx_len + c.length := by omega
  simp only [calypso_socket_read_handler, RX_BUFFER_SIZE, if_pos hpos, hmod, if_pos hroom,
    CALYPSO_SOCKET_STATUS_READY]
  refine ⟨?_, trivial, trivial, trivial, trivial, trivial⟩
  simp only [buffered, List.range_add, List.map_append, List.map_map]
  congr 1
  · apply List.map_congr_left
    intro i hi
    rw [List.mem_range] at hi
    simp only [if_neg (show ¬ (s.rx_len ≤ i ∧ i < s.rx_len + c.length) by omega)]
  · apply List.ext_getElem
    · simp
    · intro i h1 h2
      simp only [List.length_map, List.length_range] at h1
      simp [List.getD_eq_getElem?_getD, h1]

theorem data_read_pop (s : CalypsoSocketState) (h : 0 < s.rx_len) :
    buffered s = (calypso_socket_read s CALYPSO_SOCKET_DATA).1 ::
      buffered (calypso_socket_read s CALYPSO_SOCKET_DATA).2 ∧
    (calypso_socket_read s CALYPSO_SOCKET_DATA).2.rx_len = s.rx_len - 1 ∧
    (calypso_socket_read s CALYPSO_SOCKET_DATA).2.status =
      (if s.rx_len = 1 then s.status &&& 0xFFFFFFFE else s.status) := by
  obtain ⟨n, hn⟩ : ∃ n, s.rx_len = n + 1 := ⟨s.rx_len - 1, by omega⟩
  unfold calypso_socket_read
  rw [if_neg (by decide), if_pos rfl, if_pos h]
  simp only [hn, Nat.add_sub_cancel, Nat.add_right_eq_self]
  refine ⟨?_, ?_, ?_⟩
  · simp only [buffered, hn]
    rw [List.range_succ_eq_map]
    simp only [List.map_cons, List.map_map]
    congr 1
    by_cases h0 : n = 0
    · subst h0; simp
    · rw [if_neg h0]
      apply List.map_congr_left
      intro i hi
      rw [List.mem_range] at hi
      simp [hi]
  · split_ifs <;> rfl
  · split_ifs <;> first | rfl | omega

theorem or_one_and_one (x : Nat) : (x ||| 1) &&& 1 ≠ 0 := by
  have h := Nat.and_two_pow (x ||| 1) 0
  simp only [pow_zero] at h
  rw [h]; simp

theorem mask_ready_and_one (x : Nat) : (x &&& 0xFFFFFFFE) &&& 1 = 0 := by
  have h : (0xFFFFFFFE : Nat) &&& 1 = 0 := by decide
  rw [Nat.and_assoc, h, Nat.and_zero]

theorem receive_chunks_spec (cs : List (List Nat)) : ∀ s : CalypsoSocketState,
    (∀ c ∈ cs, c ≠ []) → s.rx_len + cs.flatten.length < 1024 →
    buffered (receive_chunks s cs) = buffered s ++ cs.flatten ∧
    (receive_chunks s cs).rx_len = s.rx_len + cs.flatten.length ∧
    (cs ≠ [] → (receive_chunks s cs).status &&& 1 ≠ 0) ∧
    (s.status &&& 1 ≠ 0 → (receive_chunks s cs).status &&& 1 ≠ 0) := by
  induction cs with
  | nil => intro s _ _; simp [receive_chunks]
  | cons c cs ih =>
    intro s hne hcap
    simp only [List.flatten_cons, List.length_append] at hcap
    obtain ⟨p1, p2, p3, -⟩ :=
      handler_stores s c (hne c (List.mem_cons_self _ _)) (by omega)
    obtain ⟨q1, q2, -, q4⟩ := ih (calypso_socket_read_handler s (.bytes c)).1
      (fun d hd => hne d (List.mem_cons_of_mem _ hd)) (by rw [p2]; omega)
    have hready : (calypso_socket_read_handler s (.bytes c)).1.status &&& 1 ≠ 0 := by
      rw [p3]; exact or_one_and_one _
    refine ⟨?_, ?_, fun _ => q4 hready, fun _ => q4 hready⟩
    · simp only [receive_chunks, List.flatten_cons]
      rw [q1, p1, List.append_assoc]
    · simp only [receive_chunks, List.flatten_cons, List.length_append]
      rw [q2, p2]; omega

theorem read_port_spec (k : Nat) : ∀ s : CalypsoSocketState, k ≤ s.rx_len →
    (read_port k s).1 = (buffered s).take k ∧
    (k < s.rx_len → (read_port k s).2.status = s.status) ∧
    (k = s.rx_len → 0 < k → (read_port k s).2.status = s.status &&& 0xFFFFFFFE) := by
  induction k with
  | zero => intro s _; simp [read_port]
  | succ k ih =>
    intro s hk
    obtain ⟨r1, r2, r3⟩ := data_read_pop s (by omega)
    obtain ⟨i1, i2, i3⟩ := ih (calypso_socket_read s CALYPSO_SOCKET_DATA).2 (by rw [r2]; omega)
    simp only [read_port]
    refine ⟨?_, ?_, ?_⟩
    · rw [i1]; conv_rhs => rw [r1]
      simp
    · intro hlt
      rw [i2 (by rw [r2]; omega), r3, if_neg (by omega)]
    · intro heq _
      by_cases hk0 : k = 0
      · subst hk0
        simp only [read_port]
        rw [r3, if_pos (by omega)]
      · rw [i3 (by rw [r2]; omega) (by omega), r3, if_neg (by omega)]

/-- Claim C5. The socket bridge data port is a FIFO. For a bridge whose receive buffer is
empty, after the client read handler has received the bytes `b1..bn` (in one or more
non-empty chunks, `n ≥ 1`, `n` below the buffer capacity), `n` successive guest reads of
the data register (offset 0x08) return `b1, ..., bn` in send order; the ready bit (status
bit 0) is set before the first read and after each of the first `n - 1` reads, and is clear
after the `n`-th. -/
theorem socket_data_fifo (s : CalypsoSocketState) (chunks : List (List Nat))
    (hempty : s.rx_len = 0) (hne : chunks ≠ []) (hpos : ∀ c ∈ chunks, c ≠ [])
    (hcap : chunks.flatten.length < 1024) :
    (read_port chunks.flatten.length (receive_chunks s chunks)).1 = chunks.flatten ∧
    (∀ k, k < chunks.flatten.length →
      (read_port k (receive_chunks s chunks)).1 = chunks.flatten.take k ∧
      (read_port k (receive_chunks s chunks)).2.status &&& 1 ≠ 0) ∧
    (read_port chunks.flatten.length (receive_chunks s chunks)).2.status &&& 1 = 0 := by
  obtain ⟨p1, p2, p3, -⟩ := receive_chunks_spec chunks s hpos (by rw [hempty]; omega)
  have hb : buffered s = [] := by simp [buffered, hempty]
  rw [hb, List.nil_append] at p1
  rw [hempty, Nat.zero_add] at p2
  have hlen : 0 < chunks.flatten.length := by
    cases chunks with
    | nil => exact absurd rfl hne
    | cons c cs =>
      have := List.length_pos.mpr (hpos c (List.mem_cons_self _ _))
      simp only [List.flatten_cons, List.length_append]; omega
  refine ⟨?_, ?_, ?_⟩
  · obtain ⟨a, -, -⟩ := read_port_spec chunks.flatten.length (receive_chunks s chunks) (by rw [p2])
    rw [a, p1, List.take_length]
  · intro k hk
    obtain ⟨a, b, -⟩ := read_port_spec k (receive_chunks s chunks) (by rw [p2]; omega)
    exact ⟨by rw [a, p1], by rw [b (by rw [p2]; exact hk)]; exact p3 hne⟩
  · obtain ⟨-, -, c⟩ := read_port_spec chunks.flatten.length (receive_chunks s chunks) (by rw [p2])
    rw [c p2.symm hlen]
    exact mask_ready_and_one _

/-- Witness for C5: a client sends five bytes in one chunk. -/
theorem socket_data_fifo_witness :
    connected.rx_len = 0 ∧
    (read_port 5 (receive_chunks connected [[10, 20, 30, 40, 50]])).1 = [10, 20, 30, 40, 50] ∧
    (∀ k, k < 5 →
      (read_port k (receive_chunks connected [[10, 20, 30, 40, 50]])).2.status &&& 1 ≠ 0) ∧
    (read_port 5 (receive_chunks connected [[10, 20, 30, 40, 50]])).2.status &&& 1 = 0 := by
  have h := socket_data_fifo connected [[10, 20, 30, 40, 50]] rfl (by decide) (by decide)
    (by decide)
  exact ⟨rfl, h.1, fun k hk => (h.2.1 k hk).2, h.2.2⟩

/-- Counterexample to C6 as stated: with 1023 bytes buffered, a two-byte chunk is not cut to
its first byte; nothing is appended and `rx_len` stays 1023 rather than becoming
`min (1023 + 2) 1024`. -/
theorem read_handler_drops_whole_chunk :
    nearlyFull.rx_len = 1023 ∧
    ¬ ((calypso_socket_read_handler nearlyFull (.bytes [7, 8])).1.rx_len
        = min (nearlyFull.rx_len + 2) 1024) ∧
    (calypso_socket_read_handler nearlyFull (.bytes [7, 8])).1.rx_len = 1023 := by
  decide

/-- Claim C6, amended. Socket bridge receive capacity. For every state with `rx_len = r`,
`r ≤ 1024`, and every received chunk of `n` bytes, `1 ≤ n ≤ 1024`: when `r + n < 1024` the
read handler appends the whole chunk to the receive buffer, `rx_len` becomes `r + n`, the
ready bit is set and the error bit is left as it was; when `r + n > 1024` the whole chunk
is dropped (buffer contents and `rx_len` unchanged) and the error bit is set. -/
theorem read_handler_capacity (s : CalypsoSocketState) (chunk : List Nat)
    (hr : s.rx_len ≤ 1024) (hn1 : 1 ≤ chunk.length) (hn2 : chunk.length ≤ 1024) :
    (s.rx_len + chunk.length < 1024 →
      buffered (calypso_socket_read_handler s (.bytes chunk)).1 = buffered s ++ chunk ∧
      (calypso_socket_read_handler s (.bytes chunk)).1.rx_len = s.rx_len + chunk.length ∧
      (calypso_socket_read_handler s (.bytes chunk)).1.status &&& 1 ≠ 0 ∧
      (calypso_socket_read_handler s (.bytes chunk)).1.status &&& 2 = s.status &&& 2) ∧
    (1024 < s.rx_len + chunk.length →
      (calypso_socket_read_handler s (.bytes chunk)).1.rx_buffer = s.rx_buffer ∧
      (calypso_socket_read_handler s (.bytes chunk)).1.rx_len = s.rx_len ∧
      (calypso_socket_read_handler s (.bytes chunk)).1.status &&& 2 ≠ 0 ∧
      (calypso_socket_read_handler s (.bytes chunk)).1.status = s.status ||| 2) := by
  constructor
  · intro hroom
    obtain ⟨p1, p2, p3, -⟩ :=
      handler_stores s chunk (List.length_pos.mp (by omega)) hroom
    refine ⟨p1, p2, by rw [p3]; exact or_one_and_one _, ?_⟩
    rw [p3]
    apply Nat.eq_of_testBit_eq
    intro i
    simp only [Nat.testBit_and, Nat.testBit_or]
    rcases i with _ | _ | i <;> simp [Nat.testBit_succ]
  · intro hover
    have hpos : chunk.length > 0 := by omega
    have hmod : (s.rx_len + chunk.length) % 2 ^ 32 = s.rx_len + chunk.length := by omega
    simp only [calypso_socket_read_handler, RX_BUFFER_SIZE, if_pos hpos, hmod,
      if_neg (show ¬ s.rx_len + chunk.length < 1024 by omega), CALYPSO_SOCKET_STATUS_ERROR]
    refine ⟨trivial, trivial, ?_, trivial⟩
    have h := Nat.and_two_pow (s.status ||| 2) 1
    simp only [pow_one] at h
    rw [h]; simp +decide

/-- Witness for the amended C6: a three-byte chunk into the empty buffer. -/
theorem read_handler_capacity_witness :
    connected.rx_len ≤ 1024 ∧ 1 ≤ [1, 2, 3].length ∧ [1, 2, 3].length ≤ 1024 ∧
    buffered (calypso_socket_read_handler connected (.bytes [1, 2, 3])).1 = [1, 2, 3] ∧
    (calypso_socket_read_handler nearlyFull (.bytes [7, 8])).1.status &&& 2 ≠ 0 := by
  have h := read_handler_capacity connected [1, 2, 3] (by decide) (by decide) (by decide)
  have g := read_handler_capacity nearlyFull [7, 8] (by decide) (by decide) (by decide)
  exact ⟨by decide, by decide, by decide, (h.1 (by decide)).1, (g.2 (by decide)).2.2.1⟩




theorem bit0_mask (v : Nat) : v &&& 1 ≠ 0 ↔ v.testBit 0 = true := by
  have h := Nat.and_two_pow v 0
  simp only [pow_zero] at h
  rw [h]; cases v.testBit 0 <;> simp

theorem bit1_mask (v : Nat) : v &&& 2 ≠ 0 ↔ v.testBit 1 = true := by
  have h := Nat.and_two_pow v 1
  simp only [pow_one] at h
  rw [h]; cases v.testBit 1 <;> simp

theorem bit2_mask (v : Nat) : v &&& 4 ≠ 0 ↔ v.testBit 2 = true := by
  have h := Nat.and_two_pow v 2
  norm_num at h
  rw [h]; cases v.testBit 2 <;> simp

theorem testBit_or_one (x i : Nat) : (x ||| 1).testBit i = (x.testBit i || decide (i = 0)) := by
  rw [Nat.testBit_or]
  rcases i with _ | i <;> simp [Nat.testBit_succ]

theorem testBit_clear_ready (x i : Nat) :
    (x &&& 0xFFFFFFFE).testBit i = (x.testBit i && decide (1 ≤ i ∧ i < 32)) := by
  rw [Nat.testBit_and]
  congr 1
  have h : (0xFFFFFFFE : Nat) = 2 ^ 32 - 2 := by norm_num
  by_cases h0 : i = 0
  · subst h0; simp
  · by_cases h1 : i < 32
    · have : decide (1 ≤ i ∧ i < 32) = true := by simp; omega
      rw [this]
      interval_cases i <;> first | omega | decide
    · have : decide (1 ≤ i ∧ i < 32) = false := by simp; omega
      rw [this]
      apply Nat.testBit_lt_two_pow
      calc (0xFFFFFFFE : Nat) < 2 ^ 32 := by norm_num
        _ ≤ 2 ^ i := Nat.pow_le_pow_right (by norm_num) (by omega)

theorem reset_state (s : CalypsoSocketState) :
    (calypso_socket_reset s).1 =
      { s with
        socket_fd := if s.socket_fd ≥ 0 then -1 else s.socket_fd
        client_fd := if s.client_fd ≥ 0 then -1 else s.client_fd
        status := 0, rx_len := 0 } := by
  unfold calypso_socket_reset
  by_cases h1 : s.socket_fd ≥ 0 <;> by_cases h2 : s.client_fd ≥ 0 <;> simp [h1, h2]

theorem reset_calls (s : CalypsoSocketState) :
    (calypso_socket_reset s).2 =
      (if s.socket_fd ≥ 0 then [.unregister s.socket_fd, .close s.socket_fd] else []) ++
      (if s.client_fd ≥ 0 then [.unregister s.client_fd, .close s.client_fd] else []) := by
  unfold calypso_socket_reset
  by_cases h1 : s.socket_fd ≥ 0 <;> simp [h1]


theorem ctrl_reset_state (s : CalypsoSocketState) (v : Nat) (hv : v &&& 4 ≠ 0) :
    (socket_ctrl_write s v).1 =
      { s with
        socket_fd := if s.socket_fd ≥ 0 then -1 else s.socket_fd
        client_fd := if s.client_fd ≥ 0 then -1 else s.client_fd
        status := 0, rx_len := 0 } := by
  simp only [socket_ctrl_write, CALYPSO_SOCKET_CTRL_START, CALYPSO_SOCKET_CTRL_STOP,
    CALYPSO_SOCKET_CTRL_RESET, CALYPSO_SOCKET_STATUS_READY, hv, ne_eq, not_false_eq_true,
    if_true, reset_state]
  split_ifs <;> rfl

theorem ctrl_start_only (s : CalypsoSocketState) (v : Nat) (h1 : v &&& 1 ≠ 0)
    (h2 : v &&& 2 = 0) (h4 : v &&& 4 = 0) :
    socket_ctrl_write s v =
      (if s.socket_fd ≥ 0 ∧ s.client_fd < 0 then { s with status := s.status ||| 1 } else s,
       []) := by
  simp only [socket_ctrl_write, CALYPSO_SOCKET_CTRL_START, CALYPSO_SOCKET_CTRL_STOP,
    CALYPSO_SOCKET_CTRL_RESET, CALYPSO_SOCKET_STATUS_READY, h1, h2, h4, ne_eq,
    not_false_eq_true, not_true_eq_false, if_true, if_false]

theorem ctrl_stop_state (s : CalypsoSocketState) (v : Nat) (h2 : v &&& 2 ≠ 0)
    (h4 : v &&& 4 = 0) :
    socket_ctrl_write s v =
      ({ s with
         client_fd := if s.client_fd ≥ 0 then -1 else s.client_fd
         status := (if v &&& 1 ≠ 0 ∧ s.socket_fd ≥ 0 ∧ s.client_fd < 0 then s.status ||| 1
                    else s.status) &&& 0xFFFFFFFE },
       if s.client_fd ≥ 0 then [.unregister s.client_fd, .close s.client_fd] else []) := by
  simp only [socket_ctrl_write, CALYPSO_SOCKET_CTRL_START, CALYPSO_SOCKET_CTRL_STOP,
    CALYPSO_SOCKET_CTRL_RESET, CALYPSO_SOCKET_STATUS_READY, h2, h4, ne_eq,
    not_false_eq_true, not_true_eq_false, if_true, if_false]
  split_ifs <;> first | rfl | (exfalso; omega)

theorem ctrl_no_bits (s : CalypsoSocketState) (v : Nat) (h1 : v &&& 1 = 0)
    (h2 : v &&& 2 = 0) (h4 : v &&& 4 = 0) : socket_ctrl_write s v = (s, []) := by
  simp only [socket_ctrl_write, CALYPSO_SOCKET_CTRL_START, CALYPSO_SOCKET_CTRL_STOP,
    CALYPSO_SOCKET_CTRL_RESET, h1, h2, h4, ne_eq, not_true_eq_false, if_false]

theorem socket_write_ctrl (s : CalypsoSocketState) (v : Nat) (snd : SendResult) :
    calypso_socket_write s CALYPSO_SOCKET_CTRL v snd = socket_ctrl_write s v := by
  unfold calypso_socket_write
  rw [if_pos rfl]

theorem socket_write_data (s : CalypsoSocketState) (v : Nat) (snd : SendResult) :
    calypso_socket_write s CALYPSO_SOCKET_DATA v snd = socket_data_write s v snd := by
  unfold calypso_socket_write
  rw [if_neg (by decide), if_pos rfl]

/-- Counterexample to C13 as stated: after `drainedOps` on a listening bridge the listening
socket is open, a client is connected and the ready bit is clear; the control write with the
start bit leaves the ready bit clear. -/
theorem start_with_client_keeps_ready_clear :
    (sockRun listening drainedOps).socket_fd ≥ 0 ∧
    (sockRun listening drainedOps).client_fd = 4 ∧
    (sockRun listening drainedOps).status.testBit 0 = false ∧
    (calypso_socket_write (sockRun listening drainedOps) CALYPSO_SOCKET_CTRL 1
      ⟨0, false⟩).1.status.testBit 0 = false := by
  decide

/-- Claim C13, amended. Socket bridge start. For every state and every control write with the
start bit set and the stop and reset bits clear: when the listening socket is open and no
client is connected (`socket_fd ≥ 0`, `client_fd < 0`) the write sets the ready bit and
changes nothing else, with no host call; when a client is connected it changes nothing; and
in every state it is idempotent, a second such write leaving the state of the first. -/
theorem start_write (s : CalypsoSocketState) (v : Nat) (snd snd2 : SendResult)
    (h0 : v.testBit 0 = true) (h1 : v.testBit 1 = false) (h2 : v.testBit 2 = false) :
    (0 ≤ s.socket_fd → s.client_fd < 0 →
      calypso_socket_write s CALYPSO_SOCKET_CTRL v snd
        = ({ s with status := s.status ||| 1 }, []) ∧
      (calypso_socket_write s CALYPSO_SOCKET_CTRL v snd).1.status.testBit 0 = true ∧
      ∀ i, i ≠ 0 →
        (calypso_socket_write s CALYPSO_SOCKET_CTRL v snd).1.status.testBit i
          = s.status.testBit i) ∧
    (0 ≤ s.client_fd → calypso_socket_write s CALYPSO_SOCKET_CTRL v snd = (s, [])) ∧
    (calypso_socket_write (calypso_socket_write s CALYPSO_SOCKET_CTRL v snd).1
        CALYPSO_SOCKET_CTRL v snd2).1
      = (calypso_socket_write s CALYPSO_SOCKET_CTRL v snd).1 := by
  have d1 : v &&& 1 ≠ 0 := (bit0_mask v).2 h0
  have d2 : v &&& 2 = 0 := by
    by_contra h; rw [← ne_eq, bit1_mask, h1] at h; exact absurd h (by decide)
  have d4 : v &&& 4 = 0 := by
    by_contra h; rw [← ne_eq, bit2_mask, h2] at h; exact absurd h (by decide)
  simp only [socket_write_ctrl, ctrl_start_only _ v d1 d2 d4]
  refine ⟨?_, ?_, ?_⟩
  · intro hs hc
    rw [if_pos ⟨hs, hc⟩]
    refine ⟨rfl, ?_, ?_⟩
    · simp only [testBit_or_one]; simp
    · intro i hi
      simp only [testBit_or_one]; simp [hi]
  · intro hc
    rw [if_neg (by omega)]
  · by_cases c : s.socket_fd ≥ 0 ∧ s.client_fd < 0
    · simp only [if_pos c, Nat.or_assoc, Nat.or_self]
    · simp only [if_neg c]

/-- Witness for the amended C13: start on a listening bridge without a client. -/
theorem start_write_witness :
    (1 : Nat).testBit 0 = true ∧ (1 : Nat).testBit 1 = false ∧ (1 : Nat).testBit 2 = false ∧
    (calypso_socket_write listening CALYPSO_SOCKET_CTRL 1 ⟨0, false⟩).1.status.testBit 0
      = true ∧
    calypso_socket_write connected CALYPSO_SOCKET_CTRL 1 ⟨0, false⟩ = (connected, []) := by
  have h := start_write listening 1 ⟨0, false⟩ ⟨0, false⟩ (by decide) (by decide) (by decide)
  have g := start_write connected 1 ⟨0, false⟩ ⟨0, false⟩ (by decide) (by decide) (by decide)
  exact ⟨by decide, by decide, by decide, (h.1 (by decide) (by decide)).2.1,
    g.2.1 (by decide)⟩

/-- Claim C14. Socket bridge stop. For every state (the client descriptor being `-1` or
non-negative), a guest control write with the stop bit set and the reset bit clear leaves no
client connected (`client_fd = -1`; a previous client is unregistered and closed, and nothing
else is called), clears the ready bit, and leaves the listening descriptor, the receive
buffer contents and `rx_len`, and the error and transmit-completed status bits unchanged. -/
theorem stop_write (s : CalypsoSocketState) (v : Nat) (snd : SendResult)
    (hc : -1 ≤ s.client_fd) (h1 : v.testBit 1 = true) (h2 : v.testBit 2 = false) :
    (calypso_socket_write s CALYPSO_SOCKET_CTRL v snd).1.client_fd = -1 ∧
    (calypso_socket_write s CALYPSO_SOCKET_CTRL v snd).2 =
      (if s.client_fd ≥ 0 then [.unregister s.client_fd, .close s.client_fd] else []) ∧
    (calypso_socket_write s CALYPSO_SOCKET_CTRL v snd).1.status.testBit 0 = false ∧
    (calypso_socket_write s CALYPSO_SOCKET_CTRL v snd).1.socket_fd = s.socket_fd ∧
    (calypso_socket_write s CALYPSO_SOCKET_CTRL v snd).1.rx_buffer = s.rx_buffer ∧
    (calypso_socket_write s CALYPSO_SOCKET_CTRL v snd).1.rx_len = s.rx_len ∧
    (calypso_socket_write s CALYPSO_SOCKET_CTRL v snd).1.status.testBit 1
      = s.status.testBit 1 ∧
    (calypso_socket_write s CALYPSO_SOCKET_CTRL v snd).1.status.testBit 2
      = s.status.testBit 2 := by
  have d2 : v &&& 2 ≠ 0 := (bit1_mask v).2 h1
  have d4 : v &&& 4 = 0 := by
    by_contra h; rw [← ne_eq, bit2_mask, h2] at h; exact absurd h (by decide)
  rw [socket_write_ctrl, ctrl_stop_state s v d2 d4]
  refine ⟨?_, rfl, ?_, rfl, rfl, rfl, ?_, ?_⟩
  · simp only; split_ifs <;> omega
  · simp only [testBit_clear_ready]; simp
  · simp only [testBit_clear_ready]
    split_ifs <;> (try simp only [testBit_or_one]) <;> simp
  · simp only [testBit_clear_ready]
    split_ifs <;> (try simp only [testBit_or_one]) <;> simp

/-- Witness for C14: stop (value 2) on a bridge with client 4. -/
theorem stop_write_witness :
    -1 ≤ connected.client_fd ∧ (2 : Nat).testBit 1 = true ∧ (2 : Nat).testBit 2 = false ∧
    (calypso_socket_write connected CALYPSO_SOCKET_CTRL 2 ⟨0, false⟩).1.client_fd = -1 ∧
    (calypso_socket_write connected CALYPSO_SOCKET_CTRL 2 ⟨0, false⟩).2
      = [.unregister 4, .close 4] := by
  have h := stop_write connected 2 ⟨0, false⟩ (by decide) (by decide) (by decide)
  exact ⟨by decide, by decide, by decide, h.1, by rw [h.2.1]; decide⟩

/-- Claim C15. Socket bridge data write. For every state and value `v`, a guest write to the
data register (offset 0x08) makes no host call and changes no state when no client is
connected; otherwise it sends exactly one byte, `v % 256`, to the client and then sets the
transmit-completed bit (bit 2) if the send succeeded, sets the error bit (bit 1) if the send
failed with an error other than would-block, and leaves the status unchanged on would-block.
In every case the ready bit, the receive buffer and both descriptors are unchanged. -/
theorem data_port_write (s : CalypsoSocketState) (v : Nat) (snd : SendResult) :
    (s.client_fd < 0 → calypso_socket_write s CALYPSO_SOCKET_DATA v snd = (s, [])) ∧
    (0 ≤ s.client_fd →
      (calypso_socket_write s CALYPSO_SOCKET_DATA v snd).2 = [.send s.client_fd (v % 256)] ∧
      (0 < snd.sent →
        (calypso_socket_write s CALYPSO_SOCKET_DATA v snd).1.status = s.status ||| 4 ∧
        (calypso_socket_write s CALYPSO_SOCKET_DATA v snd).1.status.testBit 2 = true) ∧
      (snd.sent < 0 → snd.would_block = false →
        (calypso_socket_write s CALYPSO_SOCKET_DATA v snd).1.status = s.status ||| 2 ∧
        (calypso_socket_write s CALYPSO_SOCKET_DATA v snd).1.status.testBit 1 = true) ∧
      (snd.sent < 0 → snd.would_block = true →
        (calypso_socket_write s CALYPSO_SOCKET_DATA v snd).1.status = s.status)) ∧
    ((calypso_socket_write s CALYPSO_SOCKET_DATA v snd).1.status.testBit 0
        = s.status.testBit 0 ∧
      (calypso_socket_write s CALYPSO_SOCKET_DATA v snd).1.rx_buffer = s.rx_buffer ∧
      (calypso_socket_write s CALYPSO_SOCKET_DATA v snd).1.rx_len = s.rx_len ∧
      (calypso_socket_write s CALYPSO_SOCKET_DATA v snd).1.socket_fd = s.socket_fd ∧
      (calypso_socket_write s CALYPSO_SOCKET_DATA v snd).1.client_fd = s.client_fd) := by
  have hbyte : v &&& 0xFF = v % 256 := Nat.and_pow_two_sub_one_eq_mod v 8
  rw [socket_write_data]
  unfold socket_data_write
  simp only [CALYPSO_SOCKET_STATUS_ERROR, CALYPSO_SOCKET_STATUS_TX, hbyte]
  refine ⟨?_, ?_, ?_⟩
  · intro hc
    rw [if_neg (by omega)]
  · intro hc
    rw [if_pos (by omega)]
    refine ⟨rfl, ?_, ?_, ?_⟩
    · intro hpos
      rw [if_neg (by omega), if_pos hpos]
      exact ⟨rfl, by simp +decide [Nat.testBit_or]⟩
    · intro hneg hwb
      rw [if_pos ⟨hneg, hwb⟩]
      exact ⟨rfl, by simp +decide [Nat.testBit_or]⟩
    · intro hneg hwb
      rw [if_neg (by simp [hwb]), if_neg (by omega)]
  · split_ifs <;> refine ⟨?_, rfl, rfl, rfl, rfl⟩ <;> first
      | rfl
      | (simp only [Nat.testBit_or]; simp +decide)

/-- Claim C16. Socket bridge client teardown on receive. For every state, in particular every
state with a connected client: when the read handler's `recv` returns zero bytes the client is unregistered and
closed, `client_fd = -1` and the ready bit is cleared; when it fails with an error other than
would-block the client is unregistered and closed, `client_fd = -1` and the error bit is set;
when it fails with would-block the whole device state is unchanged and nothing is called. In
all three cases the listening descriptor and the receive buffer are unchanged. -/
theorem receive_teardown (s : CalypsoSocketState) :
    ((calypso_socket_read_handler s (.bytes [])).2
        = [.unregister s.client_fd, .close s.client_fd] ∧
      (calypso_socket_read_handler s (.bytes [])).1.client_fd = -1 ∧
      (calypso_socket_read_handler s (.bytes [])).1.status.testBit 0 = false) ∧
    ((calypso_socket_read_handler s (.error false)).2
        = [.unregister s.client_fd, .close s.client_fd] ∧
      (calypso_socket_read_handler s (.error false)).1.client_fd = -1 ∧
      (calypso_socket_read_handler s (.error false)).1.status.testBit 1 = true) ∧
    calypso_socket_read_handler s (.error true) = (s, []) ∧
    (∀ r, r = RecvResult.bytes [] ∨ r = RecvResult.error false ∨ r = RecvResult.error true →
      (calypso_socket_read_handler s r).1.socket_fd = s.socket_fd ∧
      (calypso_socket_read_handler s r).1.rx_buffer = s.rx_buffer ∧
      (calypso_socket_read_handler s r).1.rx_len = s.rx_len) := by
  refine ⟨⟨rfl, rfl, ?_⟩, ⟨rfl, rfl, ?_⟩, rfl, ?_⟩
  · show (s.status &&& 0xFFFFFFFE).testBit 0 = false
    rw [testBit_clear_ready]; simp
  · show (s.status ||| 2).testBit 1 = true
    simp +decide [Nat.testBit_or]
  · rintro r (h | h | h) <;> subst h <;> exact ⟨rfl, rfl, rfl⟩

/-- Instance of C16 at the bridge with client 4. -/
theorem receive_teardown_witness :
    0 ≤ connected.client_fd ∧
    (calypso_socket_read_handler connected (.bytes [])).2 = [.unregister 4, .close 4] ∧
    (calypso_socket_read_handler connected (.bytes [])).1.client_fd = -1 ∧
    (calypso_socket_read_handler connected (.error false)).1.status.testBit 1 = true := by
  have h := receive_teardown connected
  exact ⟨by decide, h.1.1, h.1.2.1, h.2.1.2.2⟩

theorem openClients_append (live : List Int) (xs ys : List HostCall) :
    openClients live (xs ++ ys) = openClients (openClients live xs) ys := by
  simp [openClients, List.foldl_append]

theorem atMostOneOpen_append (xs : List HostCall) : ∀ (live : List Int) (ys : List HostCall),
    atMostOneOpen live xs → atMostOneOpen (openClients live xs) ys →
    atMostOneOpen live (xs ++ ys) := by
  induction xs with
  | nil => intro live ys _ h; exact h
  | cons c cs ih =>
    intro live ys hx hy
    exact ⟨hx.1, ih _ ys hx.2 hy⟩

theorem heldClient_length (s : CalypsoSocketState) : (heldClient s).length ≤ 1 := by
  unfold heldClient; split_ifs <;> simp

theorem stepOk_quiet (s t : CalypsoSocketState) (h : t.client_fd = s.client_fd) :
    StepOk s t [] := by
  refine ⟨heldClient_length s, ?_⟩
  simp only [openClients, List.foldl_nil, heldClient, h]

theorem stepOk_trans {s t u : CalypsoSocketState} {c1 c2 : List HostCall}
    (h1 : StepOk s t c1) (h2 : StepOk t u c2) : StepOk s u (c1 ++ c2) := by
  refine ⟨atMostOneOpen_append _ _ _ h1.1 (by rw [h1.2]; exact h2.1), ?_⟩
  rw [openClients_append, h1.2, h2.2]

theorem stepOk_teardown (s t : CalypsoSocketState) (h : t.client_fd < 0) :
    StepOk s t [.unregister s.client_fd, .close s.client_fd] := by
  have ht : heldClient t = [] := by unfold heldClient; rw [if_neg (by omega)]
  unfold StepOk
  rw [ht]
  unfold heldClient
  by_cases hc : s.client_fd ≥ 0
  · simp [hc, atMostOneOpen, openClients, clientsAfter]
  · simp [hc, atMostOneOpen, openClients, clientsAfter]

theorem stepOk_teardown_if (s t : CalypsoSocketState)
    (h : t.client_fd = if s.client_fd ≥ 0 then -1 else s.client_fd) :
    StepOk s t (if s.client_fd ≥ 0 then [.unregister s.client_fd, .close s.client_fd]
      else []) := by
  by_cases hc : s.client_fd ≥ 0
  · rw [if_pos hc] at h ⊢
    exact stepOk_teardown s t (by omega)
  · rw [if_neg hc] at h ⊢
    exact stepOk_quiet s t h

theorem stepOk_accept (t u : CalypsoSocketState) (l accepted : Int) (ht : t.client_fd < 0)
    (hu : u.client_fd = accepted) :
    StepOk t u ([HostCall.accept l accepted] ++
      if accepted ≥ 0 then [.set_nonblock accepted, .register_read accepted] else []) := by
  unfold StepOk heldClient
  rw [if_neg (by omega), hu]
  by_cases ha : accepted ≥ 0
  · simp [ha, atMostOneOpen, openClients, clientsAfter]
  · simp [ha, atMostOneOpen, openClients, clientsAfter]

theorem accept_calls (s : CalypsoSocketState) (accepted : Int) :
    (calypso_socket_accept_handler s accepted).2 =
      (if s.client_fd ≥ 0 then [.unregister s.client_fd, .close s.client_fd] else []) ++
      ([HostCall.accept s.socket_fd accepted] ++
        if accepted ≥ 0 then [.set_nonblock accepted, .register_read accepted] else []) ∧
    (calypso_socket_accept_handler s accepted).1.client_fd = accepted := by
  unfold calypso_socket_accept_handler
  by_cases ha : accepted < 0
  · simp only [if_pos ha, if_neg (show ¬ accepted ≥ 0 by omega), List.append_nil, and_self]
  · simp only [if_neg ha, if_pos (show accepted ≥ 0 by omega), List.singleton_append, and_self]

theorem accept_step_ok (s : CalypsoSocketState) (accepted : Int) :
    StepOk s (calypso_socket_accept_handler s accepted).1
      (calypso_socket_accept_handler s accepted).2 := by
  have h1 : StepOk s { s with client_fd := if s.client_fd ≥ 0 then -1 else s.client_fd }
      (if s.client_fd ≥ 0 then [.unregister s.client_fd, .close s.client_fd] else []) :=
    stepOk_teardown_if s _ rfl
  obtain ⟨e1, e2⟩ := accept_calls s accepted
  rw [e1]
  exact stepOk_trans h1 (stepOk_accept _ _ _ _ (by simp only; split_ifs <;> omega) e2)

theorem receive_step_shape (s : CalypsoSocketState) (r : RecvResult) :
    ((calypso_socket_read_handler s r).2 = [] ∧
      (calypso_socket_read_handler s r).1.client_fd = s.client_fd) ∨
    ((calypso_socket_read_handler s r).2 = [.unregister s.client_fd, .close s.client_fd] ∧
      (calypso_socket_read_handler s r).1.client_fd = -1) := by
  cases r with
  | bytes data =>
    simp only [calypso_socket_read_handler]
    split_ifs
    · exact Or.inl ⟨rfl, rfl⟩
    · exact Or.inl ⟨rfl, rfl⟩
    · exact Or.inr ⟨rfl, rfl⟩
  | error wb =>
    simp only [calypso_socket_read_handler]
    split_ifs
    · exact Or.inr ⟨rfl, rfl⟩
    · exact Or.inl ⟨rfl, rfl⟩

theorem receive_step_ok (s : CalypsoSocketState) (r : RecvResult) :
    StepOk s (calypso_socket_read_handler s r).1 (calypso_socket_read_handler s r).2 := by
  rcases receive_step_shape s r with ⟨e1, e2⟩ | ⟨e1, e2⟩
  · rw [e1]; exact stepOk_quiet _ _ e2
  · rw [e1]; exact stepOk_teardown _ _ (by rw [e2]; decide)

/-- Unregistering and closing descriptor `fd` when it is open: at most one client stays
open throughout, and afterwards `fd` is not among the open clients. -/
theorem teardown_calls (live : List Int) (fd : Int) (h : live.length ≤ 1) :
    atMostOneOpen live (if fd ≥ 0 then [HostCall.unregister fd, HostCall.close fd] else []) ∧
    openClients live (if fd ≥ 0 then [HostCall.unregister fd, HostCall.close fd] else [])
      = (if fd ≥ 0 then live.erase fd else live) := by
  have he : (live.erase fd).length ≤ 1 := le_trans (List.length_erase_le fd live) h
  split_ifs
  · exact ⟨⟨h, h, he⟩, rfl⟩
  · exact ⟨h, rfl⟩

theorem reset_step_ok (s : CalypsoSocketState) :
    StepOk s (calypso_socket_reset s).1 (calypso_socket_reset s).2 := by
  rw [reset_calls, reset_state]
  obtain ⟨a1, a2⟩ := teardown_calls (heldClient s) s.socket_fd (heldClient_length s)
  have hl : (if s.socket_fd ≥ 0 then (heldClient s).erase s.socket_fd
      else heldClient s).length ≤ 1 := by
    split_ifs
    · exact le_trans (List.length_erase_le _ _) (heldClient_length s)
    · exact heldClient_length s
  obtain ⟨b1, b2⟩ := teardown_calls _ s.client_fd hl
  refine ⟨atMostOneOpen_append _ _ _ a1 (by rw [a2]; exact b1), ?_⟩
  rw [openClients_append, a2, b2]
  unfold heldClient
  by_cases hc : s.client_fd ≥ 0 <;> by_cases hs : s.socket_fd ≥ 0 <;>
    by_cases e : s.socket_fd = s.client_fd <;> simp [hc, hs, e]

theorem ctrl_reset_compose (s : CalypsoSocketState) (v : Nat) (h4 : v &&& 4 ≠ 0) :
    ∃ (t : CalypsoSocketState) (c : List HostCall), StepOk s t c ∧
      socket_ctrl_write s v = ((calypso_socket_reset t).1, c ++ (calypso_socket_reset t).2) := by
  by_cases c2 : v &&& 2 = 0
  · refine ⟨if v &&& 1 ≠ 0 then
        (if s.socket_fd ≥ 0 ∧ s.client_fd < 0 then { s with status := s.status ||| 1 } else s)
        else s, [], stepOk_quiet s _ (by split_ifs <;> rfl), ?_⟩
    simp only [socket_ctrl_write, CALYPSO_SOCKET_CTRL_START, CALYPSO_SOCKET_CTRL_STOP,
      CALYPSO_SOCKET_CTRL_RESET, CALYPSO_SOCKET_STATUS_READY, h4, c2, ne_eq,
      not_false_eq_true, not_true_eq_false, if_true, if_false]
  · refine ⟨{ s with
        client_fd := if s.client_fd ≥ 0 then -1 else s.client_fd
        status := (if v &&& 1 ≠ 0 ∧ s.socket_fd ≥ 0 ∧ s.client_fd < 0 then s.status ||| 1
                   else s.status) &&& 0xFFFFFFFE },
      if s.client_fd ≥ 0 then [.unregister s.client_fd, .close s.client_fd] else [],
      stepOk_teardown_if s _ rfl, ?_⟩
    simp only [socket_ctrl_write, CALYPSO_SOCKET_CTRL_START, CALYPSO_SOCKET_CTRL_STOP,
      CALYPSO_SOCKET_CTRL_RESET, CALYPSO_SOCKET_STATUS_READY, h4, c2, ne_eq,
      not_false_eq_true, not_true_eq_false, if_true, if_false]
    split_ifs <;> first | rfl | (exfalso; omega)

theorem ctrl_step_ok (s : CalypsoSocketState) (v : Nat) :
    StepOk s (socket_ctrl_write s v).1 (socket_ctrl_write s v).2 := by
  by_cases c4 : v &&& 4 = 0
  · by_cases c2 : v &&& 2 = 0
    · by_cases c1 : v &&& 1 = 0
      · rw [ctrl_no_bits s v c1 c2 c4]; exact stepOk_quiet s s rfl
      · rw [ctrl_start_only s v c1 c2 c4]
        exact stepOk_quiet s _ (by simp only; split_ifs <;> rfl)
    · rw [ctrl_stop_state s v c2 c4]
      exact stepOk_teardown_if s _ rfl
  · obtain ⟨t, c, h, e⟩ := ctrl_reset_compose s v c4
    rw [e]
    exact stepOk_trans h (reset_step_ok t)

theorem write_step_ok (s : CalypsoSocketState) (offset value : Nat) (snd : SendResult) :
    StepOk s (calypso_socket_write s offset value snd).1
      (calypso_socket_write s offset value snd).2 := by
  unfold calypso_socket_write
  split_ifs
  · exact ctrl_step_ok s value
  · unfold socket_data_write
    split_ifs <;> first
      | exact ⟨⟨heldClient_length s, heldClient_length s⟩, rfl⟩
      | exact stepOk_quiet s s rfl
  · exact stepOk_quiet s s rfl

theorem read_client_fd (s : CalypsoSocketState) (offset : Nat) :
    (calypso_socket_read s offset).2.client_fd = s.client_fd := by
  unfold calypso_socket_read
  split_ifs
  · rfl
  · dsimp only
    split_ifs <;> rfl
  · rfl
  · rfl

theorem sockStep_ok (s : CalypsoSocketState) (op : SockOp) :
    StepOk s (sockStep s op).1 (sockStep s op).2 := by
  cases op with
  | accept accepted => exact accept_step_ok s accepted
  | receive r => exact receive_step_ok s r
  | read offset => exact stepOk_quiet s _ (read_client_fd s offset)
  | write offset value snd => exact write_step_ok s offset value snd
  | reset => exact reset_step_ok s

theorem sockRun_ok (ops : List SockOp) : ∀ s : CalypsoSocketState,
    StepOk s (sockRun s ops) (sockCalls s ops) := by
  induction ops with
  | nil => intro s; exact stepOk_quiet s s rfl
  | cons op ops ih =>
    intro s
    exact stepOk_trans (sockStep_ok s op) (ih (sockStep s op).1)

/-- Claim C17. Socket bridge single-client invariant. Over every sequence of accept events,
receive events, guest accesses and resets starting from a bridge without a client, as
realize leaves it, at most one accepted client descriptor is open before, between and after all host
calls made, and the one open at the end is the one `client_fd` names. The accept handler
unregisters and closes an existing client before it calls `accept`; after a successful accept
`client_fd` is the newly accepted descriptor, it is registered for read-readiness, and the
ready bit is set. -/
theorem single_client (s0 : CalypsoSocketState) (ops : List SockOp)
    (hc : s0.client_fd = -1) :
    atMostOneOpen [] (sockCalls s0 ops) ∧
    openClients [] (sockCalls s0 ops) = heldClient (sockRun s0 ops) ∧
    (∀ (s : CalypsoSocketState) (accepted : Int),
      (calypso_socket_accept_handler s accepted).2 =
        (if s.client_fd ≥ 0 then [.unregister s.client_fd, .close s.client_fd] else []) ++
        ([HostCall.accept s.socket_fd accepted] ++
          if accepted ≥ 0 then [.set_nonblock accepted, .register_read accepted] else []) ∧
      (0 ≤ accepted →
        (calypso_socket_accept_handler s accepted).1.client_fd = accepted ∧
        HostCall.register_read accepted ∈ (calypso_socket_accept_handler s accepted).2 ∧
        (calypso_socket_accept_handler s accepted).1.status.testBit 0 = true)) := by
  have h0 : heldClient s0 = [] := by unfold heldClient; rw [hc]; rfl
  have h := sockRun_ok ops s0
  unfold StepOk at h
  rw [h0] at h
  refine ⟨h.1, h.2, ?_⟩
  intro s accepted
  obtain ⟨e1, e2⟩ := accept_calls s accepted
  refine ⟨e1, fun ha => ⟨e2, ?_, ?_⟩⟩
  · rw [e1, if_pos ha]; simp
  · unfold calypso_socket_accept_handler
    simp only [if_neg (show ¬ accepted < 0 by omega), CALYPSO_SOCKET_STATUS_READY,
      testBit_or_one]
    simp

/-- Witness for C17: two clients connect one after the other, the second while the first is
still connected; then the guest resets the bridge. -/
theorem single_client_witness :
    listening.client_fd = -1 ∧
    sockCalls listening [.accept 4, .accept 5] =
      [.accept 3 4, .set_nonblock 4, .register_read 4,
       .unregister 4, .close 4, .accept 3 5, .set_nonblock 5, .register_read 5] ∧
    openClients [] (sockCalls listening [.accept 4, .accept 5]) = [5] ∧
    atMostOneOpen [] (sockCalls listening [.accept 4, .accept 5, .reset]) := by
  have h := single_client listening [.accept 4, .accept 5] rfl
  have g := single_client listening [.accept 4, .accept 5, .reset] rfl
  exact ⟨rfl, by decide, by rw [h.2.1]; decide, g.1⟩

theorem FdOk_reset (s : CalypsoSocketState) (h : FdOk s) : FdOk (calypso_socket_reset s).1 := by
  rw [reset_state]
  obtain ⟨h1, h2⟩ := h
  constructor <;> simp only <;> split_ifs <;> omega

theorem FdOk_ctrl (s : CalypsoSocketState) (v : Nat) (h : FdOk s) :
    FdOk (socket_ctrl_write s v).1 := by
  by_cases c4 : v &&& 4 = 0
  · by_cases c2 : v &&& 2 = 0
    · by_cases c1 : v &&& 1 = 0
      · rw [ctrl_no_bits s v c1 c2 c4]; exact h
      · rw [ctrl_start_only s v c1 c2 c4]
        simp only; split_ifs <;> exact h
    · rw [ctrl_stop_state s v c2 c4]
      obtain ⟨h1, h2⟩ := h
      exact ⟨h1, by simp only; split_ifs <;> omega⟩
  · rw [ctrl_reset_state s v c4]
    obtain ⟨h1, h2⟩ := h
    constructor <;> simp only <;> split_ifs <;> omega

/-- Descriptors stay `-1` or non-negative under every event, `accept` returning `-1` or a
descriptor. -/
theorem FdOk_step (s : CalypsoSocketState) (op : SockOp) (h : FdOk s)
    (hop : ∀ a, op = SockOp.accept a → -1 ≤ a) : FdOk (sockStep s op).1 := by
  cases op with
  | accept accepted =>
    have ha := hop accepted rfl
    obtain ⟨-, e2⟩ := accept_calls s accepted
    refine ⟨?_, by simp only [sockStep]; rw [e2]; exact ha⟩
    simp only [sockStep, calypso_socket_accept_handler]
    split_ifs
    all_goals exact h.1
  | receive r =>
    rcases receive_step_shape s r with ⟨-, e2⟩ | ⟨-, e2⟩
    · refine ⟨?_, by simp only [sockStep]; rw [e2]; exact h.2⟩
      cases r <;> simp only [sockStep, calypso_socket_read_handler] <;> split_ifs <;> exact h.1
    · refine ⟨?_, by simp only [sockStep]; rw [e2]⟩
      cases r <;> simp only [sockStep, calypso_socket_read_handler] <;> split_ifs <;> exact h.1
  | read offset =>
    refine ⟨?_, by simp only [sockStep]; rw [read_client_fd]; exact h.2⟩
    simp only [sockStep, calypso_socket_read]
    split_ifs <;> exact h.1
  | write offset value snd =>
    simp only [sockStep, calypso_socket_write]
    split_ifs
    · exact FdOk_ctrl s value h
    · unfold socket_data_write
      split_ifs <;> exact h
    · exact h
  | reset => exact FdOk_reset s h

/-- What `calypso_socket_finalize` does in every state whose descriptors are `-1` or
non-negative: both descriptors end as `-1`, each open one unregistered and closed, and the
socket path is unlinked when, and only when, the listening descriptor was still open. -/
theorem finalize_effect (s : CalypsoSocketState) (h : FdOk s) :
    (calypso_socket_finalize s).1.socket_fd = -1 ∧
    (calypso_socket_finalize s).1.client_fd = -1 ∧
    (calypso_socket_finalize s).2 =
      (if s.socket_fd ≥ 0 then [.unregister s.socket_fd, .close s.socket_fd, .unlink_path]
       else []) ++
      (if s.client_fd ≥ 0 then [.unregister s.client_fd, .close s.client_fd] else []) ∧
    (HostCall.unlink_path ∈ (calypso_socket_finalize s).2 ↔ 0 ≤ s.socket_fd) := by
  obtain ⟨h1, h2⟩ := h
  unfold calypso_socket_finalize
  by_cases a : s.socket_fd ≥ 0 <;> by_cases b : s.client_fd ≥ 0 <;>
    simp [a, b] <;> omega

/-- Claim C26, evaluated where the code departs from it. On a realized bridge the guest
writes the reset bit; the listening descriptor is then closed (`socket_fd = -1`) and
`calypso_socket_finalize` makes no host call at all: the socket path is not unlinked.
Without the reset, finalize does unlink it. -/
theorem finalize_after_reset_keeps_path :
    0 ≤ listening.socket_fd ∧
    (sockRun listening guestResetOps).socket_fd = -1 ∧
    (calypso_socket_finalize (sockRun listening guestResetOps)).2 = [] ∧
    HostCall.unlink_path ∉ sockCalls listening guestResetOps ∧
    (calypso_socket_finalize listening).2 = [.unregister 3, .close 3, .unlink_path] := by
  decide

theorem status_or_keep (x m k : Nat) (h : x.testBit k = true) :
    (x ||| m).testBit k = true := by
  rw [Nat.testBit_or, h]; rfl

theorem status_mask_keep (x k : Nat) (hk : k = 1 ∨ k = 2) (h : x.testBit k = true) :
    (x &&& 0xFFFFFFFE).testBit k = true := by
  rw [testBit_clear_ready, h]
  rcases hk with rfl | rfl <;> decide

theorem ctrl_status_bit (s : CalypsoSocketState) (v k : Nat) (hk : k = 1 ∨ k = 2)
    (h4 : v &&& 4 = 0) (h : s.status.testBit k = true) :
    (socket_ctrl_write s v).1.status.testBit k = true := by
  simp only [socket_ctrl_write, CALYPSO_SOCKET_CTRL_RESET, h4, ne_eq, not_true_eq_false,
    if_false]
  split_ifs
  all_goals first
    | exact h
    | exact status_or_keep _ _ _ h
    | exact status_mask_keep _ _ hk h
    | exact status_mask_keep _ _ hk (status_or_keep _ _ _ h)

theorem step_status_bit (s : CalypsoSocketState) (op : SockOp) (k : Nat) (hk : k = 1 ∨ k = 2)
    (hop : resets op = false) (h : s.status.testBit k = true) :
    (sockStep s op).1.status.testBit k = true := by
  cases op with
  | accept accepted =>
    show (calypso_socket_accept_handler s accepted).1.status.testBit k = true
    unfold calypso_socket_accept_handler
    dsimp only
    split_ifs
    all_goals first
      | exact h
      | exact status_or_keep _ _ _ h
  | receive r =>
    show (calypso_socket_read_handler s r).1.status.testBit k = true
    cases r with
    | bytes data =>
      simp only [calypso_socket_read_handler]
      split_ifs
      · exact status_or_keep _ _ _ h
      · exact status_or_keep _ _ _ h
      · exact status_mask_keep _ _ hk h
    | error would_block =>
      simp only [calypso_socket_read_handler]
      split_ifs
      · exact status_or_keep _ _ _ h
      · exact h
  | read offset =>
    show (calypso_socket_read s offset).2.status.testBit k = true
    unfold calypso_socket_read
    dsimp only
    split_ifs
    all_goals first
      | exact h
      | exact status_mask_keep _ _ hk h
  | write offset value snd =>
    show (calypso_socket_write s offset value snd).1.status.testBit k = true
    unfold calypso_socket_write
    split_ifs with h0 h8
    · have h4 : value &&& 4 = 0 := by
        by_contra hc
        simp only [resets, CALYPSO_SOCKET_CTRL_RESET, decide_eq_false_iff_not] at hop
        exact hop ⟨h0, hc⟩
      exact ctrl_status_bit s value k hk h4 h
    · unfold socket_data_write
      dsimp only
      split_ifs
      all_goals first
        | exact h
        | exact status_or_keep _ _ _ h
    · exact h
  | reset => exact absurd hop (by decide)

theorem run_status_bit (ops : List SockOp) (k : Nat) (hk : k = 1 ∨ k = 2) :
    ∀ s : CalypsoSocketState, (∀ op ∈ ops, resets op = false) →
    s.status.testBit k = true → (sockRun s ops).status.testBit k = true := by
  induction ops with
  | nil => intro s _ h; exact h
  | cons op ops ih =>
    intro s hops h
    exact ih _ (fun o ho => hops o (List.mem_cons_of_mem _ ho))
      (step_status_bit s op k hk (hops op (List.mem_cons_self _ _)) h)

theorem resets_clear_status (s : CalypsoSocketState) (op : SockOp) (h : resets op = true) :
    (sockStep s op).1.status = 0 := by
  cases op with
  | accept accepted => simp [resets] at h
  | receive r => simp [resets] at h
  | read offset => simp [resets] at h
  | write offset value snd =>
    simp only [resets, CALYPSO_SOCKET_CTRL_RESET, decide_eq_true_eq] at h
    obtain ⟨h0, h4⟩ := h
    subst h0
    show (calypso_socket_write s CALYPSO_SOCKET_CTRL value snd).1.status = 0
    rw [socket_write_ctrl, ctrl_reset_state s value h4]
  | reset =>
    show (calypso_socket_reset s).1.status = 0
    rw [reset_state]

/-- Claim C32. Socket bridge error bit is sticky. When the error bit (status bit 1) or the
transmit-completed bit (status bit 2) is set, it is still set, and a guest status read
returns it set, after any sequence of guest reads, guest data writes, control writes without
the reset bit, and accept and receive callbacks. A reset (device reset, or a control write
with the reset bit) leaves `status = 0`, so both bits clear. -/
theorem error_bit_sticky (s : CalypsoSocketState) (ops : List SockOp) (k : Nat)
    (hk : k = 1 ∨ k = 2) (hset : s.status.testBit k = true)
    (hops : ∀ op ∈ ops, resets op = false) :
    (sockRun s ops).status.testBit k = true ∧
    (calypso_socket_read (sockRun s ops) CALYPSO_SOCKET_STATUS).1.testBit k = true ∧
    ∀ op : SockOp, resets op = true → (sockStep (sockRun s ops) op).1.status = 0 := by
  have h := run_status_bit ops k hk s hops hset
  exact ⟨h, h, fun op hop => resets_clear_status _ op hop⟩

/-- Witness for C32: on a connected bridge a failed send sets the error bit; it stays set
through `stickyOps`, and a control write with the reset bit then clears the status. -/
theorem error_bit_sticky_witness :
    (sockStep connected (.write 0x08 0x55 ⟨-1, false⟩)).1.status.testBit 1 = true ∧
    (∀ op ∈ stickyOps, resets op = false) ∧
    (sockRun (sockStep connected (.write 0x08 0x55 ⟨-1, false⟩)).1 stickyOps).status.testBit 1
      = true ∧
    (sockStep (sockRun (sockStep connected (.write 0x08 0x55 ⟨-1, false⟩)).1 stickyOps)
      (.write 0x00 4 ⟨0, false⟩)).1.status = 0 :=
  have h := error_bit_sticky (sockStep connected (.write 0x08 0x55 ⟨-1, false⟩)).1 stickyOps 1
    (Or.inl rfl) (by decide) (by decide)
  ⟨by decide, by decide, h.1, h.2.2 _ (by decide)⟩

theorem step_rx_len (s : CalypsoSocketState) (op : SockOp) (h : s.rx_len < 1024) :
    (sockStep s op).1.rx_len < 1024 := by
  cases op with
  | accept accepted =>
    show (calypso_socket_accept_handler s accepted).1.rx_len < 1024
    unfold calypso_socket_accept_handler
    dsimp only
    split_ifs <;> exact h
  | receive r =>
    show (calypso_socket_read_handler s r).1.rx_len < 1024
    cases r with
    | bytes data =>
      simp only [calypso_socket_read_handler, RX_BUFFER_SIZE]
      split_ifs with h1 h2
      · exact h2
      · exact h
      · exact h
    | error would_block =>
      simp only [calypso_socket_read_handler]
      split_ifs <;> exact h
  | read offset =>
    show (calypso_socket_read s offset).2.rx_len < 1024
    unfold calypso_socket_read
    dsimp only
    split_ifs
    all_goals first
      | exact h
      | exact lt_of_le_of_lt (Nat.sub_le _ _) h
  | write offset value snd =>
    show (calypso_socket_write s offset value snd).1.rx_len < 1024
    unfold calypso_socket_write
    split_ifs
    · simp only [socket_ctrl_write, reset_state]
      split_ifs
      all_goals first
        | exact h
        | exact (by norm_num : (0 : Nat) < 1024)
    · unfold socket_data_write
      dsimp only
      split_ifs <;> exact h
    · exact h
  | reset =>
    show (calypso_socket_reset s).1.rx_len < 1024
    rw [reset_state]
    exact (by norm_num : (0 : Nat) < 1024)

theorem run_rx_len (ops : List SockOp) : ∀ s : CalypsoSocketState, s.rx_len < 1024 →
    (sockRun s ops).rx_len < 1024 := by
  induction ops with
  | nil => intro s h; exact h
  | cons op ops ih => intro s h; exact ih _ (step_rx_len s op h)

theorem step_frame (s : CalypsoSocketState) (op : SockOp) (h : s.rx_len < 1024)
    (hop : recvBounded op = true) (i : Nat) (hi : 1024 ≤ i) :
    (sockStep s op).1.rx_buffer i = s.rx_buffer i := by
  cases op with
  | accept accepted =>
    show (calypso_socket_accept_handler s accepted).1.rx_buffer i = _
    unfold calypso_socket_accept_handler
    dsimp only
    split_ifs <;> rfl
  | receive r =>
    show (calypso_socket_read_handler s r).1.rx_buffer i = _
    cases r with
    | bytes data =>
      have hd : data.length ≤ 1024 := by
        simpa only [recvBounded, decide_eq_true_eq] using hop
      have hmod : (s.rx_len + data.length) % 2 ^ 32 = s.rx_len + data.length :=
        Nat.mod_eq_of_lt (by omega)
      simp only [calypso_socket_read_handler, RX_BUFFER_SIZE, hmod]
      split_ifs with h1 h2
      · show (if s.rx_len ≤ i ∧ i < s.rx_len + data.length then _ else s.rx_buffer i) = _
        rw [if_neg (by omega)]
      · rfl
      · rfl
    | error would_block =>
      simp only [calypso_socket_read_handler]
      split_ifs <;> rfl
  | read offset =>
    show (calypso_socket_read s offset).2.rx_buffer i = _
    unfold calypso_socket_read
    dsimp only
    split_ifs
    all_goals first
      | rfl
      | (show (if i < s.rx_len - 1 then _ else s.rx_buffer i) = _
         rw [if_neg (by omega)])
  | write offset value snd =>
    show (calypso_socket_write s offset value snd).1.rx_buffer i = _
    unfold calypso_socket_write
    split_ifs
    · simp only [socket_ctrl_write, reset_state]
      split_ifs <;> rfl
    · unfold socket_data_write
      dsimp only
      split_ifs <;> rfl
    · rfl
  | reset =>
    show (calypso_socket_reset s).1.rx_buffer i = _
    rw [reset_state]

theorem run_frame (ops : List SockOp) : ∀ s : CalypsoSocketState, s.rx_len < 1024 →
    (∀ op ∈ ops, recvBounded op = true) → ∀ i : Nat, 1024 ≤ i →
    (sockRun s ops).rx_buffer i = s.rx_buffer i := by
  induction ops with
  | nil => intro s _ _ i _; rfl
  | cons op ops ih =>
    intro s h hops i hi
    show (sockRun (sockStep s op).1 ops).rx_buffer i = _
    rw [ih _ (step_rx_len s op h) (fun o ho => hops o (List.mem_cons_of_mem _ ho)) i hi]
    exact step_frame s op h (hops op (List.mem_cons_self _ _)) i hi

/-- Claim C36. Socket bridge receive buffer never overflows. In every state `s` reached from
instance initialisation by any sequence of accept and receive callbacks (each receive
delivering at most 1024 bytes), guest accesses and resets: `rx_len < 1024`; no cell at index
1024 or above has been changed along the way; when the receive handler stores a further
chunk of at most 1024 bytes, the copied range `[rx_len, rx_len + n)` ends within the
1024-byte buffer; and a guest data read decrements `rx_len` by exactly one when it is
positive and leaves it 0 otherwise, the shifted range `[1, rx_len)` lying within the
buffer. -/
theorem rx_buffer_never_overflows (s0 : CalypsoSocketState) (ops : List SockOp)
    (hops : ∀ op ∈ ops, recvBounded op = true) :
    (sockRun (calypso_socket_instance_init s0) ops).rx_len < RX_BUFFER_SIZE ∧
    (∀ i : Nat, RX_BUFFER_SIZE ≤ i →
      (sockRun (calypso_socket_instance_init s0) ops).rx_buffer i = s0.rx_buffer i) ∧
    (∀ data : List Nat, 0 < data.length → data.length ≤ 1024 →
      ((sockRun (calypso_socket_instance_init s0) ops).rx_len + data.length) % 2 ^ 32
        < RX_BUFFER_SIZE →
      (sockRun (calypso_socket_instance_init s0) ops).rx_len + data.length ≤ RX_BUFFER_SIZE) ∧
    ((calypso_socket_read (sockRun (calypso_socket_instance_init s0) ops)
        CALYPSO_SOCKET_DATA).2.rx_len
      + (if 0 < (sockRun (calypso_socket_instance_init s0) ops).rx_len then 1 else 0)
      = (sockRun (calypso_socket_instance_init s0) ops).rx_len) ∧
    1 + (calypso_socket_read (sockRun (calypso_socket_instance_init s0) ops)
        CALYPSO_SOCKET_DATA).2.rx_len ≤ RX_BUFFER_SIZE := by
  have h0 : (calypso_socket_instance_init s0).rx_len < 1024 := by
    show (0 : Nat) < 1024
    norm_num
  have hframe : ∀ i : Nat, RX_BUFFER_SIZE ≤ i →
      (sockRun (calypso_socket_instance_init s0) ops).rx_buffer i = s0.rx_buffer i :=
    fun i hi => run_frame ops _ h0 hops i hi
  have h : (sockRun (calypso_socket_instance_init s0) ops).rx_len < 1024 :=
    run_rx_len ops _ h0
  generalize sockRun (calypso_socket_instance_init s0) ops = s at h hframe
  have hread : (calypso_socket_read s CALYPSO_SOCKET_DATA).2.rx_len
      + (if 0 < s.rx_len then 1 else 0) = s.rx_len := by
    by_cases hp : 0 < s.rx_len
    · rw [(data_read_pop s hp).2.1, if_pos hp]; omega
    · rw [if_neg hp]
      unfold calypso_socket_read
      rw [if_neg (by decide), if_pos rfl, if_neg hp]
      rfl
  refine ⟨h, hframe, ?_, hread, ?_⟩
  · intro data _ hd hstore
    rw [Nat.mod_eq_of_lt (by omega)] at hstore
    exact le_of_lt hstore
  · show 1 + _ ≤ 1024
    split_ifs at hread <;> omega

/-- Witness for C36: after `fillOps` from instance initialisation two bytes are waiting. -/
theorem rx_buffer_never_overflows_witness :
    (∀ op ∈ fillOps, recvBounded op = true) ∧
    (sockRun (calypso_socket_instance_init connected) fillOps).rx_len = 2 ∧
    (sockRun (calypso_socket_instance_init connected) fillOps).rx_len < RX_BUFFER_SIZE ∧
    (calypso_socket_read (sockRun (calypso_socket_instance_init connected) fillOps)
      CALYPSO_SOCKET_DATA).2.rx_len = 1 :=
  have h := rx_buffer_never_overflows connected fillOps (by decide)
  ⟨by decide, by decide, h.1, by decide⟩

end Socket

/-! ## Address-space composition: theorems -/

namespace SoC

theorem clashes_mem (rs : List Region) : ∀ (i j : Nat) (a b : Region),
    rs[i]? = some a → rs[j]? = some b → i < j → clash a b = true →
    (a.name, b.name) ∈ clashes rs := by
  induction rs with
  | nil => intro i j a b hi; simp at hi
  | cons r rs ih =>
    intro i j a b hi hj hij hc
    obtain ⟨j, rfl⟩ : ∃ k, j = k + 1 := ⟨j - 1, by omega⟩
    rw [List.getElem?_cons_succ] at hj
    rcases i with _ | i
    · rw [List.getElem?_cons_zero, Option.some.injEq] at hi
      subst hi
      apply List.mem_append_left
      exact List.mem_map.2 ⟨b, List.mem_filter.2 ⟨List.getElem?_mem hj, hc⟩, rfl⟩
    · rw [List.getElem?_cons_succ] at hi
      exact List.mem_append_right _ (ih i j a b hi hj (by omega) hc)

/-- Claim C33, evaluated where the code departs from it. Whatever priority `memory_region_add_subregion` and
`sysbus_mmio_map` assign, the IRAM alias (256 KiB at 0) and the stub `calypso.low300`
(0x100 bytes at 0x300) are registered at the same priority and the stub lies inside the
alias; with the priorities of the memory core (0 for both calls) this is the only pair of
the twenty-one listed regions that overlaps at equal priority. -/
theorem low300_overlaps_iram_alias :
    (∀ dflt mapped : Int,
      (RegionName.iram_alias, RegionName.low300) ∈ clashes (calypso_machine_init dflt mapped)) ∧
    clashes (calypso_machine_init 0 0) = [(RegionName.iram_alias, RegionName.low300)] ∧
    (calypso_machine_init 0 0).length = 21 := by
  refine ⟨?_, by decide, by decide⟩
  intro dflt mapped
  exact clashes_mem (calypso_machine_init dflt mapped) 1 17
    (memory_region_add_subregion dflt .iram_alias 0x00000000 CALYPSO_IRAM_SIZE)
    (add_stub dflt .low300 0x00000300) rfl rfl (by norm_num)
    (by simp [clash, overlaps, add_stub, memory_region_add_subregion, CALYPSO_IRAM_SIZE])

end SoC

end Calypso
